import Mathlib

/-!
A shallow embedding of the `math` linear-algebra library.

The C++ templates `Matrix4< T >`, `Vector3< T >` and `Vector4< T >` are embedded as
structures over an arbitrary scalar type `α`.  Every static "out-parameter" function
`f( out, in, ... )` becomes a function taking the prior value of `out` and returning
its new value, so that frame properties ("`out` is left unmodified") can be stated.
An optional output pointer `T *det = 0` is an `Option α`: `none` is the null pointer,
`some d` a pointer to a cell currently holding `d`.  The library function `sqrt` of
`<cmath>` is an explicit parameter `sqrt : α → α` of every function that calls it; the
conversions `static_cast< double >` and `static_cast< T >` around it are the identity
on an exact scalar type; `sin`, `cos`, `tan` and `acos` are parameters in the same way.

Calls in which the destination may be the same object as a source are embedded a second
time over a store `ℕ → T` of objects: the functions named `...Ref` take the addresses of
their reference parameters, read the sources from the store where the code reads them,
and return the store after the call.
-/

namespace MiyabiMath

/-! Section: Matrix4.h -/

/-- The 4x4 matrix of `Matrix4.h`: sixteen scalars `_11 .. _44`, stored row by row. -/
structure Matrix4 (α : Type) where
  _11 : α
  _12 : α
  _13 : α
  _14 : α
  _21 : α
  _22 : α
  _23 : α
  _24 : α
  _31 : α
  _32 : α
  _33 : α
  _34 : α
  _41 : α
  _42 : α
  _43 : α
  _44 : α
deriving DecidableEq, Repr

namespace Matrix4

variable {α : Type}

/-- The default constructor `Matrix4()`: every entry is `0`. -/
def zero [Zero α] : Matrix4 α :=
  ⟨0, 0, 0, 0, 0, 0, 0, 0, 0, 0, 0, 0, 0, 0, 0, 0⟩

/-- Read of the flat array `m[ 16 ]` that shares storage with `_11 .. _44`. -/
def get (a : Matrix4 α) (k : Fin 16) : α :=
  match k with
  | ⟨0, _⟩ => a._11
  | ⟨1, _⟩ => a._12
  | ⟨2, _⟩ => a._13
  | ⟨3, _⟩ => a._14
  | ⟨4, _⟩ => a._21
  | ⟨5, _⟩ => a._22
  | ⟨6, _⟩ => a._23
  | ⟨7, _⟩ => a._24
  | ⟨8, _⟩ => a._31
  | ⟨9, _⟩ => a._32
  | ⟨10, _⟩ => a._33
  | ⟨11, _⟩ => a._34
  | ⟨12, _⟩ => a._41
  | ⟨13, _⟩ => a._42
  | ⟨14, _⟩ => a._43
  | ⟨15, _⟩ => a._44
  | ⟨n + 16, h⟩ => absurd h (by omega)

/-- Write to the flat array `m[ 16 ]` that shares storage with `_11 .. _44`. -/
def set (a : Matrix4 α) (k : Fin 16) (v : α) : Matrix4 α :=
  match k with
  | ⟨0, _⟩ => { a with _11 := v }
  | ⟨1, _⟩ => { a with _12 := v }
  | ⟨2, _⟩ => { a with _13 := v }
  | ⟨3, _⟩ => { a with _14 := v }
  | ⟨4, _⟩ => { a with _21 := v }
  | ⟨5, _⟩ => { a with _22 := v }
  | ⟨6, _⟩ => { a with _23 := v }
  | ⟨7, _⟩ => { a with _24 := v }
  | ⟨8, _⟩ => { a with _31 := v }
  | ⟨9, _⟩ => { a with _32 := v }
  | ⟨10, _⟩ => { a with _33 := v }
  | ⟨11, _⟩ => { a with _34 := v }
  | ⟨12, _⟩ => { a with _41 := v }
  | ⟨13, _⟩ => { a with _42 := v }
  | ⟨14, _⟩ => { a with _43 := v }
  | ⟨15, _⟩ => { a with _44 := v }
  | ⟨n + 16, h⟩ => absurd h (by omega)

/-- The flat index `row * 4 + col` used by `operator ()` and by `transpose`. -/
def flat (row col : Fin 4) : Fin 16 :=
  ⟨row.val * 4 + col.val, by omega⟩

/-- The accessor `operator () ( row, col )`: `m[ row * 4 + col ]`. -/
def elem (a : Matrix4 α) (row col : Fin 4) : α :=
  a.get (flat row col)

/-- The matrix-matrix `operator *`. -/
def mul [Add α] [Mul α] (a m : Matrix4 α) : Matrix4 α :=
  ⟨a._11*m._11 + a._12*m._21 + a._13*m._31 + a._14*m._41,
   a._11*m._12 + a._12*m._22 + a._13*m._32 + a._14*m._42,
   a._11*m._13 + a._12*m._23 + a._13*m._33 + a._14*m._43,
   a._11*m._14 + a._12*m._24 + a._13*m._34 + a._14*m._44,

   a._21*m._11 + a._22*m._21 + a._23*m._31 + a._24*m._41,
   a._21*m._12 + a._22*m._22 + a._23*m._32 + a._24*m._42,
   a._21*m._13 + a._22*m._23 + a._23*m._33 + a._24*m._43,
   a._21*m._14 + a._22*m._24 + a._23*m._34 + a._24*m._44,

   a._31*m._11 + a._32*m._21 + a._33*m._31 + a._34*m._41,
   a._31*m._12 + a._32*m._22 + a._33*m._32 + a._34*m._42,
   a._31*m._13 + a._32*m._23 + a._33*m._33 + a._34*m._43,
   a._31*m._14 + a._32*m._24 + a._33*m._34 + a._34*m._44,

   a._41*m._11 + a._42*m._21 + a._43*m._31 + a._44*m._41,
   a._41*m._12 + a._42*m._22 + a._43*m._32 + a._44*m._42,
   a._41*m._13 + a._42*m._23 + a._43*m._33 + a._44*m._43,
   a._41*m._14 + a._42*m._24 + a._43*m._34 + a._44*m._44⟩

instance [Add α] [Mul α] : Mul (Matrix4 α) := ⟨mul⟩

/-- The matrix-scalar `operator * ( T s )`. -/
def mulScalar [Mul α] (a : Matrix4 α) (s : α) : Matrix4 α :=
  ⟨a._11*s, a._12*s, a._13*s, a._14*s,
   a._21*s, a._22*s, a._23*s, a._24*s,
   a._31*s, a._32*s, a._33*s, a._34*s,
   a._41*s, a._42*s, a._43*s, a._44*s⟩

/-- The matrix-scalar `operator / ( T s )`: multiplication by `f = 1/s`. -/
def divScalar [Mul α] [Div α] [One α] (a : Matrix4 α) (s : α) : Matrix4 α :=
  let f := 1 / s
  a.mulScalar f

/-- The compound `operator *=`: the product is built in `tmp`, then `*this = tmp`;
the returned value is the new `*this`. -/
def mulAssign [Add α] [Mul α] (self m : Matrix4 α) : Matrix4 α :=
  let tmp : Matrix4 α :=
    ⟨self._11*m._11 + self._12*m._21 + self._13*m._31 + self._14*m._41,
     self._11*m._12 + self._12*m._22 + self._13*m._32 + self._14*m._42,
     self._11*m._13 + self._12*m._23 + self._13*m._33 + self._14*m._43,
     self._11*m._14 + self._12*m._24 + self._13*m._34 + self._14*m._44,

     self._21*m._11 + self._22*m._21 + self._23*m._31 + self._24*m._41,
     self._21*m._12 + self._22*m._22 + self._23*m._32 + self._24*m._42,
     self._21*m._13 + self._22*m._23 + self._23*m._33 + self._24*m._43,
     self._21*m._14 + self._22*m._24 + self._23*m._34 + self._24*m._44,

     self._31*m._11 + self._32*m._21 + self._33*m._31 + self._34*m._41,
     self._31*m._12 + self._32*m._22 + self._33*m._32 + self._34*m._42,
     self._31*m._13 + self._32*m._23 + self._33*m._33 + self._34*m._43,
     self._31*m._14 + self._32*m._24 + self._33*m._34 + self._34*m._44,

     self._41*m._11 + self._42*m._21 + self._43*m._31 + self._44*m._41,
     self._41*m._12 + self._42*m._22 + self._43*m._32 + self._44*m._42,
     self._41*m._13 + self._42*m._23 + self._43*m._33 + self._44*m._43,
     self._41*m._14 + self._42*m._24 + self._43*m._34 + self._44*m._44⟩
  tmp

/-- The static `identity( m )`: the four chained assignments overwrite all sixteen
entries of `m`; the result is the new value of `m`. -/
def identity [Zero α] [One α] (m : Matrix4 α) : Matrix4 α :=
  let m := { m with _11 := 1, _22 := 1, _33 := 1, _44 := 1 }
  let m := { m with _12 := 0, _13 := 0, _14 := 0 }
  let m := { m with _21 := 0, _23 := 0, _24 := 0 }
  let m := { m with _31 := 0, _32 := 0, _34 := 0 }
  let m := { m with _41 := 0, _42 := 0, _43 := 0 }
  m

/-- The static `translation( m, x, y, z )`: the five lines of assignments overwrite all
sixteen entries of `m`; the result is the new value of `m`. -/
def translation [Zero α] [One α] (m : Matrix4 α) (x y z : α) : Matrix4 α :=
  let m := { m with _11 := 1, _22 := 1, _33 := 1 }
  let m := { m with _12 := 0, _13 := 0, _14 := 0 }
  let m := { m with _21 := 0, _23 := 0, _24 := 0 }
  let m := { m with _31 := 0, _32 := 0, _34 := 0 }
  let m := { m with _41 := x, _42 := y, _43 := z, _44 := 1 }
  m

/-- The static `determinant( m )`: the 24-term closed form. -/
def determinant [Add α] [Sub α] [Mul α] (m : Matrix4 α) : α :=
  m._11*m._22*m._33*m._44 + m._11*m._23*m._34*m._42 + m._11*m._24*m._32*m._43
    + m._12*m._21*m._34*m._43 + m._12*m._23*m._31*m._44 + m._12*m._24*m._33*m._41
    + m._13*m._21*m._32*m._44 + m._13*m._22*m._34*m._41 + m._13*m._24*m._31*m._42
    + m._14*m._21*m._33*m._42 + m._14*m._22*m._31*m._43 + m._14*m._23*m._32*m._41
    - m._11*m._22*m._34*m._43 - m._11*m._23*m._32*m._44 - m._11*m._24*m._33*m._42
    - m._12*m._21*m._33*m._44 - m._12*m._23*m._34*m._41 - m._12*m._24*m._31*m._43
    - m._13*m._21*m._34*m._42 - m._13*m._22*m._31*m._44 - m._13*m._24*m._32*m._41
    - m._14*m._21*m._32*m._43 - m._14*m._22*m._33*m._41 - m._14*m._23*m._31*m._42

/-- The static `inverse( m, m0, det )`.  The first component of the result is the new
value of the output matrix `m`, the second the new state of the optional cell `det`
(`if( det ) *det = d;`).  When `d == 0` the function returns before touching `m`. -/
def inverse [Add α] [Sub α] [Mul α] [Div α] [Zero α] [One α] [DecidableEq α]
    (m m0 : Matrix4 α) (det : Option α) : Matrix4 α × Option α :=
  let d := determinant m0
  let det := det.map (fun _ => d)
  if d = 0 then (m, det)
  else
    let t : Matrix4 α := zero
    let t := { t with _11 := m0._22*m0._33*m0._44 + m0._23*m0._34*m0._42 + m0._24*m0._32*m0._43 - m0._22*m0._34*m0._43 - m0._23*m0._32*m0._44 - m0._24*m0._33*m0._42 }
    let t := { t with _12 := m0._12*m0._34*m0._43 + m0._13*m0._32*m0._44 + m0._14*m0._33*m0._42 - m0._12*m0._33*m0._44 - m0._13*m0._34*m0._42 - m0._14*m0._32*m0._43 }
    let t := { t with _13 := m0._12*m0._23*m0._44 + m0._13*m0._24*m0._42 + m0._14*m0._22*m0._43 - m0._12*m0._24*m0._43 - m0._13*m0._22*m0._44 - m0._14*m0._23*m0._42 }
    let t := { t with _14 := m0._12*m0._24*m0._33 + m0._13*m0._22*m0._34 + m0._14*m0._23*m0._32 - m0._12*m0._23*m0._34 - m0._13*m0._24*m0._32 - m0._14*m0._22*m0._33 }

    let t := { t with _21 := m0._21*m0._34*m0._43 + m0._23*m0._31*m0._44 + m0._24*m0._33*m0._41 - m0._21*m0._33*m0._44 - m0._23*m0._34*m0._41 - m0._24*m0._31*m0._43 }
    let t := { t with _22 := m0._11*m0._33*m0._44 + m0._13*m0._34*m0._41 + m0._14*m0._31*m0._43 - m0._11*m0._34*m0._43 - m0._13*m0._31*m0._44 - m0._14*m0._33*m0._41 }
    let t := { t with _23 := m0._11*m0._24*m0._43 + m0._13*m0._21*m0._44 + m0._14*m0._23*m0._41 - m0._11*m0._23*m0._44 - m0._13*m0._24*m0._41 - m0._14*m0._21*m0._43 }
    let t := { t with _24 := m0._11*m0._23*m0._34 + m0._13*m0._24*m0._31 + m0._14*m0._21*m0._33 - m0._11*m0._24*m0._33 - m0._13*m0._21*m0._34 - m0._14*m0._23*m0._31 }

    let t := { t with _31 := m0._21*m0._32*m0._44 + m0._22*m0._34*m0._41 + m0._24*m0._31*m0._42 - m0._21*m0._34*m0._42 - m0._22*m0._31*m0._44 - m0._24*m0._32*m0._41 }
    let t := { t with _32 := m0._11*m0._34*m0._42 + m0._12*m0._31*m0._44 + m0._14*m0._32*m0._41 - m0._11*m0._32*m0._44 - m0._12*m0._34*m0._41 - m0._14*m0._31*m0._42 }
    let t := { t with _33 := m0._11*m0._22*m0._44 + m0._12*m0._24*m0._41 + m0._14*m0._21*m0._42 - m0._11*m0._24*m0._42 - m0._12*m0._21*m0._44 - m0._14*m0._22*m0._41 }
    let t := { t with _34 := m0._11*m0._24*m0._32 + m0._12*m0._21*m0._34 + m0._14*m0._22*m0._31 - m0._11*m0._22*m0._34 - m0._12*m0._24*m0._31 - m0._14*m0._21*m0._32 }

    let t := { t with _41 := m0._21*m0._33*m0._42 + m0._22*m0._31*m0._43 + m0._23*m0._32*m0._41 - m0._21*m0._32*m0._43 - m0._22*m0._33*m0._41 - m0._23*m0._31*m0._42 }
    let t := { t with _42 := m0._11*m0._32*m0._43 + m0._12*m0._33*m0._41 + m0._13*m0._31*m0._42 - m0._11*m0._33*m0._42 - m0._12*m0._31*m0._43 - m0._13*m0._32*m0._41 }
    let t := { t with _43 := m0._11*m0._23*m0._42 + m0._12*m0._21*m0._43 + m0._13*m0._22*m0._41 - m0._11*m0._22*m0._43 - m0._12*m0._23*m0._41 - m0._13*m0._21*m0._42 }
    let t := { t with _44 := m0._11*m0._22*m0._33 + m0._12*m0._23*m0._31 + m0._13*m0._21*m0._32 - m0._11*m0._23*m0._32 - m0._12*m0._21*m0._33 - m0._13*m0._22*m0._31 }
    (t.divScalar d, det)

/-- The static `transpose( m, m0 )`: `m0` is first copied to `tm`, then the double
loop stores `m.m[ i * 4 + j ] = tm.m[ j * 4 + i ]` for `i, j = 0 .. 3`. -/
def transpose (m m0 : Matrix4 α) : Matrix4 α :=
  let tm := m0
  (List.finRange 4).foldl
    (fun m i => (List.finRange 4).foldl (fun m j => m.set (flat i j) (tm.get (flat j i))) m)
    m

/-- The mathematical matrix whose `(row, col)` entry is read through `operator ()`. -/
def toMatrix (a : Matrix4 α) : Matrix (Fin 4) (Fin 4) α :=
  fun row col => a.elem row col

end Matrix4

/-! Section: Vector2.h -/

/-- The 2D vector of `Vector2.h`. -/
structure Vector2 (α : Type) where
  x : α
  y : α
deriving DecidableEq, Repr

namespace Vector2

variable {α : Type}

/-- The default constructor `Vector2()`: `x = y = 0`. -/
def zero [Zero α] : Vector2 α :=
  ⟨0, 0⟩

/-- The vector-scalar `operator / ( T s )`. -/
def divScalar [Div α] (a : Vector2 α) (s : α) : Vector2 α :=
  ⟨a.x / s, a.y / s⟩

/-- The static `length( v )`. -/
def length [Add α] [Mul α] (sqrt : α → α) (v : Vector2 α) : α :=
  sqrt (v.x * v.x + v.y * v.y)

/-- The static `norm( v )`. -/
def norm [Add α] [Mul α] (v : Vector2 α) : α :=
  v.x * v.x + v.y * v.y

/-- The static `normalize( v, v0 )`: the result is the new value of `v`. -/
def normalize [Add α] [Mul α] [Div α] [Zero α] [DecidableEq α] (sqrt : α → α)
    (_v v0 : Vector2 α) : Vector2 α :=
  let l := length sqrt v0
  if l = 0 then zero
  else v0.divScalar l

end Vector2

/-! Section: Vector3.h -/

/-- The 3D vector of `Vector3.h`. -/
structure Vector3 (α : Type) where
  x : α
  y : α
  z : α
deriving DecidableEq, Repr

namespace Vector3

variable {α : Type}

/-- The default constructor `Vector3()`: `x = y = z = 0`. -/
def zero [Zero α] : Vector3 α :=
  ⟨0, 0, 0⟩

/-- The static `dot( v1, v2 )`. -/
def dot [Add α] [Mul α] (v1 v2 : Vector3 α) : α :=
  v1.x * v2.x + v1.y * v2.y + v1.z * v2.z

/-- The static `cross( v, v1, v2 )`: `v` is overwritten by a freshly built vector; the
result is the new value of `v`. -/
def cross [Sub α] [Mul α] (_v v1 v2 : Vector3 α) : Vector3 α :=
  ⟨v1.y*v2.z - v1.z*v2.y, v1.z*v2.x - v1.x*v2.z, v1.x*v2.y - v1.y*v2.x⟩

/-- The vector-vector `operator +`. -/
def add [Add α] (a v : Vector3 α) : Vector3 α :=
  ⟨a.x + v.x, a.y + v.y, a.z + v.z⟩

/-- The vector-vector `operator -`. -/
def sub [Sub α] (a v : Vector3 α) : Vector3 α :=
  ⟨a.x - v.x, a.y - v.y, a.z - v.z⟩

/-- The vector-scalar `operator * ( T s )`. -/
def mulScalar [Mul α] (a : Vector3 α) (s : α) : Vector3 α :=
  ⟨a.x * s, a.y * s, a.z * s⟩

/-- The vector-scalar `operator / ( T s )`. -/
def divScalar [Div α] (a : Vector3 α) (s : α) : Vector3 α :=
  ⟨a.x / s, a.y / s, a.z / s⟩

/-- The free scalar-vector `operator * ( T2 s, const Vector3< T > &v )`. -/
def scalarMul [Mul α] (s : α) (v : Vector3 α) : Vector3 α :=
  ⟨v.x * s, v.y * s, v.z * s⟩

/-- The static `length( v )`. -/
def length [Add α] [Mul α] (sqrt : α → α) (v : Vector3 α) : α :=
  sqrt (v.x * v.x + v.y * v.y + v.z * v.z)

/-- The static `norm( v )`. -/
def norm [Add α] [Mul α] (v : Vector3 α) : α :=
  v.x * v.x + v.y * v.y + v.z * v.z

/-- The static `normalize( v, v0 )`: the result is the new value of `v`. -/
def normalize [Add α] [Mul α] [Div α] [Zero α] [DecidableEq α] (sqrt : α → α)
    (_v v0 : Vector3 α) : Vector3 α :=
  let l := length sqrt v0
  if l = 0 then zero
  else v0.divScalar l

/-- The static `intersectTri( v0, v1, v2, org, dir, u, v, dist )`.  The result holds
the returned `bool` and the new states of the optional cells `u`, `v` and `dist`, in
this order.  `dist` is written when it is supplied and the test succeeds; `u` and `v`
are written when both are supplied and the test succeeds.  The division of `t` is that of
the field, which is total; it is the division of the code where `dot( dir, N )` is not
`0`, and the properties of `intersectTri` are stated for such rays only: on a zero divisor
the code computes with an infinity or a NaN. -/
def intersectTri [LinearOrderedField α] (sqrt : α → α) (v0 v1 v2 org dir : Vector3 α)
    (u v dist : Option α) : Bool × Option α × Option α × Option α :=
  let t1 := sub v1 v0
  let t2 := sub v2 v0
  let N : Vector3 α := zero
  let N := cross N t1 t2
  let N := normalize sqrt N N
  let va := sub org v0
  let t := (-dot va N) / dot dir N
  let p := add org (scalarMul t dir)
  let vp0 := sub v0 p
  let vp1 := sub v1 p
  let vp2 := sub v2 p
  let d1 := sub v1 v0
  let c : Vector3 α := zero
  let c := cross c vp0 d1
  let c0 := dot c N
  let d1 := sub v2 v1
  let c := cross c vp1 d1
  let c1 := dot c N
  let d1 := sub v0 v2
  let c := cross c vp2 d1
  let c2 := dot c N
  if c0 ≥ 0 ∧ c1 ≥ 0 ∧ c2 ≥ 0 then
    let dist := dist.map (fun _ => t)
    if u.isSome ∧ v.isSome then
      let l1 := norm t1
      let l2 := norm t2
      let c12 := dot t1 t2
      let S := sqrt (l1 * l2 - c12 * c12) / 2
      let l2p := norm vp2
      let c2p := dot vp2 t2
      let Su := sqrt (l2 * l2p - c2p * c2p) / 2
      let l1p := norm vp1
      let c1p := dot vp1 t1
      let Sv := sqrt (l1 * l1p - c1p * c1p) / 2
      (true, some (Su / S), some (Sv / S), dist)
    else (true, u, v, dist)
  else (false, u, v, dist)

/-- The static `transform( v, v0, m )`: the result is the new value of `v`.  The
product is built in the local `t`; when `w == 0` the function returns before `v = t`. -/
def transform [Add α] [Mul α] [Div α] [Zero α] [DecidableEq α]
    (v v0 : Vector3 α) (m : Matrix4 α) : Vector3 α :=
  let t : Vector3 α := zero
  let t := { t with x := v0.x * m._11 + v0.y * m._21 + v0.z * m._31 + m._41 }
  let t := { t with y := v0.x * m._12 + v0.y * m._22 + v0.z * m._32 + m._42 }
  let t := { t with z := v0.x * m._13 + v0.y * m._23 + v0.z * m._33 + m._43 }
  let w := v0.x * m._14 + v0.y * m._24 + v0.z * m._34 + m._44
  if w = 0 then v
  else
    let t := { t with x := t.x / w }
    let t := { t with y := t.y / w }
    let t := { t with z := t.z / w }
    t

/-- The static `transformNormal( v, v0, m )`: as `transform` without the translation
row `m._41 .. m._44`; the result is the new value of `v`. -/
def transformNormal [Add α] [Mul α] [Div α] [Zero α] [DecidableEq α]
    (v v0 : Vector3 α) (m : Matrix4 α) : Vector3 α :=
  let t : Vector3 α := zero
  let t := { t with x := v0.x * m._11 + v0.y * m._21 + v0.z * m._31 }
  let t := { t with y := v0.x * m._12 + v0.y * m._22 + v0.z * m._32 }
  let t := { t with z := v0.x * m._13 + v0.y * m._23 + v0.z * m._33 }
  let w := v0.x * m._14 + v0.y * m._24 + v0.z * m._34
  if w = 0 then v
  else
    let t := { t with x := t.x / w }
    let t := { t with y := t.y / w }
    let t := { t with z := t.z / w }
    t

end Vector3

/-! Section: Vector4.h -/

/-- The 4D vector of `Vector4.h`. -/
structure Vector4 (α : Type) where
  x : α
  y : α
  z : α
  w : α
deriving DecidableEq, Repr

namespace Vector4

variable {α : Type}

/-- The default constructor `Vector4()`: `x = y = z = w = 0`. -/
def zero [Zero α] : Vector4 α :=
  ⟨0, 0, 0, 0⟩

/-- The vector-scalar `operator / ( T s )`. -/
def divScalar [Div α] (a : Vector4 α) (s : α) : Vector4 α :=
  ⟨a.x / s, a.y / s, a.z / s, a.w / s⟩

/-- The static `length( v )`. -/
def length [Add α] [Mul α] (sqrt : α → α) (v : Vector4 α) : α :=
  sqrt (v.x * v.x + v.y * v.y + v.z * v.z + v.w * v.w)

/-- The static `norm( v )`. -/
def norm [Add α] [Mul α] (v : Vector4 α) : α :=
  v.x * v.x + v.y * v.y + v.z * v.z + v.w * v.w

/-- The static `normalize( v, v0 )`.  When `l == 0` the new value of `v` is the default
vector.  Otherwise the source executes `*v = *v0 / l;`, which applies a unary `*` to
the references `v` and `v0`; `Vector4` declares no unary `operator *`, so the statement
has no meaning and this path yields no value: `none`. -/
def normalize [Add α] [Mul α] [Zero α] [DecidableEq α] (sqrt : α → α)
    (_v v0 : Vector4 α) : Option (Vector4 α) :=
  let l := length sqrt v0
  if l = 0 then some zero
  else none

/-- The static `transform( o, v, m )` (it returns `void`): the result is the new value
of `o`, assigned from the local `t`. -/
def transform [Add α] [Mul α] [Zero α] (_o v : Vector4 α) (m : Matrix4 α) : Vector4 α :=
  let t : Vector4 α := zero
  let t := { t with x := v.x * m._11 + v.y * m._21 + v.z * m._31 + v.w * m._41 }
  let t := { t with y := v.x * m._12 + v.y * m._22 + v.z * m._32 + v.w * m._42 }
  let t := { t with z := v.x * m._13 + v.y * m._23 + v.z * m._33 + v.w * m._43 }
  let t := { t with w := v.x * m._14 + v.y * m._24 + v.z * m._34 + v.w * m._44 }
  t

end Vector4

/-! Section: Plane.h -/

/-- The plane `a x + b y + c z + d = 0` of `Plane.h`. -/
structure Plane (α : Type) where
  a : α
  b : α
  c : α
  d : α
deriving DecidableEq, Repr

namespace Plane

variable {α : Type}

/-- The static `createFromPointNormal( out, v, normal )` (it returns `void`): the
result is the new value of `out`. -/
def createFromPointNormal [Add α] [Mul α] [Neg α] (_out : Plane α) (v normal : Vector3 α) :
    Plane α :=
  let d := -(normal.x * v.x + normal.y * v.y + normal.z * v.z)
  ⟨normal.x, normal.y, normal.z, d⟩

/-- The static `createFromPoints( out, v )` (it returns `void`), `v` pointing to three
vectors `v[ 0 ]`, `v[ 1 ]`, `v[ 2 ]`: the result is the new value of `out`. -/
def createFromPoints [Add α] [Sub α] [Mul α] [Div α] [Neg α] [Zero α] [DecidableEq α]
    (sqrt : α → α) (out : Plane α) (v : Fin 3 → Vector3 α) : Plane α :=
  let v1 := Vector3.sub (v 1) (v 0)
  let v2 := Vector3.sub (v 2) (v 0)
  let axis : Vector3 α := Vector3.zero
  let axis := Vector3.cross axis v1 v2
  let axis := Vector3.normalize sqrt axis axis
  createFromPointNormal out (v 0) axis

/-- The static `intersectLine( pos, plane, org, dir, dist )`.  The result holds the
returned `bool`, the new value of `pos` and the new state of the optional cell `dist`,
in this order. -/
def intersectLine [Add α] [Mul α] [Div α] [Neg α] [Zero α] [DecidableEq α]
    (pos : Vector3 α) (plane : Plane α) (org dir : Vector3 α) (dist : Option α) :
    Bool × Vector3 α × Option α :=
  let N : Vector3 α := ⟨plane.a, plane.b, plane.c⟩
  let c := Vector3.dot N dir
  if c = 0 then (false, pos, dist)
  else
    let t := (-(Vector3.dot N org + plane.d)) / c
    let pos := Vector3.add org (Vector3.mulScalar dir t)
    let dist := dist.map (fun _ => t)
    (true, pos, dist)

/-- The static `dot( plane, v )` for a `Vector3` argument. -/
def dot [Add α] [Mul α] (plane : Plane α) (v : Vector3 α) : α :=
  plane.a * v.x + plane.b * v.y + plane.c * v.z + plane.d

end Plane

/-! Section: Matrix4.h, the overload of `translation` over `Vector3` -/

namespace Matrix4

variable {α : Type}

/-- The static `translation( m, v )`: `translation( m, v.x, v.y, v.z )`. -/
def translationVector [Zero α] [One α] (m : Matrix4 α) (v : Vector3 α) : Matrix4 α :=
  translation m v.x v.y v.z

end Matrix4

/-! Section: Quaternion.h -/

/-- The quaternion of `Quaternion.h`: vector part `x, y, z` and scalar part `w`. -/
structure Quaternion (α : Type) where
  x : α
  y : α
  z : α
  w : α
deriving DecidableEq, Repr

namespace Quaternion

variable {α : Type}

/-- The default constructor `Quaternion()`: `x = y = z = 0`, `w = 1`. -/
def new [Zero α] [One α] : Quaternion α :=
  ⟨0, 0, 0, 1⟩

/-- The quaternion-quaternion `operator +`. -/
def add [Add α] (a q : Quaternion α) : Quaternion α :=
  ⟨a.x + q.x, a.y + q.y, a.z + q.z, a.w + q.w⟩

/-- The quaternion-quaternion `operator *`: the local `t` is default-constructed, its
four fields are assigned and it is returned. -/
def mul [Add α] [Sub α] [Mul α] [Neg α] [Zero α] [One α] (a q : Quaternion α) :
    Quaternion α :=
  let t : Quaternion α := new
  let t := { t with x := -(a.y * q.z - a.z * q.y) + a.w * q.x + a.x * q.w }
  let t := { t with y := -(a.z * q.x - a.x * q.z) + a.w * q.y + a.y * q.w }
  let t := { t with z := -(a.x * q.y - a.y * q.x) + a.w * q.z + a.z * q.w }
  let t := { t with w := a.w * q.w - a.x * q.x - a.y * q.y - a.z * q.z }
  t

instance [Add α] [Sub α] [Mul α] [Neg α] [Zero α] [One α] : Mul (Quaternion α) := ⟨mul⟩

/-- The quaternion-scalar `operator * ( T s )`. -/
def mulScalar [Mul α] (a : Quaternion α) (s : α) : Quaternion α :=
  ⟨a.x * s, a.y * s, a.z * s, a.w * s⟩

/-- The quaternion-scalar `operator / ( T s )`: multiplication by `f = 1.0 / s`. -/
def divScalar [Mul α] [Div α] [One α] (a : Quaternion α) (s : α) : Quaternion α :=
  let f := 1 / s
  a.mulScalar f

/-- The compound quaternion `operator *=`: the product is built in `t`, then
`*this = t`; the result is the new `*this`. -/
def mulAssign [Add α] [Sub α] [Mul α] [Neg α] [Zero α] [One α] (self q : Quaternion α) :
    Quaternion α :=
  let t : Quaternion α := new
  let t := { t with x := -(self.y * q.z - self.z * q.y) + self.w * q.x + self.x * q.w }
  let t := { t with y := -(self.z * q.x - self.x * q.z) + self.w * q.y + self.y * q.w }
  let t := { t with z := -(self.x * q.y - self.y * q.x) + self.w * q.z + self.z * q.w }
  let t := { t with w := self.w * q.w - self.x * q.x - self.y * q.y - self.z * q.z }
  t

/-- The compound scalar `operator *= ( T s )`: the result is the new `*this`. -/
def mulAssignScalar [Mul α] (self : Quaternion α) (s : α) : Quaternion α :=
  let self := { self with x := self.x * s }
  let self := { self with y := self.y * s }
  let self := { self with z := self.z * s }
  let self := { self with w := self.w * s }
  self

/-- The compound scalar `operator /= ( T s )`: `operator *=` by `f = 1.0f / s`. -/
def divAssignScalar [Mul α] [Div α] [One α] (self : Quaternion α) (s : α) : Quaternion α :=
  let f := 1 / s
  self.mulAssignScalar f

/-- The static `identity( q )` (it returns `void`): the result is the new value of `q`. -/
def identity [Zero α] [One α] (q : Quaternion α) : Quaternion α :=
  let q := { q with x := 0, y := 0, z := 0 }
  let q := { q with w := 1 }
  q

/-- The static `length( q )`. -/
def length [Add α] [Mul α] (sqrt : α → α) (q : Quaternion α) : α :=
  sqrt (q.x * q.x + q.y * q.y + q.z * q.z + q.w * q.w)

/-- The static `norm( q )`. -/
def norm [Add α] [Mul α] (q : Quaternion α) : α :=
  q.x * q.x + q.y * q.y + q.z * q.z + q.w * q.w

/-- The static `normalize( q, q0 )`: the result is the new value of `q`. -/
def normalize [Add α] [Mul α] [Div α] [Zero α] [One α] [DecidableEq α] (sqrt : α → α)
    (_q q0 : Quaternion α) : Quaternion α :=
  let l := length sqrt q0
  if l = 0 then new
  else q0.divScalar l

/-- The static `conjugate( q, q0 )`: the result is the new value of `q`. -/
def conjugate [Neg α] (_q q0 : Quaternion α) : Quaternion α :=
  ⟨-q0.x, -q0.y, -q0.z, q0.w⟩

/-- The static `inverse( q, q0 )`: the result is the new value of `q`. -/
def inverse [Add α] [Mul α] [Div α] [Neg α] [Zero α] [One α] [DecidableEq α]
    (sqrt : α → α) (q q0 : Quaternion α) : Quaternion α :=
  let l := length sqrt q0
  if l = 0 then new
  else
    let q := conjugate q q0
    let q := q.divAssignScalar l
    q

/-- The static `rotationAxis( q, axis, rad )`: the result is the new value of `q`. -/
def rotationAxis [Field α] [DecidableEq α] (sin cos sqrt : α → α)
    (q : Quaternion α) (axis : Vector3 α) (rad : α) : Quaternion α :=
  let a := sin (rad / 2)
  let q := { q with x := axis.x * a }
  let q := { q with y := axis.y * a }
  let q := { q with z := axis.z * a }
  let q := { q with w := cos (rad / 2) }
  normalize sqrt q q

/-- The static `toMatrix( m, q )`: every entry of `m` is assigned; the result is the new
value of `m`. -/
def toMatrix [Ring α] (m : Matrix4 α) (q : Quaternion α) : Matrix4 α :=
  let m := { m with _11 := 1 - 2 * (q.y * q.y + q.z * q.z) }
  let m := { m with _12 := 2 * (q.x * q.y + q.z * q.w) }
  let m := { m with _13 := 2 * (q.z * q.x - q.w * q.y) }
  let m := { m with _14 := 0 }
  let m := { m with _21 := 2 * (q.x * q.y - q.z * q.w) }
  let m := { m with _22 := 1 - 2 * (q.z * q.z + q.x * q.x) }
  let m := { m with _23 := 2 * (q.y * q.z + q.w * q.x) }
  let m := { m with _24 := 0 }
  let m := { m with _31 := 2 * (q.z * q.x + q.w * q.y) }
  let m := { m with _32 := 2 * (q.y * q.z - q.x * q.w) }
  let m := { m with _33 := 1 - 2 * (q.y * q.y + q.x * q.x) }
  let m := { m with _34 := 0 }
  let m := { m with _41 := 0, _42 := 0, _43 := 0 }
  let m := { m with _44 := 1 }
  m

/-- The function `slerp( q, q1, q2, t )`: the result is the new value of `q`, which is
also the returned quaternion. -/
def slerp [Field α] [DecidableEq α] (acos sin sqrt : α → α)
    (_q q1 q2 : Quaternion α) (t : α) : Quaternion α :=
  let a := q1.x * q2.x + q1.y * q2.y + q1.z * q2.z + q1.w * q2.w
  let b := 1 - a * a
  if b = 0 then q1
  else
    let a2 := acos a
    let b2 := sqrt b
    let c := a2 * t
    let t0 := sin (a2 - c) / b2
    let t1 := sin c / b2
    add (q1.mulScalar t0) (q2.mulScalar t1)

/-- The quaternion of Mathlib with real part `w` and imaginary parts `x`, `y`, `z`, in
which `i * j = k`. -/
def toHamilton [Neg α] [One α] (q : Quaternion α) : QuaternionAlgebra α (-1) (-1) :=
  ⟨q.w, q.x, q.y, q.z⟩

end Quaternion

/-! Section: Vector3.h, `distance` -/

namespace Vector3

variable {α : Type}

/-- The static `distance( v1, v2 )`. -/
def distance [Add α] [Sub α] [Mul α] (sqrt : α → α) (v1 v2 : Vector3 α) : α :=
  let v := sub v1 v2
  length sqrt v

end Vector3

/-! Section: Plane.h, scalar operators -/

namespace Plane

variable {α : Type}

/-- The compound scalar `operator *= ( T s )`: the result is the new `*this`. -/
def mulAssignScalar [Mul α] (self : Plane α) (s : α) : Plane α :=
  let self := { self with a := self.a * s }
  let self := { self with b := self.b * s }
  let self := { self with c := self.c * s }
  let self := { self with d := self.d * s }
  self

/-- The plane-scalar `operator * ( T s )`, as written in the source. -/
def mulScalar [Mul α] (p : Plane α) (s : α) : Plane α :=
  ⟨p.a * s, p.a * p.b, p.a * p.c, p.a * p.d⟩

/-- The free scalar-plane `operator * ( T2 s, const Plane< T > &p )`. -/
def scalarMul [Mul α] (s : α) (p : Plane α) : Plane α :=
  ⟨p.a * s, p.b * s, p.c * s, p.d * s⟩

end Plane

/-! Section: Color.h -/

/-- The RGBA colour of `Color.h`. -/
structure Color (α : Type) where
  r : α
  g : α
  b : α
  a : α
deriving DecidableEq, Repr

namespace Color

variable {α : Type}

/-- The colour-scalar `operator * ( T s )`. -/
def mulScalar [Mul α] (c : Color α) (s : α) : Color α :=
  ⟨c.r * s, c.g * s, c.b * s, c.a * s⟩

/-- The compound scalar `operator *= ( T s )`: the result is the new `*this`. -/
def mulAssignScalar [Mul α] (self : Color α) (s : α) : Color α :=
  let self := { self with r := self.r * s }
  let self := { self with g := self.g * s }
  let self := { self with b := self.b * s }
  let self := { self with a := self.a * s }
  self

/-- The free scalar-colour `operator * ( T2 s, const Color< T > &c )`, as written in the
source. -/
def scalarMul [Mul α] (s : α) (c : Color α) : Color α :=
  ⟨c.r * s, c.g * s, c.b * s, c.a⟩

end Color

/-! Section: Matrix4.h, construction helpers -/

namespace Matrix4

variable {α : Type}

/-- The static `rotationX( m, rad )`: all sixteen entries are assigned; the result is
the new value of `m`. -/
def rotationX [Neg α] [Zero α] [One α] (sin cos : α → α) (m : Matrix4 α) (rad : α) :
    Matrix4 α :=
  let m := { m with _11 := 1, _12 := 0, _13 := 0, _14 := 0 }
  let m := { m with _21 := 0, _22 := cos rad, _23 := sin rad, _24 := 0 }
  let m := { m with _31 := 0, _32 := -sin rad, _33 := cos rad, _34 := 0 }
  let m := { m with _41 := 0, _42 := 0, _43 := 0, _44 := 1 }
  m

/-- The static `rotationY( m, rad )`: all sixteen entries are assigned; the result is
the new value of `m`. -/
def rotationY [Neg α] [Zero α] [One α] (sin cos : α → α) (m : Matrix4 α) (rad : α) :
    Matrix4 α :=
  let m := { m with _11 := cos rad, _12 := 0, _13 := -sin rad, _14 := 0 }
  let m := { m with _21 := 0, _22 := 1, _23 := 0, _24 := 0 }
  let m := { m with _31 := sin rad, _32 := 0, _33 := cos rad, _34 := 0 }
  let m := { m with _41 := 0, _42 := 0, _43 := 0, _44 := 1 }
  m

/-- The static `rotationZ( m, rad )`: all sixteen entries are assigned; the result is
the new value of `m`. -/
def rotationZ [Neg α] [Zero α] [One α] (sin cos : α → α) (m : Matrix4 α) (rad : α) :
    Matrix4 α :=
  let m := { m with _11 := cos rad, _12 := sin rad, _13 := 0, _14 := 0 }
  let m := { m with _21 := -sin rad, _22 := cos rad, _23 := 0, _24 := 0 }
  let m := { m with _31 := 0, _32 := 0, _33 := 1, _34 := 0 }
  let m := { m with _41 := 0, _42 := 0, _43 := 0, _44 := 1 }
  m

/-- The static `scaling( m, sx, sy, sz )`: `identity( m )`, then the diagonal entries are
multiplied in place; the result is the new value of `m`. -/
def scaling [Mul α] [Zero α] [One α] (m : Matrix4 α) (sx sy sz : α) : Matrix4 α :=
  let m := identity m
  let m := { m with _11 := m._11 * sx }
  let m := { m with _22 := m._22 * sy }
  let m := { m with _33 := m._33 * sz }
  m

/-- The static `scaling( m, sv )`: `scaling( m, sv.x, sv.y, sv.z )`. -/
def scalingVector [Mul α] [Zero α] [One α] (m : Matrix4 α) (sv : Vector3 α) : Matrix4 α :=
  scaling m sv.x sv.y sv.z

/-- The static `rotationQuaternion( m, q )`: `Quaternion::toMatrix( m, q )`. -/
def rotationQuaternion [Ring α] (m : Matrix4 α) (q : Quaternion α) : Matrix4 α :=
  let m := Quaternion.toMatrix m q
  m

/-- The static `rotationYawPitchRoll( m, yaw, pitch, roll )`: the three axis rotations
are built in default-constructed locals and `m = mrz * mrx * mry`. -/
def rotationYawPitchRoll [Ring α] (sin cos : α → α) (_m : Matrix4 α) (yaw pitch roll : α) :
    Matrix4 α :=
  let mrx : Matrix4 α := zero
  let mry : Matrix4 α := zero
  let mrz : Matrix4 α := zero
  let mrx := rotationX sin cos mrx pitch
  let mry := rotationY sin cos mry yaw
  let mrz := rotationZ sin cos mrz roll
  mrz * mrx * mry

/-- The static `viewLH( m, eyePos, lookAt, up )`: the result is the new value of `m`. -/
def viewLH [Field α] [DecidableEq α] (sqrt : α → α) (_m : Matrix4 α)
    (eyePos lookAt up : Vector3 α) : Matrix4 α :=
  let axisz := Vector3.sub lookAt eyePos
  let axisz := Vector3.normalize sqrt axisz axisz
  let axisx : Vector3 α := Vector3.zero
  let axisx := Vector3.cross axisx up axisz
  let axisx := Vector3.normalize sqrt axisx axisx
  let axisy : Vector3 α := Vector3.zero
  let axisy := Vector3.cross axisy axisz axisx
  ⟨axisx.x, axisy.x, axisz.x, 0,
   axisx.y, axisy.y, axisz.y, 0,
   axisx.z, axisy.z, axisz.z, 0,
   -Vector3.dot axisx eyePos, -Vector3.dot axisy eyePos, -Vector3.dot axisz eyePos, 1⟩

/-- The static `viewRH( m, eyePos, lookAt, up )`: the result is the new value of `m`. -/
def viewRH [Field α] [DecidableEq α] (sqrt : α → α) (_m : Matrix4 α)
    (eyePos lookAt up : Vector3 α) : Matrix4 α :=
  let axisz := Vector3.sub eyePos lookAt
  let axisz := Vector3.normalize sqrt axisz axisz
  let axisx : Vector3 α := Vector3.zero
  let axisx := Vector3.cross axisx up axisz
  let axisx := Vector3.normalize sqrt axisx axisx
  let axisy : Vector3 α := Vector3.zero
  let axisy := Vector3.cross axisy axisz axisx
  ⟨axisx.x, axisy.x, axisz.x, 0,
   axisx.y, axisy.y, axisz.y, 0,
   axisx.z, axisy.z, axisz.z, 0,
   -Vector3.dot axisx eyePos, -Vector3.dot axisy eyePos, -Vector3.dot axisz eyePos, 1⟩

/-- The static `perspectiveLH( m, fovy, aspect, zn, zf )`: the result is the new value
of `m`. -/
def perspectiveLH [Field α] (tan : α → α) (_m : Matrix4 α) (fovy aspect zn zf : α) :
    Matrix4 α :=
  let y := 1 / tan (fovy / 2)
  let x := y / aspect
  ⟨x, 0, 0, 0,
   0, y, 0, 0,
   0, 0, zf / (zf - zn), 1,
   0, 0, -zn * zf / (zf - zn), 0⟩

/-- The static `perspectiveRH( m, fovy, aspect, zn, zf )`: the result is the new value
of `m`. -/
def perspectiveRH [Field α] (tan : α → α) (_m : Matrix4 α) (fovy aspect zn zf : α) :
    Matrix4 α :=
  let y := 1 / tan (fovy / 2)
  let x := y / aspect
  ⟨x, 0, 0, 0,
   0, y, 0, 0,
   0, 0, zf / (zn - zf), -1,
   0, 0, -zn * zf / (zf - zn), 0⟩

/-- The static `orthoLH( m, w, h, zn, zf )`: the result is the new value of `m`. -/
def orthoLH [Field α] (_m : Matrix4 α) (w h zn zf : α) : Matrix4 α :=
  ⟨2 / w, 0, 0, 0,
   0, 2 / h, 0, 0,
   0, 0, 1 / (zf - zn), 0,
   0, 0, zn / (zn - zf), 1⟩

/-- The static `orthoRH( m, w, h, zn, zf )`: the result is the new value of `m`. -/
def orthoRH [Field α] (_m : Matrix4 α) (w h zn zf : α) : Matrix4 α :=
  ⟨2 / w, 0, 0, 0,
   0, 2 / h, 0, 0,
   0, 0, 1 / (zn - zf), 0,
   0, 0, zn / (zn - zf), 1⟩

/-- The static `screen( m, width, height )`: the result is the new value of `m`. -/
def screen [Field α] (_m : Matrix4 α) (width height : α) : Matrix4 α :=
  let w := width / 2
  let h := height / 2
  ⟨w, 0, 0, 0,
   0, -h, 0, 0,
   0, 0, 1, 0,
   w, h, 0, 1⟩

end Matrix4

/-! Section: Quaternion.h, `rotation` -/

namespace Quaternion

variable {α : Type}

/-- The static `rotation( q, yaw, pitch, roll )`: the three axis quaternions are built in
default-constructed locals and `q = qr * qp * qy`; the result is the new value of `q`. -/
def rotation [Field α] [DecidableEq α] (sin cos sqrt : α → α) (_q : Quaternion α)
    (yaw pitch roll : α) : Quaternion α :=
  let qy : Quaternion α := new
  let qp : Quaternion α := new
  let qr : Quaternion α := new
  let qp := rotationAxis sin cos sqrt qp ⟨1, 0, 0⟩ pitch
  let qy := rotationAxis sin cos sqrt qy ⟨0, 1, 0⟩ yaw
  let qr := rotationAxis sin cos sqrt qr ⟨0, 0, 1⟩ roll
  qr * qp * qy

/-- The homogeneous form of the matrix of `toMatrix`, in which the `1` of each diagonal
entry is replaced by `norm( q )`; it agrees with `toMatrix` on quaternions of norm `1`
and serves only in proofs. -/
def homogeneousMatrix [Ring α] (q : Quaternion α) : Matrix4 α :=
  ⟨norm q - 2 * (q.y * q.y + q.z * q.z), 2 * (q.x * q.y + q.z * q.w),
      2 * (q.z * q.x - q.w * q.y), 0,
   2 * (q.x * q.y - q.z * q.w), norm q - 2 * (q.z * q.z + q.x * q.x),
      2 * (q.y * q.z + q.w * q.x), 0,
   2 * (q.z * q.x + q.w * q.y), 2 * (q.y * q.z - q.x * q.w),
      norm q - 2 * (q.y * q.y + q.x * q.x), 0,
   0, 0, 0, 1⟩

end Quaternion

/-! Section: calls through references, over a store of objects -/

namespace Vector2

variable {α : Type}

/-- The static `normalize( v, v0 )` over a store, `v` and `v0` being addresses: `v0` is
read for `length( v0 )` and for `v0 / l`, then the object at `v` is assigned. -/
def normalizeRef [Add α] [Mul α] [Div α] [Zero α] [DecidableEq α] (sqrt : α → α)
    (mem : ℕ → Vector2 α) (v v0 : ℕ) : ℕ → Vector2 α :=
  let l := length sqrt (mem v0)
  if l = 0 then Function.update mem v zero
  else Function.update mem v ((mem v0).divScalar l)

end Vector2

namespace Vector3

variable {α : Type}

/-- The static `normalize( v, v0 )` over a store, `v` and `v0` being addresses. -/
def normalizeRef [Add α] [Mul α] [Div α] [Zero α] [DecidableEq α] (sqrt : α → α)
    (mem : ℕ → Vector3 α) (v v0 : ℕ) : ℕ → Vector3 α :=
  let l := length sqrt (mem v0)
  if l = 0 then Function.update mem v zero
  else Function.update mem v ((mem v0).divScalar l)

/-- The static `cross( v, v1, v2 )` over a store: the temporary `Vector3( ... )` is built
from the objects at `v1` and `v2`, then assigned to the object at `v`. -/
def crossRef [Sub α] [Mul α] (mem : ℕ → Vector3 α) (v v1 v2 : ℕ) : ℕ → Vector3 α :=
  Function.update mem v
    ⟨(mem v1).y * (mem v2).z - (mem v1).z * (mem v2).y,
     (mem v1).z * (mem v2).x - (mem v1).x * (mem v2).z,
     (mem v1).x * (mem v2).y - (mem v1).y * (mem v2).x⟩

/-- The static `transform( v, v0, m )` over a store of vectors, `v` and `v0` being
addresses: the local `t` is filled from the object at `v0`; when `w == 0` the store is
left as it is, otherwise the object at `v` is assigned `t`. -/
def transformRef [Add α] [Mul α] [Div α] [Zero α] [DecidableEq α]
    (mem : ℕ → Vector3 α) (v v0 : ℕ) (m : Matrix4 α) : ℕ → Vector3 α :=
  let t : Vector3 α := zero
  let t := { t with x := (mem v0).x * m._11 + (mem v0).y * m._21 + (mem v0).z * m._31 + m._41 }
  let t := { t with y := (mem v0).x * m._12 + (mem v0).y * m._22 + (mem v0).z * m._32 + m._42 }
  let t := { t with z := (mem v0).x * m._13 + (mem v0).y * m._23 + (mem v0).z * m._33 + m._43 }
  let w := (mem v0).x * m._14 + (mem v0).y * m._24 + (mem v0).z * m._34 + m._44
  if w = 0 then mem
  else
    let t := { t with x := t.x / w }
    let t := { t with y := t.y / w }
    let t := { t with z := t.z / w }
    Function.update mem v t

end Vector3

namespace Vector4

variable {α : Type}

/-- The static `normalize( v, v0 )` over a store, `v` and `v0` being addresses; the path
of `*v = *v0 / l;` has no value, as in `normalize`. -/
def normalizeRef [Add α] [Mul α] [Zero α] [DecidableEq α] (sqrt : α → α)
    (mem : ℕ → Vector4 α) (v v0 : ℕ) : Option (ℕ → Vector4 α) :=
  let l := length sqrt (mem v0)
  if l = 0 then some (Function.update mem v zero)
  else none

end Vector4

namespace Matrix4

variable {α : Type}

/-- The static `transpose( m, m0 )` over a store, `m` and `m0` being addresses: the
object at `m0` is copied to the local `tm`, then the double loop writes the entries of
the object at `m` one by one. -/
def transposeRef (mem : ℕ → Matrix4 α) (m m0 : ℕ) : ℕ → Matrix4 α :=
  let tm := mem m0
  (List.finRange 4).foldl
    (fun mem i => (List.finRange 4).foldl
      (fun mem j => Function.update mem m ((mem m).set (flat i j) (tm.get (flat j i)))) mem)
    mem

/-- The static `inverse( m, m0, det )` over a store, `m` and `m0` being addresses: every
entry of the local `t` is read from the object at `m0`, and the object at `m` is written
once, by `m = t / d`. -/
def inverseRef [Add α] [Sub α] [Mul α] [Div α] [Zero α] [One α] [DecidableEq α]
    (mem : ℕ → Matrix4 α) (m m0 : ℕ) (det : Option α) : (ℕ → Matrix4 α) × Option α :=
  let d := determinant (mem m0)
  let det := det.map (fun _ => d)
  if d = 0 then (mem, det)
  else
    let t : Matrix4 α := zero
    let t := { t with _11 := (mem m0)._22*(mem m0)._33*(mem m0)._44 + (mem m0)._23*(mem m0)._34*(mem m0)._42 + (mem m0)._24*(mem m0)._32*(mem m0)._43 - (mem m0)._22*(mem m0)._34*(mem m0)._43 - (mem m0)._23*(mem m0)._32*(mem m0)._44 - (mem m0)._24*(mem m0)._33*(mem m0)._42 }
    let t := { t with _12 := (mem m0)._12*(mem m0)._34*(mem m0)._43 + (mem m0)._13*(mem m0)._32*(mem m0)._44 + (mem m0)._14*(mem m0)._33*(mem m0)._42 - (mem m0)._12*(mem m0)._33*(mem m0)._44 - (mem m0)._13*(mem m0)._34*(mem m0)._42 - (mem m0)._14*(mem m0)._32*(mem m0)._43 }
    let t := { t with _13 := (mem m0)._12*(mem m0)._23*(mem m0)._44 + (mem m0)._13*(mem m0)._24*(mem m0)._42 + (mem m0)._14*(mem m0)._22*(mem m0)._43 - (mem m0)._12*(mem m0)._24*(mem m0)._43 - (mem m0)._13*(mem m0)._22*(mem m0)._44 - (mem m0)._14*(mem m0)._23*(mem m0)._42 }
    let t := { t with _14 := (mem m0)._12*(mem m0)._24*(mem m0)._33 + (mem m0)._13*(mem m0)._22*(mem m0)._34 + (mem m0)._14*(mem m0)._23*(mem m0)._32 - (mem m0)._12*(mem m0)._23*(mem m0)._34 - (mem m0)._13*(mem m0)._24*(mem m0)._32 - (mem m0)._14*(mem m0)._22*(mem m0)._33 }

    let t := { t with _21 := (mem m0)._21*(mem m0)._34*(mem m0)._43 + (mem m0)._23*(mem m0)._31*(mem m0)._44 + (mem m0)._24*(mem m0)._33*(mem m0)._41 - (mem m0)._21*(mem m0)._33*(mem m0)._44 - (mem m0)._23*(mem m0)._34*(mem m0)._41 - (mem m0)._24*(mem m0)._31*(mem m0)._43 }
    let t := { t with _22 := (mem m0)._11*(mem m0)._33*(mem m0)._44 + (mem m0)._13*(mem m0)._34*(mem m0)._41 + (mem m0)._14*(mem m0)._31*(mem m0)._43 - (mem m0)._11*(mem m0)._34*(mem m0)._43 - (mem m0)._13*(mem m0)._31*(mem m0)._44 - (mem m0)._14*(mem m0)._33*(mem m0)._41 }
    let t := { t with _23 := (mem m0)._11*(mem m0)._24*(mem m0)._43 + (mem m0)._13*(mem m0)._21*(mem m0)._44 + (mem m0)._14*(mem m0)._23*(mem m0)._41 - (mem m0)._11*(mem m0)._23*(mem m0)._44 - (mem m0)._13*(mem m0)._24*(mem m0)._41 - (mem m0)._14*(mem m0)._21*(mem m0)._43 }
    let t := { t with _24 := (mem m0)._11*(mem m0)._23*(mem m0)._34 + (mem m0)._13*(mem m0)._24*(mem m0)._31 + (mem m0)._14*(mem m0)._21*(mem m0)._33 - (mem m0)._11*(mem m0)._24*(mem m0)._33 - (mem m0)._13*(mem m0)._21*(mem m0)._34 - (mem m0)._14*(mem m0)._23*(mem m0)._31 }

    let t := { t with _31 := (mem m0)._21*(mem m0)._32*(mem m0)._44 + (mem m0)._22*(mem m0)._34*(mem m0)._41 + (mem m0)._24*(mem m0)._31*(mem m0)._42 - (mem m0)._21*(mem m0)._34*(mem m0)._42 - (mem m0)._22*(mem m0)._31*(mem m0)._44 - (mem m0)._24*(mem m0)._32*(mem m0)._41 }
    let t := { t with _32 := (mem m0)._11*(mem m0)._34*(mem m0)._42 + (mem m0)._12*(mem m0)._31*(mem m0)._44 + (mem m0)._14*(mem m0)._32*(mem m0)._41 - (mem m0)._11*(mem m0)._32*(mem m0)._44 - (mem m0)._12*(mem m0)._34*(mem m0)._41 - (mem m0)._14*(mem m0)._31*(mem m0)._42 }
    let t := { t with _33 := (mem m0)._11*(mem m0)._22*(mem m0)._44 + (mem m0)._12*(mem m0)._24*(mem m0)._41 + (mem m0)._14*(mem m0)._21*(mem m0)._42 - (mem m0)._11*(mem m0)._24*(mem m0)._42 - (mem m0)._12*(mem m0)._21*(mem m0)._44 - (mem m0)._14*(mem m0)._22*(mem m0)._41 }
    let t := { t with _34 := (mem m0)._11*(mem m0)._24*(mem m0)._32 + (mem m0)._12*(mem m0)._21*(mem m0)._34 + (mem m0)._14*(mem m0)._22*(mem m0)._31 - (mem m0)._11*(mem m0)._22*(mem m0)._34 - (mem m0)._12*(mem m0)._24*(mem m0)._31 - (mem m0)._14*(mem m0)._21*(mem m0)._32 }

    let t := { t with _41 := (mem m0)._21*(mem m0)._33*(mem m0)._42 + (mem m0)._22*(mem m0)._31*(mem m0)._43 + (mem m0)._23*(mem m0)._32*(mem m0)._41 - (mem m0)._21*(mem m0)._32*(mem m0)._43 - (mem m0)._22*(mem m0)._33*(mem m0)._41 - (mem m0)._23*(mem m0)._31*(mem m0)._42 }
    let t := { t with _42 := (mem m0)._11*(mem m0)._32*(mem m0)._43 + (mem m0)._12*(mem m0)._33*(mem m0)._41 + (mem m0)._13*(mem m0)._31*(mem m0)._42 - (mem m0)._11*(mem m0)._33*(mem m0)._42 - (mem m0)._12*(mem m0)._31*(mem m0)._43 - (mem m0)._13*(mem m0)._32*(mem m0)._41 }
    let t := { t with _43 := (mem m0)._11*(mem m0)._23*(mem m0)._42 + (mem m0)._12*(mem m0)._21*(mem m0)._43 + (mem m0)._13*(mem m0)._22*(mem m0)._41 - (mem m0)._11*(mem m0)._22*(mem m0)._43 - (mem m0)._12*(mem m0)._23*(mem m0)._41 - (mem m0)._13*(mem m0)._21*(mem m0)._42 }
    let t := { t with _44 := (mem m0)._11*(mem m0)._22*(mem m0)._33 + (mem m0)._12*(mem m0)._23*(mem m0)._31 + (mem m0)._13*(mem m0)._21*(mem m0)._32 - (mem m0)._11*(mem m0)._23*(mem m0)._32 - (mem m0)._12*(mem m0)._21*(mem m0)._33 - (mem m0)._13*(mem m0)._22*(mem m0)._31 }
    (Function.update mem m (t.divScalar d), det)

end Matrix4

namespace Quaternion

variable {α : Type}

/-- The static `normalize( q, q0 )` over a store, `q` and `q0` being addresses. -/
def normalizeRef [Add α] [Mul α] [Div α] [Zero α] [One α] [DecidableEq α] (sqrt : α → α)
    (mem : ℕ → Quaternion α) (q q0 : ℕ) : ℕ → Quaternion α :=
  let l := length sqrt (mem q0)
  if l = 0 then Function.update mem q new
  else Function.update mem q ((mem q0).divScalar l)

/-- The static `conjugate( q, q0 )` over a store: the temporary is built from the object
at `q0`, then assigned to the object at `q`. -/
def conjugateRef [Neg α] (mem : ℕ → Quaternion α) (q q0 : ℕ) : ℕ → Quaternion α :=
  Function.update mem q ⟨-(mem q0).x, -(mem q0).y, -(mem q0).z, (mem q0).w⟩

/-- The static `inverse( q, q0 )` over a store: `l` is read from the object at `q0`, then
`conjugate( q, q0 )` writes the object at `q`, which `q /= l` then scales in place. -/
def inverseRef [Add α] [Mul α] [Div α] [Neg α] [Zero α] [One α] [DecidableEq α]
    (sqrt : α → α) (mem : ℕ → Quaternion α) (q q0 : ℕ) : ℕ → Quaternion α :=
  let l := length sqrt (mem q0)
  if l = 0 then Function.update mem q new
  else
    let mem := conjugateRef mem q q0
    let mem := Function.update mem q ((mem q).divAssignScalar l)
    mem

end Quaternion

/-! Section: properties of `Matrix4` -/

namespace Matrix4

variable {α : Type}

theorem mul_def [Add α] [Mul α] (a b : Matrix4 α) : a * b = mul a b := rfl

theorem finRange_four : List.finRange 4 = [0, 1, 2, 3] := by decide

/-- The double loop of `transpose` in closed form. -/
theorem transpose_eq (m m0 : Matrix4 α) :
    transpose m m0 =
      ⟨m0._11, m0._21, m0._31, m0._41,
       m0._12, m0._22, m0._32, m0._42,
       m0._13, m0._23, m0._33, m0._43,
       m0._14, m0._24, m0._34, m0._44⟩ := by
  simp only [transpose, finRange_four, List.foldl_cons, List.foldl_nil]
  simp [set, get, flat]

/-- Laplace expansion of a 4x4 determinant along its first row, the 3x3 minors
written out. -/
theorem det_fin_four [CommRing α] (A : Matrix (Fin 4) (Fin 4) α) :
    A.det =
      A 0 0 * (A 1 1 * A 2 2 * A 3 3 - A 1 1 * A 2 3 * A 3 2 - A 1 2 * A 2 1 * A 3 3
          + A 1 2 * A 2 3 * A 3 1 + A 1 3 * A 2 1 * A 3 2 - A 1 3 * A 2 2 * A 3 1)
      - A 0 1 * (A 1 0 * A 2 2 * A 3 3 - A 1 0 * A 2 3 * A 3 2 - A 1 2 * A 2 0 * A 3 3
          + A 1 2 * A 2 3 * A 3 0 + A 1 3 * A 2 0 * A 3 2 - A 1 3 * A 2 2 * A 3 0)
      + A 0 2 * (A 1 0 * A 2 1 * A 3 3 - A 1 0 * A 2 3 * A 3 1 - A 1 1 * A 2 0 * A 3 3
          + A 1 1 * A 2 3 * A 3 0 + A 1 3 * A 2 0 * A 3 1 - A 1 3 * A 2 1 * A 3 0)
      - A 0 3 * (A 1 0 * A 2 1 * A 3 2 - A 1 0 * A 2 2 * A 3 1 - A 1 1 * A 2 0 * A 3 2
          + A 1 1 * A 2 2 * A 3 0 + A 1 2 * A 2 0 * A 3 1 - A 1 2 * A 2 1 * A 3 0) := by
  have e10 : Fin.succAbove (1 : Fin 4) (0 : Fin 3) = 0 := by decide
  have e11 : Fin.succAbove (1 : Fin 4) (1 : Fin 3) = 2 := by decide
  have e12 : Fin.succAbove (1 : Fin 4) (2 : Fin 3) = 3 := by decide
  have e20 : Fin.succAbove (2 : Fin 4) (0 : Fin 3) = 0 := by decide
  have e21 : Fin.succAbove (2 : Fin 4) (1 : Fin 3) = 1 := by decide
  have e22 : Fin.succAbove (2 : Fin 4) (2 : Fin 3) = 3 := by decide
  have e30 : Fin.succAbove (3 : Fin 4) (0 : Fin 3) = 0 := by decide
  have e31 : Fin.succAbove (3 : Fin 4) (1 : Fin 3) = 1 := by decide
  have e32 : Fin.succAbove (3 : Fin 4) (2 : Fin 3) = 2 := by decide
  have s0 : Fin.succ (0 : Fin 3) = 1 := by decide
  have s1 : Fin.succ (1 : Fin 3) = 2 := by decide
  have s2 : Fin.succ (2 : Fin 3) = 3 := by decide
  have c1 : ((1 : Fin 4) : ℕ) = 1 := rfl
  have c2 : ((2 : Fin 4) : ℕ) = 2 := rfl
  have c3 : ((3 : Fin 4) : ℕ) = 3 := rfl
  rw [Matrix.det_succ_row_zero, Fin.sum_univ_four]
  simp only [Matrix.det_fin_three, Matrix.submatrix_apply, Fin.zero_succAbove, e10, e11, e12,
    e20, e21, e22, e30, e31, e32, s0, s1, s2, c1, c2, c3, Fin.val_zero]
  ring

/-- The sixteen reads `m( row, col )` in terms of the named fields. -/
theorem elem_eq (m : Matrix4 α) :
    (m.elem 0 0 = m._11 ∧ m.elem 0 1 = m._12 ∧ m.elem 0 2 = m._13 ∧ m.elem 0 3 = m._14)
      ∧ (m.elem 1 0 = m._21 ∧ m.elem 1 1 = m._22 ∧ m.elem 1 2 = m._23 ∧ m.elem 1 3 = m._24)
      ∧ (m.elem 2 0 = m._31 ∧ m.elem 2 1 = m._32 ∧ m.elem 2 2 = m._33 ∧ m.elem 2 3 = m._34)
      ∧ (m.elem 3 0 = m._41 ∧ m.elem 3 1 = m._42 ∧ m.elem 3 2 = m._43 ∧ m.elem 3 3 = m._44) :=
  ⟨⟨rfl, rfl, rfl, rfl⟩, ⟨rfl, rfl, rfl, rfl⟩, ⟨rfl, rfl, rfl, rfl⟩, ⟨rfl, rfl, rfl, rfl⟩⟩

/-- C2: `determinant( m )` is the determinant of the 4x4 matrix whose `(row, col)`
entry is `m( row, col )`; it is `1` on the identity matrix and `0` on the all-zero
matrix. -/
theorem determinant_eq_det [CommRing α] (m : Matrix4 α) :
    determinant m = Matrix.det (toMatrix m)
      ∧ determinant (identity m) = 1
      ∧ determinant (zero : Matrix4 α) = 0 := by
  refine ⟨?_, ?_, ?_⟩
  · obtain ⟨⟨h00, h01, h02, h03⟩, ⟨h10, h11, h12, h13⟩, ⟨h20, h21, h22, h23⟩,
      ⟨h30, h31, h32, h33⟩⟩ := elem_eq m
    rw [det_fin_four]
    simp only [toMatrix, h00, h01, h02, h03, h10, h11, h12, h13, h20, h21, h22, h23,
      h30, h31, h32, h33, determinant]
    ring
  · simp [determinant, identity]
  · simp [determinant, zero]

/-- C4: `operator *` is the row-by-column matrix product, and `operator *=` leaves the
same product in its left operand. -/
theorem mul_entry [NonUnitalNonAssocSemiring α] (A B : Matrix4 α) :
    (∀ i j : Fin 4, (A * B).elem i j = ∑ k : Fin 4, A.elem i k * B.elem k j)
      ∧ (∀ i j : Fin 4, (A.mulAssign B).elem i j = ∑ k : Fin 4, A.elem i k * B.elem k j)
      ∧ toMatrix (A * B) = toMatrix A * toMatrix B
      ∧ A.mulAssign B = A * B := by
  have h1 : ∀ i j : Fin 4, (A * B).elem i j = ∑ k : Fin 4, A.elem i k * B.elem k j := by
    intro i j
    rw [Fin.sum_univ_four, mul_def]
    fin_cases i <;> fin_cases j <;> rfl
  have h2 : A.mulAssign B = A * B := rfl
  refine ⟨h1, ?_, ?_, h2⟩
  · intro i j
    rw [h2]
    exact h1 i j
  · funext i j
    rw [Matrix.mul_apply]
    exact h1 i j

/-- C5: the matrix written by `identity` is a left and a right unit of `operator *`. -/
theorem identity_mul_and_mul_identity [NonAssocSemiring α] (I0 M : Matrix4 α) :
    identity I0 * M = M ∧ M * identity I0 = M := by
  constructor <;> simp [mul_def, mul, identity]

/-- C6: `transpose` writes `out( i, j ) = M( j, i )`, and transposing twice gives the
matrix back, whatever the output matrices held before. -/
theorem transpose_entry_and_involutive (out out2 M : Matrix4 α) :
    (∀ i j : Fin 4, (transpose out M).elem i j = M.elem j i)
      ∧ transpose out2 (transpose out M) = M := by
  constructor
  · intro i j
    rw [transpose_eq]
    fin_cases i <;> fin_cases j <;> rfl
  · rw [transpose_eq, transpose_eq]

/-- A row of cofactors, each scaled by `1 / d`, times a column: the common factor
`1 / d` cancels against a row-by-column sum that is a multiple of `d`. -/
theorem scaled_row_mul_col [Field α] (d a b c e p q r s k : α) (hd : d ≠ 0)
    (h : a * p + b * q + c * r + e * s = k * d) :
    a * (1 / d) * p + b * (1 / d) * q + c * (1 / d) * r + e * (1 / d) * s = k := by
  have hsum : a * (1 / d) * p + b * (1 / d) * q + c * (1 / d) * r + e * (1 / d) * s
      = (a * p + b * q + c * r + e * s) * (1 / d) := by ring
  rw [hsum, h, mul_one_div, mul_div_assoc, div_self hd, mul_one]

/-- C1: when `determinant( M ) != 0`, the matrix written by `inverse( out, M )` is a
left inverse of `M` for `operator *`. -/
theorem inverse_mul_self [Field α] [DecidableEq α] (out M I0 : Matrix4 α) (det : Option α)
    (h : determinant M ≠ 0) :
    (inverse out M det).1 * M = identity I0 := by
  have hd : ¬ determinant M = 0 := h
  simp only [inverse, if_neg hd, divScalar, mulScalar, mul_def, mul, identity, zero,
    Matrix4.mk.injEq]
  refine ⟨?_, ?_, ?_, ?_, ?_, ?_, ?_, ?_, ?_, ?_, ?_, ?_, ?_, ?_, ?_, ?_⟩ <;>
    (refine scaled_row_mul_col (determinant M) _ _ _ _ _ _ _ _ _ h ?_
     simp only [determinant]
     ring)

/-- C1, at a concrete matrix of rationals. -/
theorem inverse_mul_self_witness :
    determinant (⟨2, 0, 0, 1, 0, 1, 0, 0, 3, 0, 1, 0, 0, 0, 0, 1⟩ : Matrix4 ℚ) ≠ 0
      ∧ (inverse (zero : Matrix4 ℚ) ⟨2, 0, 0, 1, 0, 1, 0, 0, 3, 0, 1, 0, 0, 0, 0, 1⟩ none).1
          * ⟨2, 0, 0, 1, 0, 1, 0, 0, 3, 0, 1, 0, 0, 0, 0, 1⟩ = identity zero :=
  ⟨by norm_num [determinant], inverse_mul_self _ _ _ _ (by norm_num [determinant])⟩

/-- C3: when `determinant( in ) == 0`, `inverse( out, in, &det )` returns `out` as it
was and stores `0` in `det`; with no `det` pointer nothing at all is written. -/
theorem inverse_singular [Add α] [Sub α] [Mul α] [Div α] [Zero α] [One α] [DecidableEq α]
    (out M : Matrix4 α) (d0 : α) (h : determinant M = 0) :
    inverse out M (some d0) = (out, some 0) ∧ inverse out M none = (out, none) := by
  simp [inverse, h]

/-- C3, at the all-zero matrix of rationals. -/
theorem inverse_singular_witness :
    determinant (zero : Matrix4 ℚ) = 0
      ∧ inverse (⟨1, 2, 3, 4, 5, 6, 7, 8, 9, 10, 11, 12, 13, 14, 15, 16⟩ : Matrix4 ℚ) zero
          (some 7) = (⟨1, 2, 3, 4, 5, 6, 7, 8, 9, 10, 11, 12, 13, 14, 15, 16⟩, some 0) :=
  ⟨by norm_num [determinant, zero],
   (inverse_singular _ _ _ (by norm_num [determinant, zero])).1⟩

end Matrix4

/-! Section: properties of `Vector3` -/

namespace Vector3

variable {α : Type}

/-- C7: when the homogeneous coordinate `w` is not `0`, `transform` sets `out` to the
`x, y, z` components of the row vector `(v0.x, v0.y, v0.z, 1)` times `m`, each divided
by `w`, which is the fourth component of that product. -/
theorem transform_eq_vecMul_div [Field α] [DecidableEq α] (out v0 : Vector3 α)
    (m : Matrix4 α)
    (hw : v0.x * m._14 + v0.y * m._24 + v0.z * m._34 + m._44 ≠ 0) :
    Matrix.vecMul ![v0.x, v0.y, v0.z, 1] (Matrix4.toMatrix m) 3
        = v0.x * m._14 + v0.y * m._24 + v0.z * m._34 + m._44
      ∧ transform out v0 m
        = ⟨Matrix.vecMul ![v0.x, v0.y, v0.z, 1] (Matrix4.toMatrix m) 0
              / (v0.x * m._14 + v0.y * m._24 + v0.z * m._34 + m._44),
           Matrix.vecMul ![v0.x, v0.y, v0.z, 1] (Matrix4.toMatrix m) 1
              / (v0.x * m._14 + v0.y * m._24 + v0.z * m._34 + m._44),
           Matrix.vecMul ![v0.x, v0.y, v0.z, 1] (Matrix4.toMatrix m) 2
              / (v0.x * m._14 + v0.y * m._24 + v0.z * m._34 + m._44)⟩
      ∧ transform out v0 m
        = ⟨(v0.x * m._11 + v0.y * m._21 + v0.z * m._31 + m._41)
              / (v0.x * m._14 + v0.y * m._24 + v0.z * m._34 + m._44),
           (v0.x * m._12 + v0.y * m._22 + v0.z * m._32 + m._42)
              / (v0.x * m._14 + v0.y * m._24 + v0.z * m._34 + m._44),
           (v0.x * m._13 + v0.y * m._23 + v0.z * m._33 + m._43)
              / (v0.x * m._14 + v0.y * m._24 + v0.z * m._34 + m._44)⟩ := by
  obtain ⟨⟨h00, h01, h02, h03⟩, ⟨h10, h11, h12, h13⟩, ⟨h20, h21, h22, h23⟩,
    ⟨h30, h31, h32, h33⟩⟩ := Matrix4.elem_eq m
  have hne : ¬ v0.x * m._14 + v0.y * m._24 + v0.z * m._34 + m._44 = 0 := hw
  have hv : ∀ j : Fin 4, Matrix.vecMul ![v0.x, v0.y, v0.z, 1] (Matrix4.toMatrix m) j
      = v0.x * m.elem 0 j + v0.y * m.elem 1 j + v0.z * m.elem 2 j + m.elem 3 j := by
    intro j
    simp [Matrix.vecMul, Matrix.dotProduct, Fin.sum_univ_four, Matrix4.toMatrix]
  refine ⟨?_, ?_, ?_⟩
  · rw [hv, h03, h13, h23, h33]
  · rw [hv, hv, hv, h00, h10, h20, h30, h01, h11, h21, h31, h02, h12, h22, h32]
    simp only [transform, if_neg hne]
  · simp only [transform, if_neg hne]

/-- C7, at a concrete vector and matrix of rationals (`w = 2`). -/
theorem transform_eq_vecMul_div_witness :
    ((1 : ℚ) * 0 + 2 * 0 + 3 * 0 + 2 ≠ 0)
      ∧ transform (zero : Vector3 ℚ) ⟨1, 2, 3⟩ ⟨1, 0, 0, 0, 0, 1, 0, 0, 0, 0, 1, 0, 4, 5, 6, 2⟩
        = ⟨((1 : ℚ) * 1 + 2 * 0 + 3 * 0 + 4) / (1 * 0 + 2 * 0 + 3 * 0 + 2),
           ((1 : ℚ) * 0 + 2 * 1 + 3 * 0 + 5) / (1 * 0 + 2 * 0 + 3 * 0 + 2),
           ((1 : ℚ) * 0 + 2 * 0 + 3 * 1 + 6) / (1 * 0 + 2 * 0 + 3 * 0 + 2)⟩ :=
  ⟨by norm_num,
   (transform_eq_vecMul_div (zero : Vector3 ℚ) ⟨1, 2, 3⟩
      ⟨1, 0, 0, 0, 0, 1, 0, 0, 0, 0, 1, 0, 4, 5, 6, 2⟩ (by norm_num)).2.2⟩

/-- C8: when its homogeneous coordinate `w` is `0`, `transform` leaves `out` at its
prior value, and so does `transformNormal` for its own `w`. -/
theorem transform_w_zero_unmodified [Add α] [Mul α] [Div α] [Zero α] [DecidableEq α]
    (out v0 : Vector3 α) (m : Matrix4 α) :
    (v0.x * m._14 + v0.y * m._24 + v0.z * m._34 + m._44 = 0 → transform out v0 m = out)
      ∧ (v0.x * m._14 + v0.y * m._24 + v0.z * m._34 = 0 → transformNormal out v0 m = out) := by
  constructor
  · intro hw
    simp only [transform, if_pos hw]
  · intro hw
    simp only [transformNormal, if_pos hw]

/-- C8, at a concrete vector and matrix of rationals: `w = 1 * 1 + (-1) = 0` for
`transform`, and the identity matrix (`w = 0`) for `transformNormal`. -/
theorem transform_w_zero_unmodified_witness :
    ((1 : ℚ) * 1 + 2 * 0 + 3 * 0 + (-1) = 0
        ∧ transform (⟨7, 8, 9⟩ : Vector3 ℚ) ⟨1, 2, 3⟩
            ⟨1, 0, 0, 1, 0, 1, 0, 0, 0, 0, 1, 0, 0, 0, 0, -1⟩ = ⟨7, 8, 9⟩)
      ∧ ((1 : ℚ) * 0 + 2 * 0 + 3 * 0 = 0
        ∧ transformNormal (⟨7, 8, 9⟩ : Vector3 ℚ) ⟨1, 2, 3⟩
            ⟨1, 0, 0, 0, 0, 1, 0, 0, 0, 0, 1, 0, 0, 0, 0, 1⟩ = ⟨7, 8, 9⟩) :=
  ⟨⟨by norm_num,
    (transform_w_zero_unmodified (⟨7, 8, 9⟩ : Vector3 ℚ) ⟨1, 2, 3⟩
      ⟨1, 0, 0, 1, 0, 1, 0, 0, 0, 0, 1, 0, 0, 0, 0, -1⟩).1 (by norm_num)⟩,
   ⟨by norm_num,
    (transform_w_zero_unmodified (⟨7, 8, 9⟩ : Vector3 ℚ) ⟨1, 2, 3⟩
      ⟨1, 0, 0, 0, 0, 1, 0, 0, 0, 0, 1, 0, 0, 0, 0, 1⟩).2 (by norm_num)⟩⟩

/-- C10: `cross` writes the right-handed cross product, whatever `out` held; the result
is orthogonal to both inputs, and `(1,0,0)` cross `(0,1,0)` is `(0,0,1)`. -/
theorem cross_eq_and_orthogonal [CommRing α] (out v1 v2 : Vector3 α) :
    cross out v1 v2
        = ⟨v1.y * v2.z - v1.z * v2.y, v1.z * v2.x - v1.x * v2.z, v1.x * v2.y - v1.y * v2.x⟩
      ∧ dot (cross out v1 v2) v1 = 0
      ∧ dot (cross out v1 v2) v2 = 0
      ∧ cross out ⟨1, 0, 0⟩ ⟨0, 1, 0⟩ = (⟨0, 0, 1⟩ : Vector3 α) := by
  refine ⟨rfl, ?_, ?_, ?_⟩
  · simp only [dot, cross]
    ring
  · simp only [dot, cross]
    ring
  · simp [cross]

end Vector3

/-! Section: properties of `Vector4` -/

namespace Vector4

variable {α : Type}

/-- C9: `transform` always writes `o = v * m` (row vector times matrix), for every
prior value of `o`, with no divide by the fourth component. -/
theorem transform_eq_vecMul [Semiring α] (o v : Vector4 α) (m : Matrix4 α) :
    transform o v m
        = ⟨v.x * m._11 + v.y * m._21 + v.z * m._31 + v.w * m._41,
           v.x * m._12 + v.y * m._22 + v.z * m._32 + v.w * m._42,
           v.x * m._13 + v.y * m._23 + v.z * m._33 + v.w * m._43,
           v.x * m._14 + v.y * m._24 + v.z * m._34 + v.w * m._44⟩
      ∧ transform o v m
        = ⟨Matrix.vecMul ![v.x, v.y, v.z, v.w] (Matrix4.toMatrix m) 0,
           Matrix.vecMul ![v.x, v.y, v.z, v.w] (Matrix4.toMatrix m) 1,
           Matrix.vecMul ![v.x, v.y, v.z, v.w] (Matrix4.toMatrix m) 2,
           Matrix.vecMul ![v.x, v.y, v.z, v.w] (Matrix4.toMatrix m) 3⟩ := by
  obtain ⟨⟨h00, h01, h02, h03⟩, ⟨h10, h11, h12, h13⟩, ⟨h20, h21, h22, h23⟩,
    ⟨h30, h31, h32, h33⟩⟩ := Matrix4.elem_eq m
  have hv : ∀ j : Fin 4, Matrix.vecMul ![v.x, v.y, v.z, v.w] (Matrix4.toMatrix m) j
      = v.x * m.elem 0 j + v.y * m.elem 1 j + v.z * m.elem 2 j + v.w * m.elem 3 j := by
    intro j
    simp [Matrix.vecMul, Matrix.dotProduct, Fin.sum_univ_four, Matrix4.toMatrix]
  refine ⟨rfl, ?_⟩
  rw [hv, hv, hv, hv, h00, h10, h20, h30, h01, h11, h21, h31, h02, h12, h22, h32,
    h03, h13, h23, h33]
  rfl

end Vector4

/-! Section: lengths and normalisation -/

/-- C11: over the reals, with the real square root, `length( v ) * length( v )` is
`norm( v )`, for `Vector2`, `Vector3` and `Vector4`. -/
theorem length_mul_length_eq_norm (a : Vector2 ℝ) (b : Vector3 ℝ) (c : Vector4 ℝ) :
    Vector2.length Real.sqrt a * Vector2.length Real.sqrt a = Vector2.norm a
      ∧ Vector3.length Real.sqrt b * Vector3.length Real.sqrt b = Vector3.norm b
      ∧ Vector4.length Real.sqrt c * Vector4.length Real.sqrt c = Vector4.norm c := by
  refine ⟨?_, ?_, ?_⟩
  · exact Real.mul_self_sqrt (add_nonneg (mul_self_nonneg _) (mul_self_nonneg _))
  · exact Real.mul_self_sqrt
      (add_nonneg (add_nonneg (mul_self_nonneg _) (mul_self_nonneg _)) (mul_self_nonneg _))
  · exact Real.mul_self_sqrt
      (add_nonneg (add_nonneg (add_nonneg (mul_self_nonneg _) (mul_self_nonneg _))
        (mul_self_nonneg _)) (mul_self_nonneg _))

/-- A real `s` whose square root is not `0` is the square of that root, which then
divides it to `1`. -/
theorem div_sqrt_mul_self {s : ℝ} (h : Real.sqrt s ≠ 0) :
    s / (Real.sqrt s * Real.sqrt s) = 1 := by
  have hs : 0 < s := Real.sqrt_pos.mp (lt_of_le_of_ne (Real.sqrt_nonneg s) (Ne.symm h))
  rw [Real.mul_self_sqrt hs.le, div_self hs.ne']

/-- C12: over the reals, when `length( v ) != 0`, `normalize( out, v )` sets `out` to
`v / length( v )`, and the length of the result is `1`; for `Vector2` and `Vector3`. -/
theorem normalize_eq_div_length (out2 a : Vector2 ℝ) (out3 b : Vector3 ℝ) :
    (Vector2.length Real.sqrt a ≠ 0 →
        Vector2.normalize Real.sqrt out2 a = a.divScalar (Vector2.length Real.sqrt a)
          ∧ Vector2.length Real.sqrt (Vector2.normalize Real.sqrt out2 a) = 1)
      ∧ (Vector3.length Real.sqrt b ≠ 0 →
        Vector3.normalize Real.sqrt out3 b = b.divScalar (Vector3.length Real.sqrt b)
          ∧ Vector3.length Real.sqrt (Vector3.normalize Real.sqrt out3 b) = 1) := by
  constructor
  · intro h
    have hn : ¬ Vector2.length Real.sqrt a = 0 := h
    have he : Vector2.normalize Real.sqrt out2 a = a.divScalar (Vector2.length Real.sqrt a) := by
      simp only [Vector2.normalize, if_neg hn]
    refine ⟨he, ?_⟩
    rw [he]
    have h1 := div_sqrt_mul_self h
    simp only [Vector2.length, Vector2.divScalar] at h1 ⊢
    rw [show a.x / Real.sqrt (a.x * a.x + a.y * a.y) * (a.x / Real.sqrt (a.x * a.x + a.y * a.y))
          + a.y / Real.sqrt (a.x * a.x + a.y * a.y) * (a.y / Real.sqrt (a.x * a.x + a.y * a.y))
        = (a.x * a.x + a.y * a.y)
          / (Real.sqrt (a.x * a.x + a.y * a.y) * Real.sqrt (a.x * a.x + a.y * a.y)) by ring,
      h1, Real.sqrt_one]
  · intro h
    have hn : ¬ Vector3.length Real.sqrt b = 0 := h
    have he : Vector3.normalize Real.sqrt out3 b = b.divScalar (Vector3.length Real.sqrt b) := by
      simp only [Vector3.normalize, if_neg hn]
    refine ⟨he, ?_⟩
    rw [he]
    have h1 := div_sqrt_mul_self h
    simp only [Vector3.length, Vector3.divScalar] at h1 ⊢
    rw [show b.x / Real.sqrt (b.x * b.x + b.y * b.y + b.z * b.z)
            * (b.x / Real.sqrt (b.x * b.x + b.y * b.y + b.z * b.z))
          + b.y / Real.sqrt (b.x * b.x + b.y * b.y + b.z * b.z)
            * (b.y / Real.sqrt (b.x * b.x + b.y * b.y + b.z * b.z))
          + b.z / Real.sqrt (b.x * b.x + b.y * b.y + b.z * b.z)
            * (b.z / Real.sqrt (b.x * b.x + b.y * b.y + b.z * b.z))
        = (b.x * b.x + b.y * b.y + b.z * b.z)
          / (Real.sqrt (b.x * b.x + b.y * b.y + b.z * b.z)
            * Real.sqrt (b.x * b.x + b.y * b.y + b.z * b.z)) by ring,
      h1, Real.sqrt_one]

/-- The real square root of `25` is `5`. -/
theorem sqrt_twenty_five : Real.sqrt 25 = 5 := by
  rw [show (25 : ℝ) = 5 * 5 by norm_num]
  exact Real.sqrt_mul_self (by norm_num)

/-- The real square root of `49` is `7`. -/
theorem sqrt_forty_nine : Real.sqrt 49 = 7 := by
  rw [show (49 : ℝ) = 7 * 7 by norm_num]
  exact Real.sqrt_mul_self (by norm_num)

/-- C12, at the vectors `(3, 4)` of length `5` and `(2, 3, 6)` of length `7`. -/
theorem normalize_eq_div_length_witness :
    (Vector2.length Real.sqrt (⟨3, 4⟩ : Vector2 ℝ) ≠ 0
        ∧ Vector2.length Real.sqrt (Vector2.normalize Real.sqrt Vector2.zero ⟨3, 4⟩) = 1)
      ∧ (Vector3.length Real.sqrt (⟨2, 3, 6⟩ : Vector3 ℝ) ≠ 0
        ∧ Vector3.length Real.sqrt (Vector3.normalize Real.sqrt Vector3.zero ⟨2, 3, 6⟩) = 1) :=
  have h2 : Vector2.length Real.sqrt (⟨3, 4⟩ : Vector2 ℝ) ≠ 0 := by
    norm_num [Vector2.length, sqrt_twenty_five]
  have h3 : Vector3.length Real.sqrt (⟨2, 3, 6⟩ : Vector3 ℝ) ≠ 0 := by
    norm_num [Vector3.length, sqrt_forty_nine]
  ⟨⟨h2, ((normalize_eq_div_length Vector2.zero ⟨3, 4⟩ Vector3.zero ⟨2, 3, 6⟩).1 h2).2⟩,
   ⟨h3, ((normalize_eq_div_length Vector2.zero ⟨3, 4⟩ Vector3.zero ⟨2, 3, 6⟩).2 h3).2⟩⟩

/-- C13: when `length( v ) == 0`, `normalize( out, v )` sets `out` to the default (zero)
vector whatever `out` held, for `Vector2`, `Vector3` and `Vector4`; this is the case of
the zero vector as soon as `sqrt 0 = 0`.  The result is a plain value: nothing else is
signalled. -/
theorem normalize_zero_length {α : Type} [Field α] [DecidableEq α] (sqrt : α → α)
    (out2 a : Vector2 α) (out3 b : Vector3 α) (out4 c : Vector4 α) :
    ((Vector2.length sqrt a = 0 → Vector2.normalize sqrt out2 a = Vector2.zero)
        ∧ (Vector3.length sqrt b = 0 → Vector3.normalize sqrt out3 b = Vector3.zero)
        ∧ (Vector4.length sqrt c = 0 → Vector4.normalize sqrt out4 c = some Vector4.zero))
      ∧ (sqrt 0 = 0 →
          Vector2.normalize sqrt out2 Vector2.zero = Vector2.zero
            ∧ Vector3.normalize sqrt out3 Vector3.zero = Vector3.zero
            ∧ Vector4.normalize sqrt out4 Vector4.zero = some Vector4.zero) := by
  refine ⟨⟨?_, ?_, ?_⟩, ?_⟩
  · intro h
    simp only [Vector2.normalize, if_pos h]
  · intro h
    simp only [Vector3.normalize, if_pos h]
  · intro h
    simp only [Vector4.normalize, if_pos h]
  · intro h
    simp [Vector2.normalize, Vector3.normalize, Vector4.normalize, Vector2.length,
      Vector3.length, Vector4.length, Vector2.zero, Vector3.zero, Vector4.zero, h]

/-- C13, over the reals with the real square root: vectors of length `0` (here the zero
vectors) are sent to the zero vector, from any prior `out`. -/
theorem normalize_zero_length_witness :
    (Vector2.length Real.sqrt (⟨0, 0⟩ : Vector2 ℝ) = 0
        ∧ Vector2.normalize Real.sqrt ⟨1, 2⟩ (⟨0, 0⟩ : Vector2 ℝ) = Vector2.zero)
      ∧ (Vector3.length Real.sqrt (⟨0, 0, 0⟩ : Vector3 ℝ) = 0
        ∧ Vector3.normalize Real.sqrt ⟨1, 2, 3⟩ (⟨0, 0, 0⟩ : Vector3 ℝ) = Vector3.zero)
      ∧ (Vector4.length Real.sqrt (⟨0, 0, 0, 0⟩ : Vector4 ℝ) = 0
        ∧ Vector4.normalize Real.sqrt ⟨1, 2, 3, 4⟩ (⟨0, 0, 0, 0⟩ : Vector4 ℝ)
            = some Vector4.zero)
      ∧ (Real.sqrt 0 = 0
        ∧ Vector3.normalize Real.sqrt ⟨1, 2, 3⟩ (Vector3.zero : Vector3 ℝ) = Vector3.zero) :=
  have h2 : Vector2.length Real.sqrt (⟨0, 0⟩ : Vector2 ℝ) = 0 := by simp [Vector2.length]
  have h3 : Vector3.length Real.sqrt (⟨0, 0, 0⟩ : Vector3 ℝ) = 0 := by simp [Vector3.length]
  have h4 : Vector4.length Real.sqrt (⟨0, 0, 0, 0⟩ : Vector4 ℝ) = 0 := by
    simp [Vector4.length]
  ⟨⟨h2, (normalize_zero_length Real.sqrt ⟨1, 2⟩ ⟨0, 0⟩ ⟨1, 2, 3⟩ ⟨0, 0, 0⟩ ⟨1, 2, 3, 4⟩
      ⟨0, 0, 0, 0⟩).1.1 h2⟩,
   ⟨h3, (normalize_zero_length Real.sqrt ⟨1, 2⟩ ⟨0, 0⟩ ⟨1, 2, 3⟩ ⟨0, 0, 0⟩ ⟨1, 2, 3, 4⟩
      ⟨0, 0, 0, 0⟩).1.2.1 h3⟩,
   ⟨h4, (normalize_zero_length Real.sqrt ⟨1, 2⟩ ⟨0, 0⟩ ⟨1, 2, 3⟩ ⟨0, 0, 0⟩ ⟨1, 2, 3, 4⟩
      ⟨0, 0, 0, 0⟩).1.2.2 h4⟩,
   ⟨Real.sqrt_zero, ((normalize_zero_length Real.sqrt ⟨1, 2⟩ ⟨0, 0⟩ ⟨1, 2, 3⟩ ⟨0, 0, 0⟩
      ⟨1, 2, 3, 4⟩ ⟨0, 0, 0, 0⟩).2 Real.sqrt_zero).2.1⟩⟩

/-- C14: at the vector `(3, 0, 0, 4)` of length `5`, `Vector4::normalize` takes the path
of the statement `*v = *v0 / l;`, which has no value, whereas the claim asks for
`(3/5, 0, 0, 4/5)`, which is what `operator /` gives and has length `1`. -/
theorem vector4_normalize_nonzero_no_value :
    Vector4.length Real.sqrt (⟨3, 0, 0, 4⟩ : Vector4 ℝ) = 5
      ∧ Vector4.normalize Real.sqrt Vector4.zero (⟨3, 0, 0, 4⟩ : Vector4 ℝ) = none
      ∧ Vector4.divScalar (⟨3, 0, 0, 4⟩ : Vector4 ℝ) 5 = ⟨3 / 5, 0, 0, 4 / 5⟩
      ∧ Vector4.length Real.sqrt (⟨3 / 5, 0, 0, 4 / 5⟩ : Vector4 ℝ) = 1 := by
  have hl : Vector4.length Real.sqrt (⟨3, 0, 0, 4⟩ : Vector4 ℝ) = 5 := by
    norm_num [Vector4.length, sqrt_twenty_five]
  refine ⟨hl, ?_, ?_, ?_⟩
  · simp only [Vector4.normalize, hl]
    norm_num
  · norm_num [Vector4.divScalar]
  · norm_num [Vector4.length]

/-! Section: properties of `Plane` -/

namespace Plane

variable {α : Type}

/-- C18: `intersectLine` returns `false` exactly when the dot product of the plane's
`(a, b, c)` with `dir` is `0`, and then `pos` and the optional `dist` keep their prior
values. -/
theorem intersectLine_false_iff [Add α] [Mul α] [Div α] [Neg α] [Zero α] [DecidableEq α]
    (pos : Vector3 α) (plane : Plane α) (org dir : Vector3 α) (dist : Option α) :
    ((intersectLine pos plane org dir dist).1 = false
        ↔ Vector3.dot ⟨plane.a, plane.b, plane.c⟩ dir = 0)
      ∧ (Vector3.dot ⟨plane.a, plane.b, plane.c⟩ dir = 0 →
          intersectLine pos plane org dir dist = (false, pos, dist)) := by
  constructor
  · by_cases h : Vector3.dot ⟨plane.a, plane.b, plane.c⟩ dir = 0
    · simp only [intersectLine, if_pos h]
      exact iff_of_true trivial h
    · simp only [intersectLine, if_neg h]
      exact ⟨fun hf => Bool.noConfusion hf, fun hf => absurd hf h⟩
  · intro h
    simp only [intersectLine, if_pos h]

/-- C18, at the plane `z = 0` and a ray along the `x` axis. -/
theorem intersectLine_false_iff_witness :
    Vector3.dot (⟨0, 0, 1⟩ : Vector3 ℚ) ⟨1, 0, 0⟩ = 0
      ∧ intersectLine (⟨7, 8, 9⟩ : Vector3 ℚ) ⟨0, 0, 1, 0⟩ ⟨0, 0, 5⟩ ⟨1, 0, 0⟩ (some 3)
          = (false, ⟨7, 8, 9⟩, some 3) :=
  ⟨by norm_num [Vector3.dot],
   (intersectLine_false_iff (⟨7, 8, 9⟩ : Vector3 ℚ) ⟨0, 0, 1, 0⟩ ⟨0, 0, 5⟩ ⟨1, 0, 0⟩
      (some 3)).2 (by norm_num [Vector3.dot])⟩

/-- C19: whenever `intersectLine` returns `true`, with
`t = -( dot( N, org ) + plane.d ) / dot( N, dir )` the written `pos` is `org + dir * t`,
the optional `dist` (when supplied) holds `t`, and `pos` satisfies the plane equation.
At the plane `z = 0`, origin `(0, 0, 5)` and direction `(0, 0, -1)` the call returns
`true` with `pos = (0, 0, 0)` and `dist = 5`. -/
theorem intersectLine_true [Field α] [DecidableEq α]
    (pos0 : Vector3 α) (plane : Plane α) (org dir : Vector3 α) (dist0 : Option α) :
    ((intersectLine pos0 plane org dir dist0).1 = true →
        (intersectLine pos0 plane org dir dist0).2.1
            = Vector3.add org (Vector3.mulScalar dir
                ((-(Vector3.dot ⟨plane.a, plane.b, plane.c⟩ org + plane.d))
                  / Vector3.dot ⟨plane.a, plane.b, plane.c⟩ dir))
          ∧ (intersectLine pos0 plane org dir dist0).2.2
            = dist0.map (fun _ =>
                (-(Vector3.dot ⟨plane.a, plane.b, plane.c⟩ org + plane.d))
                  / Vector3.dot ⟨plane.a, plane.b, plane.c⟩ dir)
          ∧ plane.a * (intersectLine pos0 plane org dir dist0).2.1.x
              + plane.b * (intersectLine pos0 plane org dir dist0).2.1.y
              + plane.c * (intersectLine pos0 plane org dir dist0).2.1.z + plane.d = 0)
      ∧ intersectLine pos0 ⟨0, 0, 1, 0⟩ ⟨0, 0, 5⟩ ⟨0, 0, -1⟩ (some 0)
          = (true, ⟨0, 0, 0⟩, some 5) := by
  constructor
  · intro h
    by_cases hc : Vector3.dot ⟨plane.a, plane.b, plane.c⟩ dir = 0
    · simp only [intersectLine, if_pos hc] at h
      exact Bool.noConfusion h
    · simp only [intersectLine, if_neg hc]
      refine ⟨trivial, trivial, ?_⟩
      simp only [Vector3.dot, Vector3.add, Vector3.mulScalar] at hc ⊢
      field_simp
      ring
  · have hc : ¬ Vector3.dot (⟨0, 0, 1⟩ : Vector3 α) ⟨0, 0, -1⟩ = 0 := by
      simp [Vector3.dot]
    simp only [intersectLine, if_neg hc]
    simp [Vector3.dot, Vector3.add, Vector3.mulScalar]

/-- C19, at the plane `x + 2 y + 2 z - 3 = 0` and the ray from `(1, 1, 1)` along
`(1, 0, 0)`, over the rationals. -/
theorem intersectLine_true_witness :
    (intersectLine (⟨7, 8, 9⟩ : Vector3 ℚ) ⟨1, 2, 2, -3⟩ ⟨1, 1, 1⟩ ⟨1, 0, 0⟩ (some 0)).1 = true
      ∧ (1 : ℚ) * (intersectLine (⟨7, 8, 9⟩ : Vector3 ℚ) ⟨1, 2, 2, -3⟩ ⟨1, 1, 1⟩ ⟨1, 0, 0⟩
              (some 0)).2.1.x
          + 2 * (intersectLine (⟨7, 8, 9⟩ : Vector3 ℚ) ⟨1, 2, 2, -3⟩ ⟨1, 1, 1⟩ ⟨1, 0, 0⟩
              (some 0)).2.1.y
          + 2 * (intersectLine (⟨7, 8, 9⟩ : Vector3 ℚ) ⟨1, 2, 2, -3⟩ ⟨1, 1, 1⟩ ⟨1, 0, 0⟩
              (some 0)).2.1.z + (-3) = 0 :=
  have h : (intersectLine (⟨7, 8, 9⟩ : Vector3 ℚ) ⟨1, 2, 2, -3⟩ ⟨1, 1, 1⟩ ⟨1, 0, 0⟩
      (some 0)).1 = true := by
    norm_num [intersectLine, Vector3.dot]
  ⟨h, ((intersectLine_true (⟨7, 8, 9⟩ : Vector3 ℚ) ⟨1, 2, 2, -3⟩ ⟨1, 1, 1⟩ ⟨1, 0, 0⟩
      (some 0)).1 h).2.2⟩

/-- C20: the plane written by `createFromPoints` contains the three points, and
`createFromPointNormal( out, p, n )` writes the plane of normal `n` with
`d = -dot( n, p )`, which contains `p`. -/
theorem createFromPoints_contains [Field α] [DecidableEq α] (sqrt : α → α)
    (out : Plane α) (v : Fin 3 → Vector3 α) (p n : Vector3 α) :
    (∀ i : Fin 3, dot (createFromPoints sqrt out v) (v i) = 0)
      ∧ createFromPointNormal out p n = ⟨n.x, n.y, n.z, -Vector3.dot n p⟩
      ∧ dot (createFromPointNormal out p n) p = 0 := by
  refine ⟨?_, rfl, ?_⟩
  · have key : ∀ w : Vector3 α, (w = v 0 ∨ w = v 1 ∨ w = v 2) →
        dot (createFromPoints sqrt out v) w = 0 := by
      intro w hw
      by_cases hl : Vector3.length sqrt
          (Vector3.cross Vector3.zero (Vector3.sub (v 1) (v 0)) (Vector3.sub (v 2) (v 0))) = 0
      · have hN : Vector3.normalize sqrt
            (Vector3.cross Vector3.zero (Vector3.sub (v 1) (v 0)) (Vector3.sub (v 2) (v 0)))
            (Vector3.cross Vector3.zero (Vector3.sub (v 1) (v 0)) (Vector3.sub (v 2) (v 0)))
            = Vector3.zero := by
          simp only [Vector3.normalize, if_pos hl]
        simp only [createFromPoints, hN]
        simp [createFromPointNormal, dot, Vector3.zero]
      · have hN : Vector3.normalize sqrt
            (Vector3.cross Vector3.zero (Vector3.sub (v 1) (v 0)) (Vector3.sub (v 2) (v 0)))
            (Vector3.cross Vector3.zero (Vector3.sub (v 1) (v 0)) (Vector3.sub (v 2) (v 0)))
            = Vector3.divScalar
                (Vector3.cross Vector3.zero (Vector3.sub (v 1) (v 0)) (Vector3.sub (v 2) (v 0)))
                (Vector3.length sqrt (Vector3.cross Vector3.zero (Vector3.sub (v 1) (v 0))
                  (Vector3.sub (v 2) (v 0)))) := by
          simp only [Vector3.normalize, if_neg hl]
        simp only [createFromPoints, hN]
        generalize Vector3.length sqrt (Vector3.cross Vector3.zero (Vector3.sub (v 1) (v 0))
          (Vector3.sub (v 2) (v 0))) = l at hl
        simp only [createFromPointNormal, dot, Vector3.divScalar, Vector3.cross, Vector3.sub]
        rcases hw with hw | hw | hw <;> subst hw <;> (field_simp; ring)
    intro i
    fin_cases i
    · exact key _ (Or.inl rfl)
    · exact key _ (Or.inr (Or.inl rfl))
    · exact key _ (Or.inr (Or.inr rfl))
  · simp only [createFromPointNormal, dot]
    ring

end Plane

/-! Section: properties of `Vector3::intersectTri` -/

namespace Vector3

/-- A real radicand `R` with `D * R = A * A`, `0 < D` and `0 ≤ A` has square root
`A / D * sqrt D`. -/
theorem sqrt_of_mul_eq_mul_self {R A D : ℝ} (hD : 0 < D) (hA : 0 ≤ A) (h : D * R = A * A) :
    Real.sqrt R = A / D * Real.sqrt D := by
  have hR : R = (A / D) ^ 2 * D := by
    field_simp
    linear_combination D * h
  rw [hR, Real.sqrt_mul (sq_nonneg _), Real.sqrt_sq (div_nonneg hA hD.le)]

/-- A vector of the reals other than the default one has a positive `norm`. -/
theorem norm_pos_of_ne_zero (n : Vector3 ℝ) (h : n ≠ zero) : 0 < norm n := by
  obtain ⟨x, y, z⟩ := n
  simp only [norm]
  by_contra hle
  have hx : x * x ≤ 0 := by nlinarith [mul_self_nonneg x, mul_self_nonneg y, mul_self_nonneg z]
  have hy : y * y ≤ 0 := by nlinarith [mul_self_nonneg x, mul_self_nonneg y, mul_self_nonneg z]
  have hz : z * z ≤ 0 := by nlinarith [mul_self_nonneg x, mul_self_nonneg y, mul_self_nonneg z]
  have hx0 : x = 0 := mul_self_eq_zero.mp (le_antisymm hx (mul_self_nonneg x))
  have hy0 : y = 0 := mul_self_eq_zero.mp (le_antisymm hy (mul_self_nonneg y))
  have hz0 : z = 0 := mul_self_eq_zero.mp (le_antisymm hz (mul_self_nonneg z))
  exact h (by rw [hx0, hy0, hz0]; rfl)

/-- Over the reals, `normalize` of a vector other than the default one divides it by
the positive square root of its `norm`. -/
theorem normalize_of_ne_zero (out n : Vector3 ℝ) (h : n ≠ zero) :
    0 < Real.sqrt (norm n) ∧ normalize Real.sqrt out n = divScalar n (Real.sqrt (norm n)) := by
  have hpos : 0 < Real.sqrt (norm n) := Real.sqrt_pos.mpr (norm_pos_of_ne_zero n h)
  refine ⟨hpos, ?_⟩
  have hne : ¬ length Real.sqrt n = 0 := hpos.ne'
  simp only [normalize, if_neg hne]
  rfl

/-- The dot product with a vector divided by a scalar. -/
theorem dot_divScalar (a n : Vector3 ℝ) (l : ℝ) : dot a (divScalar n l) = dot a n / l := by
  simp only [dot, divScalar]
  ring

/-- Polynomial identities behind the barycentric coordinates of `intersectTri`, for a
triangle `v0 v1 v2` with normal `n = (v1 - v0) x (v2 - v0)` and any point `p`; `W` is
`dot( p - v0, n )`, and `A`, `B`, `C` are the three edge tests taken against `n`. -/
theorem triangle_identities (v0 v1 v2 p : Vector3 ℝ) :
    norm (cross zero (sub v1 v0) (sub v2 v0))
          * (norm (sub v2 v0) * norm (sub v2 p)
              - dot (sub v2 p) (sub v2 v0) * dot (sub v2 p) (sub v2 v0))
        = dot (cross zero (sub v2 p) (sub v0 v2)) (cross zero (sub v1 v0) (sub v2 v0))
            * dot (cross zero (sub v2 p) (sub v0 v2)) (cross zero (sub v1 v0) (sub v2 v0))
          + norm (sub v2 v0) * dot (sub p v0) (cross zero (sub v1 v0) (sub v2 v0))
            * dot (sub p v0) (cross zero (sub v1 v0) (sub v2 v0))
      ∧ norm (cross zero (sub v1 v0) (sub v2 v0))
          * (norm (sub v1 v0) * norm (sub v1 p)
              - dot (sub v1 p) (sub v1 v0) * dot (sub v1 p) (sub v1 v0))
        = dot (cross zero (sub v0 p) (sub v1 v0)) (cross zero (sub v1 v0) (sub v2 v0))
            * dot (cross zero (sub v0 p) (sub v1 v0)) (cross zero (sub v1 v0) (sub v2 v0))
          + norm (sub v1 v0) * dot (sub p v0) (cross zero (sub v1 v0) (sub v2 v0))
            * dot (sub p v0) (cross zero (sub v1 v0) (sub v2 v0))
      ∧ norm (sub v1 v0) * norm (sub v2 v0)
          - dot (sub v1 v0) (sub v2 v0) * dot (sub v1 v0) (sub v2 v0)
        = norm (cross zero (sub v1 v0) (sub v2 v0))
      ∧ dot (cross zero (sub v1 p) (sub v2 v1)) (cross zero (sub v1 v0) (sub v2 v0))
        = norm (cross zero (sub v1 v0) (sub v2 v0))
          - dot (cross zero (sub v2 p) (sub v0 v2)) (cross zero (sub v1 v0) (sub v2 v0))
          - dot (cross zero (sub v0 p) (sub v1 v0)) (cross zero (sub v1 v0) (sub v2 v0)) := by
  obtain ⟨x0, y0, z0⟩ := v0
  obtain ⟨x1, y1, z1⟩ := v1
  obtain ⟨x2, y2, z2⟩ := v2
  obtain ⟨px, py, pz⟩ := p
  obtain ⟨a1, rfl⟩ : ∃ a1, x1 = x0 + a1 := ⟨x1 - x0, by ring⟩
  obtain ⟨a2, rfl⟩ : ∃ a2, y1 = y0 + a2 := ⟨y1 - y0, by ring⟩
  obtain ⟨a3, rfl⟩ : ∃ a3, z1 = z0 + a3 := ⟨z1 - z0, by ring⟩
  obtain ⟨b1, rfl⟩ : ∃ b1, x2 = x0 + b1 := ⟨x2 - x0, by ring⟩
  obtain ⟨b2, rfl⟩ : ∃ b2, y2 = y0 + b2 := ⟨y2 - y0, by ring⟩
  obtain ⟨b3, rfl⟩ : ∃ b3, z2 = z0 + b3 := ⟨z2 - z0, by ring⟩
  obtain ⟨w1, rfl⟩ : ∃ w1, px = x0 + w1 := ⟨px - x0, by ring⟩
  obtain ⟨w2, rfl⟩ : ∃ w2, py = y0 + w2 := ⟨py - y0, by ring⟩
  obtain ⟨w3, rfl⟩ : ∃ w3, pz = z0 + w3 := ⟨pz - z0, by ring⟩
  simp only [dot, cross, sub, norm]
  refine ⟨?_, ?_, ?_, ?_⟩ <;> ring

/-- The decomposition of `p - v0` along the two edges and the normal, by components. -/
theorem triangle_decomposition (v0 v1 v2 p : Vector3 ℝ) :
    norm (cross zero (sub v1 v0) (sub v2 v0)) * (p.x - v0.x)
        = dot (cross zero (sub v2 p) (sub v0 v2)) (cross zero (sub v1 v0) (sub v2 v0))
            * (v1.x - v0.x)
          + dot (cross zero (sub v0 p) (sub v1 v0)) (cross zero (sub v1 v0) (sub v2 v0))
            * (v2.x - v0.x)
          + dot (sub p v0) (cross zero (sub v1 v0) (sub v2 v0))
            * (cross zero (sub v1 v0) (sub v2 v0)).x
      ∧ norm (cross zero (sub v1 v0) (sub v2 v0)) * (p.y - v0.y)
        = dot (cross zero (sub v2 p) (sub v0 v2)) (cross zero (sub v1 v0) (sub v2 v0))
            * (v1.y - v0.y)
          + dot (cross zero (sub v0 p) (sub v1 v0)) (cross zero (sub v1 v0) (sub v2 v0))
            * (v2.y - v0.y)
          + dot (sub p v0) (cross zero (sub v1 v0) (sub v2 v0))
            * (cross zero (sub v1 v0) (sub v2 v0)).y
      ∧ norm (cross zero (sub v1 v0) (sub v2 v0)) * (p.z - v0.z)
        = dot (cross zero (sub v2 p) (sub v0 v2)) (cross zero (sub v1 v0) (sub v2 v0))
            * (v1.z - v0.z)
          + dot (cross zero (sub v0 p) (sub v1 v0)) (cross zero (sub v1 v0) (sub v2 v0))
            * (v2.z - v0.z)
          + dot (sub p v0) (cross zero (sub v1 v0) (sub v2 v0))
            * (cross zero (sub v1 v0) (sub v2 v0)).z := by
  obtain ⟨x0, y0, z0⟩ := v0
  obtain ⟨x1, y1, z1⟩ := v1
  obtain ⟨x2, y2, z2⟩ := v2
  obtain ⟨px, py, pz⟩ := p
  obtain ⟨a1, rfl⟩ : ∃ a1, x1 = x0 + a1 := ⟨x1 - x0, by ring⟩
  obtain ⟨a2, rfl⟩ : ∃ a2, y1 = y0 + a2 := ⟨y1 - y0, by ring⟩
  obtain ⟨a3, rfl⟩ : ∃ a3, z1 = z0 + a3 := ⟨z1 - z0, by ring⟩
  obtain ⟨b1, rfl⟩ : ∃ b1, x2 = x0 + b1 := ⟨x2 - x0, by ring⟩
  obtain ⟨b2, rfl⟩ : ∃ b2, y2 = y0 + b2 := ⟨y2 - y0, by ring⟩
  obtain ⟨b3, rfl⟩ : ∃ b3, z2 = z0 + b3 := ⟨z2 - z0, by ring⟩
  obtain ⟨w1, rfl⟩ : ∃ w1, px = x0 + w1 := ⟨px - x0, by ring⟩
  obtain ⟨w2, rfl⟩ : ∃ w2, py = y0 + w2 := ⟨py - y0, by ring⟩
  obtain ⟨w3, rfl⟩ : ∃ w3, pz = z0 + w3 := ⟨pz - z0, by ring⟩
  simp only [dot, cross, sub, norm]
  refine ⟨?_, ?_, ?_⟩ <;> ring

/-- The body of `intersectTri` with its locals `N`, `t` and `p` named. -/
theorem intersectTri_eq {α : Type} [LinearOrderedField α] (sqrt : α → α)
    (v0 v1 v2 org dir : Vector3 α) (u v dist : Option α) (N : Vector3 α) (t : α)
    (p : Vector3 α)
    (hN : N = normalize sqrt zero (cross zero (sub v1 v0) (sub v2 v0)))
    (ht : t = (-dot (sub org v0) N) / dot dir N)
    (hp : p = add org (scalarMul t dir)) :
    intersectTri sqrt v0 v1 v2 org dir u v dist
      = if dot (cross zero (sub v0 p) (sub v1 v0)) N ≥ 0
            ∧ dot (cross zero (sub v1 p) (sub v2 v1)) N ≥ 0
            ∧ dot (cross zero (sub v2 p) (sub v0 v2)) N ≥ 0 then
          (if u.isSome ∧ v.isSome then
            (true,
              some (sqrt (norm (sub v2 v0) * norm (sub v2 p)
                  - dot (sub v2 p) (sub v2 v0) * dot (sub v2 p) (sub v2 v0)) / 2
                / (sqrt (norm (sub v1 v0) * norm (sub v2 v0)
                  - dot (sub v1 v0) (sub v2 v0) * dot (sub v1 v0) (sub v2 v0)) / 2)),
              some (sqrt (norm (sub v1 v0) * norm (sub v1 p)
                  - dot (sub v1 p) (sub v1 v0) * dot (sub v1 p) (sub v1 v0)) / 2
                / (sqrt (norm (sub v1 v0) * norm (sub v2 v0)
                  - dot (sub v1 v0) (sub v2 v0) * dot (sub v1 v0) (sub v2 v0)) / 2)),
              dist.map (fun _ => t))
          else (true, u, v, dist.map (fun _ => t)))
        else (false, u, v, dist) := by
  subst hp
  subst ht
  subst hN
  rfl

/-- The point `org + t * dir` with `t = -dot( org - v0, N ) / dot( dir, N )` lies on the
plane through `v0` with normal `N`, as soon as `dot( dir, N )` is not `0`. -/
theorem hit_point_on_plane {α : Type} [Field α] (v0 org dir N : Vector3 α)
    (h : dot dir N ≠ 0) :
    dot (sub (add org (scalarMul ((-dot (sub org v0) N) / dot dir N) dir)) v0) N = 0 := by
  have e : dot (sub (add org (scalarMul ((-dot (sub org v0) N) / dot dir N) dir)) v0) N
      = dot (sub org v0) N + (-dot (sub org v0) N) / dot dir N * dot dir N := by
    simp only [dot, sub, add, scalarMul]
    ring
  rw [e, div_mul_cancel₀ _ h]
  ring

/-- Over the reals: for a non-degenerate triangle and a point `p` of its plane that
passes the three edge tests, the two area ratios computed by `intersectTri` are the
barycentric coordinates of `p`. -/
theorem barycentric_core (v0 v1 v2 p : Vector3 ℝ)
    (hnd : cross zero (sub v1 v0) (sub v2 v0) ≠ zero)
    (hp : dot (sub p v0)
      (normalize Real.sqrt zero (cross zero (sub v1 v0) (sub v2 v0))) = 0)
    (h0 : dot (cross zero (sub v0 p) (sub v1 v0))
      (normalize Real.sqrt zero (cross zero (sub v1 v0) (sub v2 v0))) ≥ 0)
    (h1 : dot (cross zero (sub v1 p) (sub v2 v1))
      (normalize Real.sqrt zero (cross zero (sub v1 v0) (sub v2 v0))) ≥ 0)
    (h2 : dot (cross zero (sub v2 p) (sub v0 v2))
      (normalize Real.sqrt zero (cross zero (sub v1 v0) (sub v2 v0))) ≥ 0)
    (u v : ℝ)
    (hu : u = Real.sqrt (norm (sub v2 v0) * norm (sub v2 p)
                  - dot (sub v2 p) (sub v2 v0) * dot (sub v2 p) (sub v2 v0)) / 2
                / (Real.sqrt (norm (sub v1 v0) * norm (sub v2 v0)
                  - dot (sub v1 v0) (sub v2 v0) * dot (sub v1 v0) (sub v2 v0)) / 2))
    (hv : v = Real.sqrt (norm (sub v1 v0) * norm (sub v1 p)
                  - dot (sub v1 p) (sub v1 v0) * dot (sub v1 p) (sub v1 v0)) / 2
                / (Real.sqrt (norm (sub v1 v0) * norm (sub v2 v0)
                  - dot (sub v1 v0) (sub v2 v0) * dot (sub v1 v0) (sub v2 v0)) / 2)) :
    p = add (add v0 (scalarMul u (sub v1 v0))) (scalarMul v (sub v2 v0))
      ∧ 0 ≤ u ∧ 0 ≤ v ∧ u + v ≤ 1 := by
  obtain ⟨hL, hN⟩ := normalize_of_ne_zero zero _ hnd
  have hD := norm_pos_of_ne_zero _ hnd
  obtain ⟨i1, i2, i3, i4⟩ := triangle_identities v0 v1 v2 p
  obtain ⟨j1, j2, j3⟩ := triangle_decomposition v0 v1 v2 p
  rw [hN, dot_divScalar] at hp h0 h1 h2
  rw [i3] at hu hv
  have hW : dot (sub p v0) (cross zero (sub v1 v0) (sub v2 v0)) = 0 :=
    (div_eq_zero_iff.mp hp).resolve_right hL.ne'
  have hB : 0 ≤ dot (cross zero (sub v0 p) (sub v1 v0)) (cross zero (sub v1 v0) (sub v2 v0)) := by
    have h := mul_nonneg h0 hL.le
    rwa [div_mul_cancel₀ _ hL.ne'] at h
  have hC : 0 ≤ dot (cross zero (sub v1 p) (sub v2 v1)) (cross zero (sub v1 v0) (sub v2 v0)) := by
    have h := mul_nonneg h1 hL.le
    rwa [div_mul_cancel₀ _ hL.ne'] at h
  have hA : 0 ≤ dot (cross zero (sub v2 p) (sub v0 v2)) (cross zero (sub v1 v0) (sub v2 v0)) := by
    have h := mul_nonneg h2 hL.le
    rwa [div_mul_cancel₀ _ hL.ne'] at h
  simp only [hW, mul_zero, zero_mul, add_zero] at i1 i2 j1 j2 j3
  rw [sqrt_of_mul_eq_mul_self hD hA i1] at hu
  rw [sqrt_of_mul_eq_mul_self hD hB i2] at hv
  generalize Real.sqrt (norm (cross zero (sub v1 v0) (sub v2 v0))) = L at hL hu hv
  generalize norm (cross zero (sub v1 v0) (sub v2 v0)) = D at hD i4 j1 j2 j3 hu hv
  generalize dot (cross zero (sub v2 p) (sub v0 v2)) (cross zero (sub v1 v0) (sub v2 v0)) = A
    at hA i4 j1 j2 j3 hu
  generalize dot (cross zero (sub v0 p) (sub v1 v0)) (cross zero (sub v1 v0) (sub v2 v0)) = B
    at hB i4 j1 j2 j3 hv
  generalize dot (cross zero (sub v1 p) (sub v2 v1)) (cross zero (sub v1 v0) (sub v2 v0)) = C
    at hC i4
  have hu1 : u = A / D := by
    rw [hu]
    field_simp
    ring
  have hv1 : v = B / D := by
    rw [hv]
    field_simp
    ring
  have ex : p.x = v0.x + (v1.x - v0.x) * u + (v2.x - v0.x) * v := by
    rw [hu1, hv1]
    field_simp
    linear_combination j1
  have ey : p.y = v0.y + (v1.y - v0.y) * u + (v2.y - v0.y) * v := by
    rw [hu1, hv1]
    field_simp
    linear_combination j2
  have ez : p.z = v0.z + (v1.z - v0.z) * u + (v2.z - v0.z) * v := by
    rw [hu1, hv1]
    field_simp
    linear_combination j3
  refine ⟨?_, ?_, ?_, ?_⟩
  · calc p = ⟨p.x, p.y, p.z⟩ := rfl
      _ = ⟨v0.x + (v1.x - v0.x) * u + (v2.x - v0.x) * v,
            v0.y + (v1.y - v0.y) * u + (v2.y - v0.y) * v,
            v0.z + (v1.z - v0.z) * u + (v2.z - v0.z) * v⟩ := by rw [ex, ey, ez]
      _ = add (add v0 (scalarMul u (sub v1 v0))) (scalarMul v (sub v2 v0)) := rfl
  · rw [hu1]
    exact div_nonneg hA hD.le
  · rw [hv1]
    exact div_nonneg hB hD.le
  · rw [hu1, hv1, ← add_div, div_le_one hD]
    linarith

/-- The real square root of `16` is `4`. -/
theorem sqrt_sixteen : Real.sqrt 16 = 4 := by
  rw [show (16 : ℝ) = 4 * 4 by norm_num]
  exact Real.sqrt_mul_self (by norm_num)

/-- The real square root of `64` is `8`. -/
theorem sqrt_sixty_four : Real.sqrt 64 = 8 := by
  rw [show (64 : ℝ) = 8 * 8 by norm_num]
  exact Real.sqrt_mul_self (by norm_num)

/-- The real square root of `256` is `16`. -/
theorem sqrt_two_hundred_fifty_six : Real.sqrt 256 = 16 := by
  rw [show (256 : ℝ) = 16 * 16 by norm_num]
  exact Real.sqrt_mul_self (by norm_num)

/-- The unit normal of the triangle `(0,0,0)`, `(4,0,0)`, `(0,4,0)` is `(0,0,1)`. -/
theorem sample_normal :
    normalize Real.sqrt zero
        (cross zero (sub (⟨4, 0, 0⟩ : Vector3 ℝ) ⟨0, 0, 0⟩) (sub ⟨0, 4, 0⟩ ⟨0, 0, 0⟩))
      = ⟨0, 0, 1⟩ := by
  have hl : length Real.sqrt
      (cross zero (sub (⟨4, 0, 0⟩ : Vector3 ℝ) ⟨0, 0, 0⟩) (sub ⟨0, 4, 0⟩ ⟨0, 0, 0⟩)) = 16 := by
    simp only [length, cross, sub]
    norm_num [sqrt_two_hundred_fifty_six]
  have hne : ¬ length Real.sqrt
      (cross zero (sub (⟨4, 0, 0⟩ : Vector3 ℝ) ⟨0, 0, 0⟩) (sub ⟨0, 4, 0⟩ ⟨0, 0, 0⟩)) = 0 := by
    rw [hl]
    norm_num
  simp only [normalize, if_neg hne, hl]
  simp only [divScalar, cross, sub]
  norm_num

/-- The ray from `(1,2,3)` along `(0,0,-1)` meets the triangle `(0,0,0)`, `(4,0,0)`,
`(0,4,0)` at distance `3`, with barycentric coordinates `1/4` and `1/2`. -/
theorem sample_intersectTri :
    intersectTri Real.sqrt ⟨0, 0, 0⟩ ⟨4, 0, 0⟩ ⟨0, 4, 0⟩ ⟨1, 2, 3⟩ ⟨0, 0, -1⟩
        (some 0) (some 0) (some 0)
      = (true, some (1 / 4), some (1 / 2), some 3) := by
  rw [intersectTri_eq Real.sqrt ⟨0, 0, 0⟩ ⟨4, 0, 0⟩ ⟨0, 4, 0⟩ ⟨1, 2, 3⟩ ⟨0, 0, -1⟩
    (some 0) (some 0) (some 0) ⟨0, 0, 1⟩ 3 ⟨1, 2, 0⟩ sample_normal.symm
    (by norm_num [dot, sub]) (by norm_num [add, scalarMul])]
  have hc : dot (cross zero (sub (⟨0, 0, 0⟩ : Vector3 ℝ) ⟨1, 2, 0⟩) (sub ⟨4, 0, 0⟩ ⟨0, 0, 0⟩))
        ⟨0, 0, 1⟩ ≥ 0
      ∧ dot (cross zero (sub (⟨4, 0, 0⟩ : Vector3 ℝ) ⟨1, 2, 0⟩) (sub ⟨0, 4, 0⟩ ⟨4, 0, 0⟩))
        ⟨0, 0, 1⟩ ≥ 0
      ∧ dot (cross zero (sub (⟨0, 4, 0⟩ : Vector3 ℝ) ⟨1, 2, 0⟩) (sub ⟨0, 0, 0⟩ ⟨0, 4, 0⟩))
        ⟨0, 0, 1⟩ ≥ 0 := by
    norm_num [dot, cross, sub]
  rw [if_pos hc, if_pos ⟨rfl, rfl⟩]
  simp only [dot, sub, norm, Option.map]
  norm_num [sqrt_sixteen, sqrt_sixty_four, sqrt_two_hundred_fifty_six]

/-- C16: when `dot( dir, N )` is not `0` (which makes the triangle non-degenerate) and
`intersectTri` returns `true` with `dist` requested, the written `dist` is
`-dot( org - v0, N ) / dot( dir, N )` and `org + dist * dir` lies on the plane of the
triangle: `dot( ( org + dist * dir ) - v0, N ) == 0`. -/
theorem intersectTri_dist_on_plane {α : Type} [LinearOrderedField α] (sqrt : α → α)
    (v0 v1 v2 org dir : Vector3 α) (u v : Option α) (d0 dist : α)
    (hpar : dot dir (normalize sqrt zero (cross zero (sub v1 v0) (sub v2 v0))) ≠ 0)
    (hret : (intersectTri sqrt v0 v1 v2 org dir u v (some d0)).1 = true)
    (hdist : (intersectTri sqrt v0 v1 v2 org dir u v (some d0)).2.2.2 = some dist) :
    dist = (-dot (sub org v0) (normalize sqrt zero (cross zero (sub v1 v0) (sub v2 v0))))
        / dot dir (normalize sqrt zero (cross zero (sub v1 v0) (sub v2 v0)))
      ∧ dot (sub (add org (scalarMul dist dir)) v0)
          (normalize sqrt zero (cross zero (sub v1 v0) (sub v2 v0))) = 0 := by
  have hdef := intersectTri_eq sqrt v0 v1 v2 org dir u v (some d0) _ _ _ rfl rfl rfl
  rw [hdef] at hret hdist
  have hd : dist = (-dot (sub org v0) (normalize sqrt zero (cross zero (sub v1 v0) (sub v2 v0))))
        / dot dir (normalize sqrt zero (cross zero (sub v1 v0) (sub v2 v0))) := by
    split_ifs at hret hdist
    · exact (Option.some.inj hdist).symm
    · exact (Option.some.inj hdist).symm
  refine ⟨hd, ?_⟩
  rw [hd]
  exact hit_point_on_plane v0 org dir _ hpar

/-- C16, at the triangle `(0,0,0)`, `(4,0,0)`, `(0,4,0)` and the ray from `(1,2,3)` along
`(0,0,-1)`, over the reals: the hit point `(1,2,0)` is on the plane `z = 0`. -/
theorem intersectTri_dist_on_plane_witness :
    dot (sub (add (⟨1, 2, 3⟩ : Vector3 ℝ) (scalarMul 3 ⟨0, 0, -1⟩)) ⟨0, 0, 0⟩)
        (normalize Real.sqrt zero
          (cross zero (sub (⟨4, 0, 0⟩ : Vector3 ℝ) ⟨0, 0, 0⟩) (sub ⟨0, 4, 0⟩ ⟨0, 0, 0⟩))) = 0 :=
  (intersectTri_dist_on_plane Real.sqrt ⟨0, 0, 0⟩ ⟨4, 0, 0⟩ ⟨0, 4, 0⟩ ⟨1, 2, 3⟩ ⟨0, 0, -1⟩
    (some 0) (some 0) 0 3
    (by rw [sample_normal]; norm_num [dot])
    (by rw [sample_intersectTri])
    (by rw [sample_intersectTri])).2

/-- C17: over the reals, for a non-degenerate triangle and a ray not parallel to its
plane, when `intersectTri` returns `true` with `u`, `v` and `dist` requested, the written
values satisfy `org + dist * dir == v0 + u * ( v1 - v0 ) + v * ( v2 - v0 )` with
`u >= 0`, `v >= 0` and `u + v <= 1`. -/
theorem intersectTri_barycentric (v0 v1 v2 org dir : Vector3 ℝ) (u0 w0 d0 u v dist : ℝ)
    (hnd : cross zero (sub v1 v0) (sub v2 v0) ≠ zero)
    (hpar : dot dir (normalize Real.sqrt zero (cross zero (sub v1 v0) (sub v2 v0))) ≠ 0)
    (hres : intersectTri Real.sqrt v0 v1 v2 org dir (some u0) (some w0) (some d0)
      = (true, some u, some v, some dist)) :
    add org (scalarMul dist dir)
        = add (add v0 (scalarMul u (sub v1 v0))) (scalarMul v (sub v2 v0))
      ∧ 0 ≤ u ∧ 0 ≤ v ∧ u + v ≤ 1 := by
  have hdef := intersectTri_eq Real.sqrt v0 v1 v2 org dir (some u0) (some w0) (some d0)
    _ _ _ rfl rfl rfl
  rw [hdef] at hres
  split_ifs at hres with hc huv
  · simp only [Option.map, Prod.mk.injEq, Option.some.injEq, true_and] at hres
    obtain ⟨hu, hv, hd⟩ := hres
    rw [← hd]
    exact barycentric_core v0 v1 v2 _ hnd (hit_point_on_plane v0 org dir _ hpar)
      hc.1 hc.2.1 hc.2.2 u v hu.symm hv.symm
  · exact absurd ⟨rfl, rfl⟩ huv
  · exact Bool.noConfusion (congrArg Prod.fst hres)

/-- C17, at the triangle `(0,0,0)`, `(4,0,0)`, `(0,4,0)` and the ray from `(1,2,3)` along
`(0,0,-1)`, over the reals: `u = 1/4`, `v = 1/2`, `dist = 3`. -/
theorem intersectTri_barycentric_witness :
    add (⟨1, 2, 3⟩ : Vector3 ℝ) (scalarMul 3 ⟨0, 0, -1⟩)
        = add (add ⟨0, 0, 0⟩ (scalarMul (1 / 4) (sub ⟨4, 0, 0⟩ ⟨0, 0, 0⟩)))
            (scalarMul (1 / 2) (sub ⟨0, 4, 0⟩ ⟨0, 0, 0⟩))
      ∧ (0 : ℝ) ≤ 1 / 4 ∧ (0 : ℝ) ≤ 1 / 2 ∧ (1 / 4 : ℝ) + 1 / 2 ≤ 1 :=
  intersectTri_barycentric ⟨0, 0, 0⟩ ⟨4, 0, 0⟩ ⟨0, 4, 0⟩ ⟨1, 2, 3⟩ ⟨0, 0, -1⟩ 0 0 0
    (1 / 4) (1 / 2) 3
    (by simp only [cross, sub, zero]; norm_num)
    (by rw [sample_normal]; norm_num [dot])
    sample_intersectTri

end Vector3

/-! Section: properties of `Quaternion` -/

namespace Quaternion

variable {α : Type}

theorem quat_mul_def [Add α] [Sub α] [Mul α] [Neg α] [Zero α] [One α] (a b : Quaternion α) :
    a * b = mul a b := rfl

/-- C21 as stated fails: for `q1 = i = (1,0,0,0)` and `q2 = j = (0,1,0,0)` the Hamilton
product `i * j = k` has `z = w1*z2 + z1*w2 + x1*y2 - y1*x2 = 1`, while `operator *` and
`operator *=` give `(0, 0, -1, 0)`. -/
theorem mul_i_j_ne_hamilton :
    (⟨1, 0, 0, 0⟩ : Quaternion ℚ) * ⟨0, 1, 0, 0⟩ = ⟨0, 0, -1, 0⟩
      ∧ mulAssign (⟨1, 0, 0, 0⟩ : Quaternion ℚ) ⟨0, 1, 0, 0⟩ = ⟨0, 0, -1, 0⟩
      ∧ ((⟨1, 0, 0, 0⟩ : Quaternion ℚ) * ⟨0, 1, 0, 0⟩).z
          ≠ (0 : ℚ) * 0 + 0 * 0 + 1 * 1 - 0 * 0
      ∧ toHamilton ((⟨1, 0, 0, 0⟩ : Quaternion ℚ) * ⟨0, 1, 0, 0⟩)
          ≠ toHamilton (⟨1, 0, 0, 0⟩ : Quaternion ℚ) * toHamilton ⟨0, 1, 0, 0⟩ := by
  refine ⟨?_, ?_, ?_, ?_⟩
  · simp [quat_mul_def, mul, new]
  · simp [mulAssign, new]
  · simp only [quat_mul_def, mul, new]
    norm_num
  · intro h
    have hk := congrArg QuaternionAlgebra.imK h
    simp [quat_mul_def, mul, new, toHamilton] at hk
    norm_num at hk

/-- C21, amended: `operator *` returns the Hamilton product taken in the reverse operand
order, that of `q2` by `q1`: the cross-product terms of the vector part carry a minus
sign; and `operator *=` leaves the same value in its left operand. -/
theorem mul_eq_reverse_hamilton [CommRing α] (q1 q2 : Quaternion α) :
    q1 * q2
        = ⟨q1.w * q2.x + q1.x * q2.w - (q1.y * q2.z - q1.z * q2.y),
           q1.w * q2.y + q1.y * q2.w - (q1.z * q2.x - q1.x * q2.z),
           q1.w * q2.z + q1.z * q2.w - (q1.x * q2.y - q1.y * q2.x),
           q1.w * q2.w - q1.x * q2.x - q1.y * q2.y - q1.z * q2.z⟩
      ∧ mulAssign q1 q2 = q1 * q2
      ∧ toHamilton (q1 * q2) = toHamilton q2 * toHamilton q1 := by
  refine ⟨?_, rfl, ?_⟩
  · simp only [quat_mul_def, mul, Quaternion.mk.injEq]
    refine ⟨?_, ?_, ?_, trivial⟩ <;> ring
  · ext
    · simp only [quat_mul_def, mul, toHamilton, QuaternionAlgebra.mul_re]
      ring
    · simp only [quat_mul_def, mul, toHamilton, QuaternionAlgebra.mul_imI]
      ring
    · simp only [quat_mul_def, mul, toHamilton, QuaternionAlgebra.mul_imJ]
      ring
    · simp only [quat_mul_def, mul, toHamilton, QuaternionAlgebra.mul_imK]
      ring

/-- Over the reals, the quaternion written by `normalize` has length `1`, in both
branches. -/
theorem length_normalize (out q : Quaternion ℝ) :
    length Real.sqrt (normalize Real.sqrt out q) = 1 := by
  by_cases h : length Real.sqrt q = 0
  · simp only [normalize, if_pos h]
    simp [length, new]
  · simp only [normalize, if_neg h, divScalar, mulScalar]
    have h1 := div_sqrt_mul_self h
    simp only [length] at h1 ⊢
    rw [show q.x * (1 / Real.sqrt (q.x * q.x + q.y * q.y + q.z * q.z + q.w * q.w))
            * (q.x * (1 / Real.sqrt (q.x * q.x + q.y * q.y + q.z * q.z + q.w * q.w)))
          + q.y * (1 / Real.sqrt (q.x * q.x + q.y * q.y + q.z * q.z + q.w * q.w))
            * (q.y * (1 / Real.sqrt (q.x * q.x + q.y * q.y + q.z * q.z + q.w * q.w)))
          + q.z * (1 / Real.sqrt (q.x * q.x + q.y * q.y + q.z * q.z + q.w * q.w))
            * (q.z * (1 / Real.sqrt (q.x * q.x + q.y * q.y + q.z * q.z + q.w * q.w)))
          + q.w * (1 / Real.sqrt (q.x * q.x + q.y * q.y + q.z * q.z + q.w * q.w))
            * (q.w * (1 / Real.sqrt (q.x * q.x + q.y * q.y + q.z * q.z + q.w * q.w)))
        = (q.x * q.x + q.y * q.y + q.z * q.z + q.w * q.w)
          / (Real.sqrt (q.x * q.x + q.y * q.y + q.z * q.z + q.w * q.w)
            * Real.sqrt (q.x * q.x + q.y * q.y + q.z * q.z + q.w * q.w)) by ring,
      h1, Real.sqrt_one]

/-- C22: over the reals, `normalize( out, q )` writes the identity quaternion
`(0,0,0,1)` when `length( q ) == 0`; otherwise it writes `q / length( q )`, each
component divided by the length, and the result has length `1`. -/
theorem normalize_identity_or_unit (out q : Quaternion ℝ) :
    (length Real.sqrt q = 0 → normalize Real.sqrt out q = ⟨0, 0, 0, 1⟩)
      ∧ (length Real.sqrt q ≠ 0 →
          normalize Real.sqrt out q = q.divScalar (length Real.sqrt q)
            ∧ normalize Real.sqrt out q
              = ⟨q.x / length Real.sqrt q, q.y / length Real.sqrt q,
                  q.z / length Real.sqrt q, q.w / length Real.sqrt q⟩
            ∧ length Real.sqrt (normalize Real.sqrt out q) = 1) := by
  constructor
  · intro h
    simp only [normalize, if_pos h]
    rfl
  · intro h
    have hn : ¬ length Real.sqrt q = 0 := h
    have he : normalize Real.sqrt out q = q.divScalar (length Real.sqrt q) := by
      simp only [normalize, if_neg hn]
    have hc : q.divScalar (length Real.sqrt q)
        = ⟨q.x / length Real.sqrt q, q.y / length Real.sqrt q,
            q.z / length Real.sqrt q, q.w / length Real.sqrt q⟩ := by
      simp only [divScalar, mulScalar, mul_one_div]
    exact ⟨he, he.trans hc, length_normalize out q⟩

/-- C22, at the zero quaternion (length `0`) and at `(1, 2, 2, 4)` (length `5`). -/
theorem normalize_identity_or_unit_witness :
    (length Real.sqrt (⟨0, 0, 0, 0⟩ : Quaternion ℝ) = 0
        ∧ normalize Real.sqrt ⟨5, 6, 7, 8⟩ (⟨0, 0, 0, 0⟩ : Quaternion ℝ) = ⟨0, 0, 0, 1⟩)
      ∧ (length Real.sqrt (⟨1, 2, 2, 4⟩ : Quaternion ℝ) ≠ 0
        ∧ length Real.sqrt (normalize Real.sqrt ⟨5, 6, 7, 8⟩ (⟨1, 2, 2, 4⟩ : Quaternion ℝ))
            = 1) :=
  have h0 : length Real.sqrt (⟨0, 0, 0, 0⟩ : Quaternion ℝ) = 0 := by simp [length]
  have h5 : length Real.sqrt (⟨1, 2, 2, 4⟩ : Quaternion ℝ) ≠ 0 := by
    norm_num [length, sqrt_twenty_five]
  ⟨⟨h0, (normalize_identity_or_unit ⟨5, 6, 7, 8⟩ ⟨0, 0, 0, 0⟩).1 h0⟩,
   ⟨h5, ((normalize_identity_or_unit ⟨5, 6, 7, 8⟩ ⟨1, 2, 2, 4⟩).2 h5).2.2⟩⟩

/-- C23: `inverse( out, q )` writes the identity quaternion `(0,0,0,1)` when
`length( q ) == 0`; otherwise it writes the conjugate `(-q.x, -q.y, -q.z, q.w)` divided
by `length( q )`, not by the squared length `norm( q )`. -/
theorem inverse_eq_conjugate_div_length [Field α] [DecidableEq α] (sqrt : α → α)
    (out q : Quaternion α) :
    (length sqrt q = 0 → inverse sqrt out q = ⟨0, 0, 0, 1⟩)
      ∧ (length sqrt q ≠ 0 →
          inverse sqrt out q = (conjugate out q).divScalar (length sqrt q)
            ∧ inverse sqrt out q
              = ⟨-q.x / length sqrt q, -q.y / length sqrt q, -q.z / length sqrt q,
                  q.w / length sqrt q⟩) := by
  constructor
  · intro h
    simp only [inverse, if_pos h]
    rfl
  · intro h
    have hn : ¬ length sqrt q = 0 := h
    constructor
    · simp only [inverse, if_neg hn]
      rfl
    · simp only [inverse, if_neg hn, conjugate, divAssignScalar, mulAssignScalar, mul_one_div]

/-- C23, at the zero quaternion and at `(1, 2, 2, 4)` of length `5` and norm `25`, over
the reals: the result is the conjugate over `5`. -/
theorem inverse_eq_conjugate_div_length_witness :
    (length Real.sqrt (⟨0, 0, 0, 0⟩ : Quaternion ℝ) = 0
        ∧ inverse Real.sqrt ⟨5, 6, 7, 8⟩ (⟨0, 0, 0, 0⟩ : Quaternion ℝ) = ⟨0, 0, 0, 1⟩)
      ∧ (length Real.sqrt (⟨1, 2, 2, 4⟩ : Quaternion ℝ) ≠ 0
        ∧ inverse Real.sqrt ⟨5, 6, 7, 8⟩ (⟨1, 2, 2, 4⟩ : Quaternion ℝ)
            = ⟨-1 / length Real.sqrt ⟨1, 2, 2, 4⟩, -2 / length Real.sqrt ⟨1, 2, 2, 4⟩,
                -2 / length Real.sqrt ⟨1, 2, 2, 4⟩, 4 / length Real.sqrt ⟨1, 2, 2, 4⟩⟩) :=
  have h0 : length Real.sqrt (⟨0, 0, 0, 0⟩ : Quaternion ℝ) = 0 := by simp [length]
  have h5 : length Real.sqrt (⟨1, 2, 2, 4⟩ : Quaternion ℝ) ≠ 0 := by
    norm_num [length, sqrt_twenty_five]
  ⟨⟨h0, (inverse_eq_conjugate_div_length Real.sqrt ⟨5, 6, 7, 8⟩ ⟨0, 0, 0, 0⟩).1 h0⟩,
   ⟨h5, ((inverse_eq_conjugate_div_length Real.sqrt ⟨5, 6, 7, 8⟩ ⟨1, 2, 2, 4⟩).2 h5).2⟩⟩

/-- C24: the identity quaternion `(0,0,0,1)` is the default-constructed quaternion and
the value written by `Quaternion::identity`, and `toMatrix` sends it to the matrix
written by `Matrix4::identity`, whatever the output matrices held. -/
theorem toMatrix_identity [Ring α] (m m2 : Matrix4 α) (q : Quaternion α) :
    (new : Quaternion α) = ⟨0, 0, 0, 1⟩
      ∧ identity q = ⟨0, 0, 0, 1⟩
      ∧ toMatrix m ⟨0, 0, 0, 1⟩ = Matrix4.identity m2
      ∧ toMatrix m new = Matrix4.identity m2
      ∧ toMatrix m (identity q) = Matrix4.identity m2 := by
  have h : toMatrix m (⟨0, 0, 0, 1⟩ : Quaternion α) = Matrix4.identity m2 := by
    simp [toMatrix, Matrix4.identity]
  exact ⟨rfl, rfl, h, h, h⟩

/-- A row vector along `a` is fixed by the matrix of any quaternion whose vector part
is a multiple of `a`. -/
theorem transform_toMatrix_parallel [Field α] [DecidableEq α] (m0 : Matrix4 α)
    (out a : Vector3 α) (k g w : α) :
    Vector3.transform out (Vector3.scalarMul k a)
        (toMatrix m0 ⟨a.x * g, a.y * g, a.z * g, w⟩) = Vector3.scalarMul k a := by
  have hw : ¬ (a.x * k * 0 + a.y * k * 0 + a.z * k * 0 + (1 : α) = 0) := by
    simp
  simp only [Vector3.transform, toMatrix, Vector3.scalarMul, if_neg hw, Vector3.zero,
    Vector3.mk.injEq]
  refine ⟨?_, ?_, ?_⟩ <;> (simp only [mul_zero, zero_add, div_one]; ring)

/-- C25: for every axis `a`, angle `rad` and scalar `k`, with `q = rotationAxis( a, rad )`
and `M = toMatrix( q )`, `Vector3::transform( out, k * a, M )` writes `k * a`. -/
theorem rotationAxis_fixes_axis [Field α] [DecidableEq α] (sin cos sqrt : α → α)
    (q0 : Quaternion α) (m0 : Matrix4 α) (out a : Vector3 α) (rad k : α) :
    Vector3.transform out (Vector3.scalarMul k a)
        (toMatrix m0 (rotationAxis sin cos sqrt q0 a rad)) = Vector3.scalarMul k a := by
  by_cases h : length sqrt
      (⟨a.x * sin (rad / 2), a.y * sin (rad / 2), a.z * sin (rad / 2), cos (rad / 2)⟩ :
        Quaternion α) = 0
  · have hq : rotationAxis sin cos sqrt q0 a rad = ⟨a.x * 0, a.y * 0, a.z * 0, 1⟩ := by
      simp only [rotationAxis, normalize, if_pos h, new, mul_zero]
    rw [hq]
    exact transform_toMatrix_parallel m0 out a k 0 1
  · have hq : rotationAxis sin cos sqrt q0 a rad
        = ⟨a.x * (sin (rad / 2) * (1 / length sqrt
              (⟨a.x * sin (rad / 2), a.y * sin (rad / 2), a.z * sin (rad / 2),
                cos (rad / 2)⟩ : Quaternion α))),
           a.y * (sin (rad / 2) * (1 / length sqrt
              (⟨a.x * sin (rad / 2), a.y * sin (rad / 2), a.z * sin (rad / 2),
                cos (rad / 2)⟩ : Quaternion α))),
           a.z * (sin (rad / 2) * (1 / length sqrt
              (⟨a.x * sin (rad / 2), a.y * sin (rad / 2), a.z * sin (rad / 2),
                cos (rad / 2)⟩ : Quaternion α))),
           cos (rad / 2) * (1 / length sqrt
              (⟨a.x * sin (rad / 2), a.y * sin (rad / 2), a.z * sin (rad / 2),
                cos (rad / 2)⟩ : Quaternion α))⟩ := by
      simp only [rotationAxis, normalize, if_neg h, divScalar, mulScalar, mul_assoc]
    rw [hq]
    exact transform_toMatrix_parallel m0 out a k _ _

/-- C26: over the reals, `rotationAxis` always writes a quaternion of length `1`; when
the axis has length `1` it writes exactly
`(axis.x*sin(rad/2), axis.y*sin(rad/2), axis.z*sin(rad/2), cos(rad/2))`. -/
theorem rotationAxis_length_one (q0 : Quaternion ℝ) (axis : Vector3 ℝ) (rad : ℝ) :
    length Real.sqrt (rotationAxis Real.sin Real.cos Real.sqrt q0 axis rad) = 1
      ∧ (Vector3.length Real.sqrt axis = 1 →
          rotationAxis Real.sin Real.cos Real.sqrt q0 axis rad
            = ⟨axis.x * Real.sin (rad / 2), axis.y * Real.sin (rad / 2),
                axis.z * Real.sin (rad / 2), Real.cos (rad / 2)⟩) := by
  constructor
  · simp only [rotationAxis]
    exact length_normalize _ _
  · intro h
    have hn : axis.x * axis.x + axis.y * axis.y + axis.z * axis.z = 1 :=
      Real.sqrt_eq_one.mp h
    have hl : length Real.sqrt
        (⟨axis.x * Real.sin (rad / 2), axis.y * Real.sin (rad / 2),
          axis.z * Real.sin (rad / 2), Real.cos (rad / 2)⟩ : Quaternion ℝ) = 1 := by
      simp only [length]
      rw [show axis.x * Real.sin (rad / 2) * (axis.x * Real.sin (rad / 2))
            + axis.y * Real.sin (rad / 2) * (axis.y * Real.sin (rad / 2))
            + axis.z * Real.sin (rad / 2) * (axis.z * Real.sin (rad / 2))
            + Real.cos (rad / 2) * Real.cos (rad / 2)
          = (axis.x * axis.x + axis.y * axis.y + axis.z * axis.z)
              * Real.sin (rad / 2) ^ 2 + Real.cos (rad / 2) ^ 2 by ring,
        hn, one_mul, Real.sin_sq_add_cos_sq, Real.sqrt_one]
    simp only [rotationAxis, normalize, hl, divScalar, mulScalar, div_one, mul_one]
    rw [if_neg one_ne_zero]

/-- C26, at the axis `(1, 0, 0)` of length `1` and the angle `0`. -/
theorem rotationAxis_length_one_witness :
    Vector3.length Real.sqrt (⟨1, 0, 0⟩ : Vector3 ℝ) = 1
      ∧ rotationAxis Real.sin Real.cos Real.sqrt ⟨5, 6, 7, 8⟩ ⟨1, 0, 0⟩ 0
          = ⟨1 * Real.sin (0 / 2), 0 * Real.sin (0 / 2), 0 * Real.sin (0 / 2),
              Real.cos (0 / 2)⟩ :=
  have h : Vector3.length Real.sqrt (⟨1, 0, 0⟩ : Vector3 ℝ) = 1 := by
    simp [Vector3.length]
  ⟨h, (rotationAxis_length_one ⟨5, 6, 7, 8⟩ ⟨1, 0, 0⟩ 0).2 h⟩

/-- The real arc cosine of `1 / 2` is `π / 3`. -/
theorem arccos_one_half : Real.arccos (1 / 2) = Real.pi / 3 := by
  rw [← Real.cos_pi_div_three]
  exact Real.arccos_cos (by positivity) (by linarith [Real.pi_pos])

/-- C27 as stated fails: the quaternion `q1 = (1/2, 1/2, 0, 0)` has
`dot( q1, q1 ) = 1/2`, so `1 - dot^2 = 3/4` is not `0` and `slerp( q, q1, q1, 0.5 )` takes
the interpolation branch, whose result has `x = (1/2) / sqrt(3/4)`, not `1/2`. -/
theorem slerp_self_ne_self :
    slerp Real.arccos Real.sin Real.sqrt ⟨5, 6, 7, 8⟩ (⟨1 / 2, 1 / 2, 0, 0⟩ : Quaternion ℝ)
        ⟨1 / 2, 1 / 2, 0, 0⟩ (1 / 2)
      ≠ ⟨1 / 2, 1 / 2, 0, 0⟩ := by
  intro h
  have hb : ¬ (1 - ((1 / 2 : ℝ) * (1 / 2) + 1 / 2 * (1 / 2) + 0 * 0 + 0 * 0)
      * ((1 / 2 : ℝ) * (1 / 2) + 1 / 2 * (1 / 2) + 0 * 0 + 0 * 0) = 0) := by
    norm_num
  have hx := congrArg Quaternion.x h
  simp only [slerp, if_neg hb, add, mulScalar] at hx
  have ha : (1 / 2 : ℝ) * (1 / 2) + 1 / 2 * (1 / 2) + 0 * 0 + 0 * 0 = 1 / 2 := by norm_num
  rw [ha, arccos_one_half] at hx
  have e1 : Real.pi / 3 - Real.pi / 3 * (1 / 2) = Real.pi / 6 := by ring
  have e2 : Real.pi / 3 * (1 / 2) = Real.pi / 6 := by ring
  rw [e1, e2, Real.sin_pi_div_six] at hx
  have hs : 0 < Real.sqrt (1 - 1 / 2 * (1 / 2)) := Real.sqrt_pos.mpr (by norm_num)
  obtain ⟨s, hsdef⟩ : ∃ s, s = Real.sqrt (1 - 1 / 2 * (1 / 2)) := ⟨_, rfl⟩
  rw [← hsdef] at hx hs
  have hs1 : s = 1 := by
    field_simp at hx
    linarith
  have h34 := Real.sqrt_eq_one.mp (hsdef.symm.trans hs1)
  norm_num at h34

/-- C27, amended: when `1 - dot( q1, q2 )^2 == 0`, `slerp` writes `q1` unchanged; in
particular, for a quaternion `q1` of norm `1`, `slerp( q, q1, q1, 0.5 )` is `q1`. -/
theorem slerp_parallel [Field α] [DecidableEq α] (acos sin sqrt : α → α)
    (q q1 q2 : Quaternion α) (t : α) :
    (1 - (q1.x * q2.x + q1.y * q2.y + q1.z * q2.z + q1.w * q2.w)
          * (q1.x * q2.x + q1.y * q2.y + q1.z * q2.z + q1.w * q2.w) = 0 →
        slerp acos sin sqrt q q1 q2 t = q1)
      ∧ (norm q1 = 1 → slerp acos sin sqrt q q1 q1 (1 / 2) = q1) := by
  constructor
  · intro h
    simp only [slerp, if_pos h]
  · intro h
    have hb : 1 - (q1.x * q1.x + q1.y * q1.y + q1.z * q1.z + q1.w * q1.w)
        * (q1.x * q1.x + q1.y * q1.y + q1.z * q1.z + q1.w * q1.w) = 0 := by
      simp only [norm] at h
      rw [h]
      ring
    simp only [slerp, if_pos hb]

/-- C27, amended, at `q1 = q2 = (0, 0, 0, 1)` of norm `1`, over the reals. -/
theorem slerp_parallel_witness :
    norm (⟨0, 0, 0, 1⟩ : Quaternion ℝ) = 1
      ∧ slerp Real.arccos Real.sin Real.sqrt ⟨5, 6, 7, 8⟩ (⟨0, 0, 0, 1⟩ : Quaternion ℝ)
          ⟨0, 0, 0, 1⟩ (1 / 2) = ⟨0, 0, 0, 1⟩ :=
  have h : norm (⟨0, 0, 0, 1⟩ : Quaternion ℝ) = 1 := by norm_num [norm]
  ⟨h, (slerp_parallel Real.arccos Real.sin Real.sqrt ⟨5, 6, 7, 8⟩ ⟨0, 0, 0, 1⟩ ⟨0, 0, 0, 1⟩
    (1 / 2)).2 h⟩

/-- C28: over the reals, when `|dot( q1, q2 )| < 1`, `slerp` gives `q1` at `t = 0` and
`q2` at `t = 1`, and in general
`q1 * ( sin((1-t)*theta) / sin(theta) ) + q2 * ( sin(t*theta) / sin(theta) )` with
`theta = acos( dot( q1, q2 ) )`. -/
theorem slerp_endpoints (q q1 q2 : Quaternion ℝ) (t : ℝ)
    (h : |q1.x * q2.x + q1.y * q2.y + q1.z * q2.z + q1.w * q2.w| < 1) :
    slerp Real.arccos Real.sin Real.sqrt q q1 q2 0 = q1
      ∧ slerp Real.arccos Real.sin Real.sqrt q q1 q2 1 = q2
      ∧ slerp Real.arccos Real.sin Real.sqrt q q1 q2 t
        = add
            (q1.mulScalar
              (Real.sin ((1 - t)
                  * Real.arccos (q1.x * q2.x + q1.y * q2.y + q1.z * q2.z + q1.w * q2.w))
                / Real.sin
                    (Real.arccos (q1.x * q2.x + q1.y * q2.y + q1.z * q2.z + q1.w * q2.w))))
            (q2.mulScalar
              (Real.sin (t
                  * Real.arccos (q1.x * q2.x + q1.y * q2.y + q1.z * q2.z + q1.w * q2.w))
                / Real.sin
                    (Real.arccos
                      (q1.x * q2.x + q1.y * q2.y + q1.z * q2.z + q1.w * q2.w)))) := by
  have hdef : ∀ s : ℝ, slerp Real.arccos Real.sin Real.sqrt q q1 q2 s
      = if 1 - (q1.x * q2.x + q1.y * q2.y + q1.z * q2.z + q1.w * q2.w)
            * (q1.x * q2.x + q1.y * q2.y + q1.z * q2.z + q1.w * q2.w) = 0 then q1
        else add
          (q1.mulScalar
            (Real.sin
                (Real.arccos (q1.x * q2.x + q1.y * q2.y + q1.z * q2.z + q1.w * q2.w)
                  - Real.arccos (q1.x * q2.x + q1.y * q2.y + q1.z * q2.z + q1.w * q2.w) * s)
              / Real.sqrt (1 - (q1.x * q2.x + q1.y * q2.y + q1.z * q2.z + q1.w * q2.w)
                  * (q1.x * q2.x + q1.y * q2.y + q1.z * q2.z + q1.w * q2.w))))
          (q2.mulScalar
            (Real.sin
                (Real.arccos (q1.x * q2.x + q1.y * q2.y + q1.z * q2.z + q1.w * q2.w) * s)
              / Real.sqrt (1 - (q1.x * q2.x + q1.y * q2.y + q1.z * q2.z + q1.w * q2.w)
                  * (q1.x * q2.x + q1.y * q2.y + q1.z * q2.z + q1.w * q2.w)))) := by
    intro s
    rfl
  simp only [hdef]
  generalize q1.x * q2.x + q1.y * q2.y + q1.z * q2.z + q1.w * q2.w = a at h
  obtain ⟨hlo, hhi⟩ := abs_lt.mp h
  have hb : 0 < 1 - a * a := by nlinarith
  have hsq : Real.sqrt (1 - a * a) = Real.sin (Real.arccos a) := by
    rw [Real.sin_arccos, pow_two]
  have hsin : 0 < Real.sin (Real.arccos a) := by
    rw [← hsq]
    exact Real.sqrt_pos.mpr hb
  simp only [if_neg hb.ne', hsq]
  refine ⟨?_, ?_, ?_⟩
  · rw [mul_zero, sub_zero, Real.sin_zero, zero_div, div_self hsin.ne']
    simp only [add, mulScalar, mul_one, mul_zero, add_zero]
  · rw [mul_one, sub_self, Real.sin_zero, zero_div, div_self hsin.ne']
    simp only [add, mulScalar, mul_one, mul_zero, zero_add]
  · rw [show (1 - t) * Real.arccos a = Real.arccos a - Real.arccos a * t by ring,
      show t * Real.arccos a = Real.arccos a * t by ring]

/-- C28, at the orthogonal pair `q1 = (1, 0, 0, 0)`, `q2 = (0, 1, 0, 0)`, whose dot
product is `0`. -/
theorem slerp_endpoints_witness :
    |(1 : ℝ) * 0 + 0 * 1 + 0 * 0 + 0 * 0| < 1
      ∧ slerp Real.arccos Real.sin Real.sqrt ⟨5, 6, 7, 8⟩ (⟨1, 0, 0, 0⟩ : Quaternion ℝ)
          ⟨0, 1, 0, 0⟩ 0 = ⟨1, 0, 0, 0⟩
      ∧ slerp Real.arccos Real.sin Real.sqrt ⟨5, 6, 7, 8⟩ (⟨1, 0, 0, 0⟩ : Quaternion ℝ)
          ⟨0, 1, 0, 0⟩ 1 = ⟨0, 1, 0, 0⟩ :=
  have h : |(1 : ℝ) * 0 + 0 * 1 + 0 * 0 + 0 * 0| < 1 := by norm_num
  ⟨h, (slerp_endpoints ⟨5, 6, 7, 8⟩ ⟨1, 0, 0, 0⟩ ⟨0, 1, 0, 0⟩ 0 h).1,
    (slerp_endpoints ⟨5, 6, 7, 8⟩ ⟨1, 0, 0, 0⟩ ⟨0, 1, 0, 0⟩ 0 h).2.1⟩

end Quaternion

/-! Section: further properties of `Matrix4` -/

namespace Matrix4

variable {α : Type}

/-- C29 as stated fails: with `in` the all-zero matrix (determinant `0`) and `out`
holding the identity matrix, `inverse( out, in )` returns the identity matrix, which is
not the argument `in`. -/
theorem inverse_singular_ne_input :
    determinant (zero : Matrix4 ℚ) = 0
      ∧ (inverse (identity zero) (zero : Matrix4 ℚ) none).1 = identity zero
      ∧ (inverse (identity zero) (zero : Matrix4 ℚ) none).1 ≠ zero := by
  have hd : determinant (zero : Matrix4 ℚ) = 0 := by norm_num [determinant, zero]
  have hr : (inverse (identity zero) (zero : Matrix4 ℚ) none).1 = identity zero := by
    simp only [inverse, if_pos hd]
  refine ⟨hd, hr, ?_⟩
  rw [hr]
  intro h
  have h11 := congrArg Matrix4._11 h
  simp [identity, zero] at h11

/-- C29, amended: when the input matrix is singular, `inverse` returns the output
argument `out` with its prior value, which is the input matrix only when the call
passes the same matrix as `out` and `in`; the optional `det`, when supplied, receives
`0`, and nothing else is written. -/
theorem inverse_singular_returns_out
    [Add α] [Sub α] [Mul α] [Div α] [Zero α] [One α] [DecidableEq α]
    (out M : Matrix4 α) (det : Option α) (h : determinant M = 0) :
    (inverse out M det).1 = out
      ∧ (inverse M M det).1 = M
      ∧ (inverse out M det).2 = det.map (fun _ => 0) := by
  have hr : ∀ o : Matrix4 α, inverse o M det = (o, det.map (fun _ => 0)) := by
    intro o
    simp [inverse, h]
  rw [hr out, hr M]
  exact ⟨rfl, rfl, rfl⟩

/-- C29, amended, at the singular matrix whose rows are all `(1, 2, 3, 4)`. -/
theorem inverse_singular_returns_out_witness :
    determinant (⟨1, 2, 3, 4, 1, 2, 3, 4, 1, 2, 3, 4, 1, 2, 3, 4⟩ : Matrix4 ℚ) = 0
      ∧ (inverse (identity zero)
            (⟨1, 2, 3, 4, 1, 2, 3, 4, 1, 2, 3, 4, 1, 2, 3, 4⟩ : Matrix4 ℚ) (some 9)).1
          = identity zero
      ∧ (inverse (identity zero)
            (⟨1, 2, 3, 4, 1, 2, 3, 4, 1, 2, 3, 4, 1, 2, 3, 4⟩ : Matrix4 ℚ) (some 9)).2
          = some 0 :=
  have h : determinant (⟨1, 2, 3, 4, 1, 2, 3, 4, 1, 2, 3, 4, 1, 2, 3, 4⟩ : Matrix4 ℚ) = 0 := by
    norm_num [determinant]
  ⟨h, (inverse_singular_returns_out (identity zero) _ (some 9) h).1,
    (inverse_singular_returns_out (identity zero) _ (some 9) h).2.2⟩

/-- C30: `translation( m, x, y, z )` writes the identity matrix with `_41, _42, _43` set
to `x, y, z`, and `Vector3::transform` by it sends `v` to `v + (x, y, z)`. -/
theorem translation_transform [Field α] [DecidableEq α] (m m2 : Matrix4 α)
    (out v : Vector3 α) (x y z : α) :
    translation m x y z = { identity m2 with _41 := x, _42 := y, _43 := z }
      ∧ translation m x y z = ⟨1, 0, 0, 0, 0, 1, 0, 0, 0, 0, 1, 0, x, y, z, 1⟩
      ∧ translationVector m ⟨x, y, z⟩ = translation m x y z
      ∧ Vector3.transform out v (translation m x y z) = Vector3.add v ⟨x, y, z⟩ := by
  refine ⟨rfl, rfl, rfl, ?_⟩
  have hw : ¬ (v.x * 0 + v.y * 0 + v.z * 0 + (1 : α) = 0) := by simp
  simp only [Vector3.transform, translation, if_neg hw, Vector3.add, Vector3.zero,
    Vector3.mk.injEq]
  refine ⟨?_, ?_, ?_⟩ <;> (simp only [mul_zero, zero_add, div_one]; ring)

end Matrix4

/-! Section: properties of `Color` and of the `Plane` scalar operators -/

/-- C34 fails on the code at `c = (1, 1, 1, 1)`, `s = 2`: `c * s` and `c *= s` give
`(2, 2, 2, 2)`, while the free operator of `s * c` leaves the alpha component unscaled
and gives `(2, 2, 2, 1)`. -/
theorem color_scalarMul_alpha_unscaled :
    Color.mulScalar (⟨1, 1, 1, 1⟩ : Color ℚ) 2 = ⟨2, 2, 2, 2⟩
      ∧ Color.mulAssignScalar (⟨1, 1, 1, 1⟩ : Color ℚ) 2 = ⟨2, 2, 2, 2⟩
      ∧ Color.scalarMul 2 (⟨1, 1, 1, 1⟩ : Color ℚ) = ⟨2, 2, 2, 1⟩
      ∧ Color.scalarMul 2 (⟨1, 1, 1, 1⟩ : Color ℚ) ≠ Color.mulScalar ⟨1, 1, 1, 1⟩ 2 := by
  refine ⟨?_, ?_, ?_, ?_⟩
  · norm_num [Color.mulScalar]
  · norm_num [Color.mulAssignScalar]
  · norm_num [Color.scalarMul]
  · norm_num [Color.scalarMul, Color.mulScalar]

/-- C39 fails on the code at `p = (1, 2, 3, 4)`, `s = 5`: `s * p` and `p *= s` give
`(5, 10, 15, 20)`, while the member operator of `p * s` returns
`(a*s, a*b, a*c, a*d) = (5, 2, 3, 4)`. -/
theorem plane_mulScalar_wrong_components :
    Plane.scalarMul 5 (⟨1, 2, 3, 4⟩ : Plane ℚ) = ⟨5, 10, 15, 20⟩
      ∧ Plane.mulAssignScalar (⟨1, 2, 3, 4⟩ : Plane ℚ) 5 = ⟨5, 10, 15, 20⟩
      ∧ Plane.mulScalar (⟨1, 2, 3, 4⟩ : Plane ℚ) 5 = ⟨5, 2, 3, 4⟩
      ∧ Plane.mulScalar (⟨1, 2, 3, 4⟩ : Plane ℚ) 5 ≠ Plane.scalarMul 5 ⟨1, 2, 3, 4⟩ := by
  refine ⟨?_, ?_, ?_, ?_⟩
  · norm_num [Plane.scalarMul]
  · norm_num [Plane.mulAssignScalar]
  · norm_num [Plane.mulScalar]
  · norm_num [Plane.scalarMul, Plane.mulScalar]

/-! Section: properties of the matrices built by `Matrix4` -/

namespace Vector3

variable {α : Type}

/-- The three quotients written by `transform` when `w` is not `0`. -/
theorem transform_of_ne_zero [Field α] [DecidableEq α] (out v0 : Vector3 α) (m : Matrix4 α)
    (hw : v0.x * m._14 + v0.y * m._24 + v0.z * m._34 + m._44 ≠ 0) :
    transform out v0 m
      = ⟨(v0.x * m._11 + v0.y * m._21 + v0.z * m._31 + m._41)
            / (v0.x * m._14 + v0.y * m._24 + v0.z * m._34 + m._44),
         (v0.x * m._12 + v0.y * m._22 + v0.z * m._32 + m._42)
            / (v0.x * m._14 + v0.y * m._24 + v0.z * m._34 + m._44),
         (v0.x * m._13 + v0.y * m._23 + v0.z * m._33 + m._43)
            / (v0.x * m._14 + v0.y * m._24 + v0.z * m._34 + m._44)⟩ := by
  have hne : ¬ v0.x * m._14 + v0.y * m._24 + v0.z * m._34 + m._44 = 0 := hw
  simp only [transform, if_neg hne]

/-- The vector written by `transform` for a matrix whose fourth column is `(0,0,0,1)`. -/
theorem transform_affine [Field α] [DecidableEq α] (out v0 : Vector3 α) (m : Matrix4 α)
    (h1 : m._14 = 0) (h2 : m._24 = 0) (h3 : m._34 = 0) (h4 : m._44 = 1) :
    transform out v0 m
      = ⟨v0.x * m._11 + v0.y * m._21 + v0.z * m._31 + m._41,
         v0.x * m._12 + v0.y * m._22 + v0.z * m._32 + m._42,
         v0.x * m._13 + v0.y * m._23 + v0.z * m._33 + m._43⟩ := by
  have hw : v0.x * m._14 + v0.y * m._24 + v0.z * m._34 + m._44 = 1 := by
    rw [h1, h2, h3, h4]
    ring
  rw [transform_of_ne_zero out v0 m (by rw [hw]; exact one_ne_zero), hw]
  simp only [div_one]

end Vector3

namespace Matrix4

variable {α : Type}

/-- C32: for `zn != zf`, `zn != 0`, `zf != 0`, `transform` by `perspectiveLH` and by
`orthoLH` sends `(0,0,zn)` to `(0,0,0)` and `(0,0,zf)` to `(0,0,1)`; by `perspectiveRH`
and by `orthoRH` it sends `(0,0,-zn)` to `(0,0,0)` and `(0,0,-zf)` to `(0,0,1)`. -/
theorem projection_depth_range [Field α] [DecidableEq α] (tan : α → α) (m : Matrix4 α)
    (out : Vector3 α) (fovy aspect w h zn zf : α)
    (hne : zn ≠ zf) (hn : zn ≠ 0) (hf : zf ≠ 0) :
    (Vector3.transform out ⟨0, 0, zn⟩ (perspectiveLH tan m fovy aspect zn zf) = ⟨0, 0, 0⟩
        ∧ Vector3.transform out ⟨0, 0, zf⟩ (perspectiveLH tan m fovy aspect zn zf) = ⟨0, 0, 1⟩)
      ∧ (Vector3.transform out ⟨0, 0, zn⟩ (orthoLH m w h zn zf) = ⟨0, 0, 0⟩
        ∧ Vector3.transform out ⟨0, 0, zf⟩ (orthoLH m w h zn zf) = ⟨0, 0, 1⟩)
      ∧ (Vector3.transform out ⟨0, 0, -zn⟩ (perspectiveRH tan m fovy aspect zn zf)
            = ⟨0, 0, 0⟩
        ∧ Vector3.transform out ⟨0, 0, -zf⟩ (perspectiveRH tan m fovy aspect zn zf)
            = ⟨0, 0, 1⟩)
      ∧ (Vector3.transform out ⟨0, 0, -zn⟩ (orthoRH m w h zn zf) = ⟨0, 0, 0⟩
        ∧ Vector3.transform out ⟨0, 0, -zf⟩ (orthoRH m w h zn zf) = ⟨0, 0, 1⟩) := by
  have h1 : zf - zn ≠ 0 := sub_ne_zero.mpr (Ne.symm hne)
  have h2 : zn - zf ≠ 0 := sub_ne_zero.mpr hne
  refine ⟨⟨?_, ?_⟩, ⟨?_, ?_⟩, ⟨?_, ?_⟩, ⟨?_, ?_⟩⟩
  · rw [Vector3.transform_of_ne_zero _ _ _ (by simpa [perspectiveLH] using hn)]
    simp only [perspectiveLH, Vector3.mk.injEq]
    refine ⟨?_, ?_, ?_⟩ <;> (field_simp; try ring)
  · rw [Vector3.transform_of_ne_zero _ _ _ (by simpa [perspectiveLH] using hf)]
    simp only [perspectiveLH, Vector3.mk.injEq]
    refine ⟨?_, ?_, ?_⟩ <;> (field_simp; try ring)
  · rw [Vector3.transform_affine _ _ _ rfl rfl rfl rfl]
    simp only [orthoLH, Vector3.mk.injEq]
    refine ⟨?_, ?_, ?_⟩ <;> (field_simp; try ring)
  · rw [Vector3.transform_affine _ _ _ rfl rfl rfl rfl]
    simp only [orthoLH, Vector3.mk.injEq]
    refine ⟨?_, ?_, ?_⟩ <;> (field_simp; try ring)
  · rw [Vector3.transform_of_ne_zero _ _ _ (by simpa [perspectiveRH] using hn)]
    simp only [perspectiveRH, Vector3.mk.injEq]
    refine ⟨?_, ?_, ?_⟩ <;> (field_simp; try ring)
  · rw [Vector3.transform_of_ne_zero _ _ _ (by simpa [perspectiveRH] using hf)]
    simp only [perspectiveRH, Vector3.mk.injEq]
    refine ⟨?_, ?_, ?_⟩ <;> (field_simp; try ring)
  · rw [Vector3.transform_affine _ _ _ rfl rfl rfl rfl]
    simp only [orthoRH, Vector3.mk.injEq]
    refine ⟨?_, ?_, ?_⟩ <;> (field_simp; try ring)
  · rw [Vector3.transform_affine _ _ _ rfl rfl rfl rfl]
    simp only [orthoRH, Vector3.mk.injEq]
    refine ⟨?_, ?_, ?_⟩ <;> (field_simp; try ring)

/-- C32, at `zn = 1`, `zf = 3` over the rationals, for `orthoLH` with `w = h = 2`. -/
theorem projection_depth_range_witness :
    ((1 : ℚ) ≠ 3 ∧ (1 : ℚ) ≠ 0 ∧ (3 : ℚ) ≠ 0)
      ∧ Vector3.transform (⟨7, 8, 9⟩ : Vector3 ℚ) ⟨0, 0, 1⟩ (orthoLH zero 2 2 1 3) = ⟨0, 0, 0⟩
      ∧ Vector3.transform (⟨7, 8, 9⟩ : Vector3 ℚ) ⟨0, 0, 3⟩ (orthoLH zero 2 2 1 3)
          = ⟨0, 0, 1⟩ :=
  ⟨⟨by norm_num, by norm_num, by norm_num⟩,
   (projection_depth_range (fun x => x) zero (⟨7, 8, 9⟩ : Vector3 ℚ) 1 1 2 2 1 3
      (by norm_num) (by norm_num) (by norm_num)).2.1⟩

/-- C33: `transform` by `screen( W, H )` sends `(x, y, z)` to
`(W/2 * (x + 1), H/2 * (1 - y), z)`: `(-1, 1)` goes to the pixel `(0, 0)` and `(1, -1)` to
the pixel `(W, H)`. -/
theorem screen_transform [LinearOrderedField α] (m : Matrix4 α) (out : Vector3 α)
    (W H x y z : α) :
    Vector3.transform out ⟨x, y, z⟩ (screen m W H) = ⟨W / 2 * (x + 1), H / 2 * (1 - y), z⟩
      ∧ Vector3.transform out ⟨-1, 1, z⟩ (screen m W H) = ⟨0, 0, z⟩
      ∧ Vector3.transform out ⟨1, -1, z⟩ (screen m W H) = ⟨W, H, z⟩ := by
  refine ⟨?_, ?_, ?_⟩
  · rw [Vector3.transform_affine _ _ _ rfl rfl rfl rfl]
    simp only [screen, Vector3.mk.injEq]
    refine ⟨?_, ?_, ?_⟩ <;> ring
  · rw [Vector3.transform_affine _ _ _ rfl rfl rfl rfl]
    simp only [screen, Vector3.mk.injEq]
    refine ⟨?_, ?_, ?_⟩ <;> ring
  · rw [Vector3.transform_affine _ _ _ rfl rfl rfl rfl]
    simp only [screen, Vector3.mk.injEq]
    refine ⟨?_, ?_, ?_⟩ <;> ring

end Matrix4

/-! Section: properties of `transformNormal` and of the view matrices -/

namespace Vector3

variable {α : Type}

/-- The value written by `transformNormal` for a matrix with `_14 = _24 = _34 = 0`: none,
`out` is returned as it was. -/
theorem transformNormal_of_zero_column [Field α] [DecidableEq α] (out v0 : Vector3 α)
    (m : Matrix4 α) (h1 : m._14 = 0) (h2 : m._24 = 0) (h3 : m._34 = 0) :
    transformNormal out v0 m = out := by
  have hw : v0.x * m._14 + v0.y * m._24 + v0.z * m._34 = 0 := by
    rw [h1, h2, h3]
    ring
  simp only [transformNormal, if_pos hw]

/-- C36: for every matrix whose entries `_14`, `_24` and `_34` are `0`, `transformNormal`
leaves `out` at its prior value; this is the case of every matrix built by `identity`,
`translation`, `rotationX/Y/Z`, `rotationQuaternion`, `scaling`, `viewLH/RH`,
`orthoLH/RH` and `screen`. -/
theorem transformNormal_never_writes [Field α] [DecidableEq α] (sin cos sqrt : α → α)
    (out v0 : Vector3 α) (m m0 : Matrix4 α) (q : Quaternion α) (e l u : Vector3 α)
    (x y z rad w h zn zf : α) :
    (m._14 = 0 → m._24 = 0 → m._34 = 0 → transformNormal out v0 m = out)
      ∧ transformNormal out v0 (Matrix4.identity m0) = out
      ∧ transformNormal out v0 (Matrix4.translation m0 x y z) = out
      ∧ transformNormal out v0 (Matrix4.rotationX sin cos m0 rad) = out
      ∧ transformNormal out v0 (Matrix4.rotationY sin cos m0 rad) = out
      ∧ transformNormal out v0 (Matrix4.rotationZ sin cos m0 rad) = out
      ∧ transformNormal out v0 (Matrix4.rotationQuaternion m0 q) = out
      ∧ transformNormal out v0 (Matrix4.scaling m0 x y z) = out
      ∧ transformNormal out v0 (Matrix4.viewLH sqrt m0 e l u) = out
      ∧ transformNormal out v0 (Matrix4.viewRH sqrt m0 e l u) = out
      ∧ transformNormal out v0 (Matrix4.orthoLH m0 w h zn zf) = out
      ∧ transformNormal out v0 (Matrix4.orthoRH m0 w h zn zf) = out
      ∧ transformNormal out v0 (Matrix4.screen m0 w h) = out :=
  ⟨transformNormal_of_zero_column out v0 m,
   transformNormal_of_zero_column out v0 _ rfl rfl rfl,
   transformNormal_of_zero_column out v0 _ rfl rfl rfl,
   transformNormal_of_zero_column out v0 _ rfl rfl rfl,
   transformNormal_of_zero_column out v0 _ rfl rfl rfl,
   transformNormal_of_zero_column out v0 _ rfl rfl rfl,
   transformNormal_of_zero_column out v0 _ rfl rfl rfl,
   transformNormal_of_zero_column out v0 _ rfl rfl rfl,
   transformNormal_of_zero_column out v0 _ rfl rfl rfl,
   transformNormal_of_zero_column out v0 _ rfl rfl rfl,
   transformNormal_of_zero_column out v0 _ rfl rfl rfl,
   transformNormal_of_zero_column out v0 _ rfl rfl rfl,
   transformNormal_of_zero_column out v0 _ rfl rfl rfl⟩

/-- C36, at the rotation-like matrix with rows `(0,1,0,0)`, `(-1,0,0,0)`, `(0,0,1,0)`,
`(0,0,0,1)` over the rationals. -/
theorem transformNormal_never_writes_witness :
    transformNormal (⟨7, 8, 9⟩ : Vector3 ℚ) ⟨1, 2, 3⟩
        ⟨0, 1, 0, 0, -1, 0, 0, 0, 0, 0, 1, 0, 0, 0, 0, 1⟩ = ⟨7, 8, 9⟩ :=
  (transformNormal_never_writes (fun x => x) (fun x => x) (fun x => x)
    (⟨7, 8, 9⟩ : Vector3 ℚ) ⟨1, 2, 3⟩ ⟨0, 1, 0, 0, -1, 0, 0, 0, 0, 0, 1, 0, 0, 0, 0, 1⟩
    Matrix4.zero ⟨0, 0, 0, 1⟩ ⟨0, 0, 0⟩ ⟨0, 0, 1⟩ ⟨0, 1, 0⟩ 0 0 0 0 1 1 1 2).1 rfl rfl rfl

/-- The vector written by `normalize` is its input scaled by some factor. -/
theorem normalize_eq_scaled [Field α] [DecidableEq α] (sqrt : α → α) (out c : Vector3 α) :
    ∃ k : α, normalize sqrt out c = ⟨c.x * k, c.y * k, c.z * k⟩ := by
  by_cases h : length sqrt c = 0
  · refine ⟨0, ?_⟩
    simp only [normalize, if_pos h, zero, mul_zero]
  · refine ⟨(length sqrt c)⁻¹, ?_⟩
    simp only [normalize, if_neg h, divScalar, div_eq_mul_inv]

/-- A view matrix: the rows hold the components of three axes, the fourth row the
negated dot products with the eye position. Its `transform` expresses `v - e` in the
three axes. -/
theorem transform_view_matrix [Field α] [DecidableEq α] (out v e ax ay az : Vector3 α) :
    transform out v
        ⟨ax.x, ay.x, az.x, 0,
         ax.y, ay.y, az.y, 0,
         ax.z, ay.z, az.z, 0,
         -dot ax e, -dot ay e, -dot az e, 1⟩
      = ⟨dot (sub v e) ax, dot (sub v e) ay, dot (sub v e) az⟩ := by
  rw [transform_affine _ _ _ rfl rfl rfl rfl]
  simp only [dot, sub, Vector3.mk.injEq]
  refine ⟨?_, ?_, ?_⟩ <;> ring

/-- Over the reals, the dot product of a vector with its `normalize` is its length. -/
theorem dot_normalize_self (out d : Vector3 ℝ) :
    dot d (normalize Real.sqrt out d) = length Real.sqrt d := by
  by_cases h : length Real.sqrt d = 0
  · have hN : normalize Real.sqrt out d = zero := by
      simp only [normalize]
      exact if_pos h
    rw [hN, h]
    simp only [dot, zero]
    ring
  · have hn : 0 ≤ d.x * d.x + d.y * d.y + d.z * d.z :=
      add_nonneg (add_nonneg (mul_self_nonneg _) (mul_self_nonneg _)) (mul_self_nonneg _)
    have hs := Real.mul_self_sqrt hn
    simp only [normalize, if_neg h, dot, divScalar]
    simp only [length] at h ⊢
    field_simp

end Vector3

namespace Matrix4

/-- C31: over the reals, `transform` by `viewLH` sends `eyePos` to `(0,0,0)` and `lookAt`
to `(0, 0, distance( eyePos, lookAt ))`; by `viewRH` it sends `eyePos` to `(0,0,0)` and
`lookAt` to `(0, 0, -distance( eyePos, lookAt ))`. -/
theorem view_eye_and_lookAt (m : Matrix4 ℝ) (out eyePos lookAt up : Vector3 ℝ) :
    Vector3.transform out eyePos (viewLH Real.sqrt m eyePos lookAt up) = ⟨0, 0, 0⟩
      ∧ Vector3.transform out lookAt (viewLH Real.sqrt m eyePos lookAt up)
          = ⟨0, 0, Vector3.distance Real.sqrt eyePos lookAt⟩
      ∧ Vector3.transform out eyePos (viewRH Real.sqrt m eyePos lookAt up) = ⟨0, 0, 0⟩
      ∧ Vector3.transform out lookAt (viewRH Real.sqrt m eyePos lookAt up)
          = ⟨0, 0, -Vector3.distance Real.sqrt eyePos lookAt⟩ := by
  have hself : ∀ a : Vector3 ℝ, Vector3.dot (Vector3.sub eyePos eyePos) a = 0 := by
    intro a
    simp only [Vector3.dot, Vector3.sub]
    ring
  have hdist : Vector3.length Real.sqrt (Vector3.sub lookAt eyePos)
      = Vector3.distance Real.sqrt eyePos lookAt := by
    simp only [Vector3.distance, Vector3.length, Vector3.sub]
    congr 1
    ring
  have hneg : ∀ a : Vector3 ℝ, Vector3.dot (Vector3.sub lookAt eyePos) a
      = -Vector3.dot (Vector3.sub eyePos lookAt) a := by
    intro a
    simp only [Vector3.dot, Vector3.sub]
    ring
  -- left-handed
  obtain ⟨k, hk⟩ := Vector3.normalize_eq_scaled Real.sqrt
    (Vector3.sub lookAt eyePos) (Vector3.sub lookAt eyePos)
  obtain ⟨j, hj⟩ := Vector3.normalize_eq_scaled Real.sqrt
    (Vector3.cross Vector3.zero up
      (Vector3.normalize Real.sqrt (Vector3.sub lookAt eyePos) (Vector3.sub lookAt eyePos)))
    (Vector3.cross Vector3.zero up
      (Vector3.normalize Real.sqrt (Vector3.sub lookAt eyePos) (Vector3.sub lookAt eyePos)))
  have hL : ∀ v : Vector3 ℝ, Vector3.transform out v (viewLH Real.sqrt m eyePos lookAt up)
      = ⟨Vector3.dot (Vector3.sub v eyePos)
            (Vector3.normalize Real.sqrt
              (Vector3.cross Vector3.zero up (Vector3.normalize Real.sqrt
                (Vector3.sub lookAt eyePos) (Vector3.sub lookAt eyePos)))
              (Vector3.cross Vector3.zero up (Vector3.normalize Real.sqrt
                (Vector3.sub lookAt eyePos) (Vector3.sub lookAt eyePos)))),
          Vector3.dot (Vector3.sub v eyePos)
            (Vector3.cross Vector3.zero
              (Vector3.normalize Real.sqrt
                (Vector3.sub lookAt eyePos) (Vector3.sub lookAt eyePos))
              (Vector3.normalize Real.sqrt
                (Vector3.cross Vector3.zero up (Vector3.normalize Real.sqrt
                  (Vector3.sub lookAt eyePos) (Vector3.sub lookAt eyePos)))
                (Vector3.cross Vector3.zero up (Vector3.normalize Real.sqrt
                  (Vector3.sub lookAt eyePos) (Vector3.sub lookAt eyePos))))),
          Vector3.dot (Vector3.sub v eyePos)
            (Vector3.normalize Real.sqrt
              (Vector3.sub lookAt eyePos) (Vector3.sub lookAt eyePos))⟩ :=
    fun v => Vector3.transform_view_matrix out v eyePos _ _ _
  -- right-handed
  obtain ⟨k2, hk2⟩ := Vector3.normalize_eq_scaled Real.sqrt
    (Vector3.sub eyePos lookAt) (Vector3.sub eyePos lookAt)
  obtain ⟨j2, hj2⟩ := Vector3.normalize_eq_scaled Real.sqrt
    (Vector3.cross Vector3.zero up
      (Vector3.normalize Real.sqrt (Vector3.sub eyePos lookAt) (Vector3.sub eyePos lookAt)))
    (Vector3.cross Vector3.zero up
      (Vector3.normalize Real.sqrt (Vector3.sub eyePos lookAt) (Vector3.sub eyePos lookAt)))
  have hR : ∀ v : Vector3 ℝ, Vector3.transform out v (viewRH Real.sqrt m eyePos lookAt up)
      = ⟨Vector3.dot (Vector3.sub v eyePos)
            (Vector3.normalize Real.sqrt
              (Vector3.cross Vector3.zero up (Vector3.normalize Real.sqrt
                (Vector3.sub eyePos lookAt) (Vector3.sub eyePos lookAt)))
              (Vector3.cross Vector3.zero up (Vector3.normalize Real.sqrt
                (Vector3.sub eyePos lookAt) (Vector3.sub eyePos lookAt)))),
          Vector3.dot (Vector3.sub v eyePos)
            (Vector3.cross Vector3.zero
              (Vector3.normalize Real.sqrt
                (Vector3.sub eyePos lookAt) (Vector3.sub eyePos lookAt))
              (Vector3.normalize Real.sqrt
                (Vector3.cross Vector3.zero up (Vector3.normalize Real.sqrt
                  (Vector3.sub eyePos lookAt) (Vector3.sub eyePos lookAt)))
                (Vector3.cross Vector3.zero up (Vector3.normalize Real.sqrt
                  (Vector3.sub eyePos lookAt) (Vector3.sub eyePos lookAt))))),
          Vector3.dot (Vector3.sub v eyePos)
            (Vector3.normalize Real.sqrt
              (Vector3.sub eyePos lookAt) (Vector3.sub eyePos lookAt))⟩ :=
    fun v => Vector3.transform_view_matrix out v eyePos _ _ _
  refine ⟨?_, ?_, ?_, ?_⟩
  · rw [hL, hself, hself, hself]
  · rw [hL, Vector3.dot_normalize_self, hdist, Vector3.mk.injEq]
    refine ⟨?_, ?_, rfl⟩
    · rw [hj, hk]
      simp only [Vector3.dot, Vector3.sub, Vector3.cross]
      ring
    · rw [hk]
      simp only [Vector3.dot, Vector3.sub, Vector3.cross]
      ring
  · rw [hR, hself, hself, hself]
  · rw [hR, hneg, hneg, hneg, Vector3.dot_normalize_self, Vector3.mk.injEq]
    refine ⟨?_, ?_, rfl⟩
    · rw [hj2, hk2]
      simp only [Vector3.dot, Vector3.sub, Vector3.cross]
      ring
    · rw [hk2]
      simp only [Vector3.dot, Vector3.sub, Vector3.cross]
      ring

end Matrix4

/-! Section: further properties of `Quaternion` -/

namespace Quaternion

variable {α : Type}

/-- The norm of a product is the product of the norms. -/
theorem quat_norm_mul [CommRing α] (q1 q2 : Quaternion α) :
    norm (q1 * q2) = norm q1 * norm q2 := by
  simp only [quat_mul_def, mul, norm, new]
  ring

/-- On a quaternion of norm `1`, `toMatrix` writes the homogeneous matrix. -/
theorem toMatrix_eq_homogeneous [CommRing α] (m : Matrix4 α) (q : Quaternion α)
    (h : norm q = 1) : toMatrix m q = homogeneousMatrix q := by
  simp only [toMatrix, homogeneousMatrix, h]

/-- The homogeneous matrix of a product is the product of the homogeneous matrices, in
the same order. -/
theorem homogeneous_mul [CommRing α] (q1 q2 : Quaternion α) :
    homogeneousMatrix (q1 * q2) = homogeneousMatrix q1 * homogeneousMatrix q2 := by
  simp only [quat_mul_def, mul, new, Matrix4.mul_def, Matrix4.mul, homogeneousMatrix, norm,
    Matrix4.mk.injEq]
  refine ⟨?_, ?_, ?_, ?_, ?_, ?_, ?_, ?_, ?_, ?_, ?_, ?_, ?_, ?_, ?_, ?_⟩ <;> ring

/-- On quaternions of norm `1`, `toMatrix` of a product is the product of the
matrices. -/
theorem toMatrix_mul_of_norm_one [CommRing α] (m m1 m2 : Matrix4 α) (q1 q2 : Quaternion α)
    (h1 : norm q1 = 1) (h2 : norm q2 = 1) :
    toMatrix m (q1 * q2) = toMatrix m1 q1 * toMatrix m2 q2 := by
  have h12 : norm (q1 * q2) = 1 := by rw [quat_norm_mul, h1, h2, mul_one]
  rw [toMatrix_eq_homogeneous m _ h12, toMatrix_eq_homogeneous m1 _ h1,
    toMatrix_eq_homogeneous m2 _ h2, homogeneous_mul]

/-- C37: for quaternions `q1`, `q2` of norm `1`,
`toMatrix( q1 * q2 ) == toMatrix( q1 ) * toMatrix( q2 )`, with the quaternion `operator *`
on the left and the matrix `operator *` on the right, whatever the prior values of the
three destination matrices. -/
theorem toMatrix_mul [CommRing α] (m m1 m2 : Matrix4 α) (q1 q2 : Quaternion α)
    (h1 : norm q1 = 1) (h2 : norm q2 = 1) :
    toMatrix m (q1 * q2) = toMatrix m1 q1 * toMatrix m2 q2 :=
  toMatrix_mul_of_norm_one m m1 m2 q1 q2 h1 h2

/-- C37, at `q1 = (1, 0, 0, 0)` and `q2 = (0, 1, 0, 0)`. -/
theorem toMatrix_mul_witness :
    norm (⟨1, 0, 0, 0⟩ : Quaternion ℚ) = 1 ∧ norm (⟨0, 1, 0, 0⟩ : Quaternion ℚ) = 1
      ∧ toMatrix Matrix4.zero ((⟨1, 0, 0, 0⟩ : Quaternion ℚ) * ⟨0, 1, 0, 0⟩)
          = toMatrix Matrix4.zero (⟨1, 0, 0, 0⟩ : Quaternion ℚ)
              * toMatrix Matrix4.zero (⟨0, 1, 0, 0⟩ : Quaternion ℚ) :=
  ⟨by norm_num [norm], by norm_num [norm],
    toMatrix_mul Matrix4.zero Matrix4.zero Matrix4.zero ⟨1, 0, 0, 0⟩ ⟨0, 1, 0, 0⟩
      (by norm_num [norm]) (by norm_num [norm])⟩

/-- Over the reals, the quaternion written by `rotationAxis` for an axis whose squared
length is `1`. -/
theorem rotationAxis_of_unit (q0 : Quaternion ℝ) (axis : Vector3 ℝ) (rad : ℝ)
    (hn : axis.x * axis.x + axis.y * axis.y + axis.z * axis.z = 1) :
    rotationAxis Real.sin Real.cos Real.sqrt q0 axis rad
      = ⟨axis.x * Real.sin (rad / 2), axis.y * Real.sin (rad / 2),
          axis.z * Real.sin (rad / 2), Real.cos (rad / 2)⟩ := by
  have hl : length Real.sqrt
      (⟨axis.x * Real.sin (rad / 2), axis.y * Real.sin (rad / 2),
        axis.z * Real.sin (rad / 2), Real.cos (rad / 2)⟩ : Quaternion ℝ) = 1 := by
    simp only [length]
    rw [show axis.x * Real.sin (rad / 2) * (axis.x * Real.sin (rad / 2))
          + axis.y * Real.sin (rad / 2) * (axis.y * Real.sin (rad / 2))
          + axis.z * Real.sin (rad / 2) * (axis.z * Real.sin (rad / 2))
          + Real.cos (rad / 2) * Real.cos (rad / 2)
        = (axis.x * axis.x + axis.y * axis.y + axis.z * axis.z)
            * Real.sin (rad / 2) ^ 2 + Real.cos (rad / 2) ^ 2 by ring,
      hn, one_mul, Real.sin_sq_add_cos_sq, Real.sqrt_one]
  simp only [rotationAxis, normalize, hl, divScalar, mulScalar, div_one, mul_one]
  rw [if_neg one_ne_zero]

/-- The norm of the half-angle quaternion about an axis of squared length `1` is `1`. -/
theorem norm_half_angle (axis : Vector3 ℝ) (rad : ℝ)
    (hn : axis.x * axis.x + axis.y * axis.y + axis.z * axis.z = 1) :
    norm (⟨axis.x * Real.sin (rad / 2), axis.y * Real.sin (rad / 2),
        axis.z * Real.sin (rad / 2), Real.cos (rad / 2)⟩ : Quaternion ℝ) = 1 := by
  simp only [norm]
  have h := Real.sin_sq_add_cos_sq (rad / 2)
  linear_combination (Real.sin (rad / 2) ^ 2) * hn + h

/-- The double-angle formulas at `rad / 2`. -/
theorem double_angle (rad : ℝ) :
    Real.sin rad = 2 * Real.sin (rad / 2) * Real.cos (rad / 2)
      ∧ Real.cos rad = 1 - 2 * (Real.sin (rad / 2) * Real.sin (rad / 2)) := by
  have h2 : rad = 2 * (rad / 2) := by ring
  constructor
  · rw [← Real.sin_two_mul, ← h2]
  · have h := Real.cos_two_mul (rad / 2)
    rw [← h2] at h
    have hs := Real.sin_sq_add_cos_sq (rad / 2)
    linear_combination h + 2 * hs

/-- Over the reals, `toMatrix` of the half-angle quaternion about the `x` axis is
`rotationX`. -/
theorem toMatrix_half_angle_x (m m0 : Matrix4 ℝ) (rad : ℝ) :
    toMatrix m ⟨1 * Real.sin (rad / 2), 0 * Real.sin (rad / 2), 0 * Real.sin (rad / 2),
        Real.cos (rad / 2)⟩
      = Matrix4.rotationX Real.sin Real.cos m0 rad := by
  obtain ⟨hs, hc⟩ := double_angle rad
  simp only [toMatrix, Matrix4.rotationX, Matrix4.mk.injEq, hs, hc]
  refine ⟨?_, ?_, ?_, ?_, ?_, ?_, ?_, ?_, ?_, ?_, ?_, ?_, ?_, ?_, ?_, ?_⟩ <;>
    first | trivial | ring

/-- Over the reals, `toMatrix` of the half-angle quaternion about the `y` axis is
`rotationY`. -/
theorem toMatrix_half_angle_y (m m0 : Matrix4 ℝ) (rad : ℝ) :
    toMatrix m ⟨0 * Real.sin (rad / 2), 1 * Real.sin (rad / 2), 0 * Real.sin (rad / 2),
        Real.cos (rad / 2)⟩
      = Matrix4.rotationY Real.sin Real.cos m0 rad := by
  obtain ⟨hs, hc⟩ := double_angle rad
  simp only [toMatrix, Matrix4.rotationY, Matrix4.mk.injEq, hs, hc]
  refine ⟨?_, ?_, ?_, ?_, ?_, ?_, ?_, ?_, ?_, ?_, ?_, ?_, ?_, ?_, ?_, ?_⟩ <;>
    first | trivial | ring

/-- Over the reals, `toMatrix` of the half-angle quaternion about the `z` axis is
`rotationZ`. -/
theorem toMatrix_half_angle_z (m m0 : Matrix4 ℝ) (rad : ℝ) :
    toMatrix m ⟨0 * Real.sin (rad / 2), 0 * Real.sin (rad / 2), 1 * Real.sin (rad / 2),
        Real.cos (rad / 2)⟩
      = Matrix4.rotationZ Real.sin Real.cos m0 rad := by
  obtain ⟨hs, hc⟩ := double_angle rad
  simp only [toMatrix, Matrix4.rotationZ, Matrix4.mk.injEq, hs, hc]
  refine ⟨?_, ?_, ?_, ?_, ?_, ?_, ?_, ?_, ?_, ?_, ?_, ?_, ?_, ?_, ?_, ?_⟩ <;>
    first | trivial | ring

/-- C38: over the reals, with the real `sin`, `cos` and `sqrt`,
`toMatrix( rotation( yaw, pitch, roll ) ) == rotationYawPitchRoll( yaw, pitch, roll )`,
and the latter is `rotationZ( roll ) * rotationX( pitch ) * rotationY( yaw )`, whatever the
prior values of the destinations. -/
theorem toMatrix_rotation_eq_rotationYawPitchRoll (m m0 m1 m2 m3 : Matrix4 ℝ)
    (q : Quaternion ℝ) (yaw pitch roll : ℝ) :
    toMatrix m (rotation Real.sin Real.cos Real.sqrt q yaw pitch roll)
        = Matrix4.rotationYawPitchRoll Real.sin Real.cos m0 yaw pitch roll
      ∧ Matrix4.rotationYawPitchRoll Real.sin Real.cos m0 yaw pitch roll
        = Matrix4.rotationZ Real.sin Real.cos m1 roll
            * Matrix4.rotationX Real.sin Real.cos m2 pitch
            * Matrix4.rotationY Real.sin Real.cos m3 yaw := by
  refine ⟨?_, rfl⟩
  have hx : (1 : ℝ) * 1 + 0 * 0 + 0 * 0 = 1 := by norm_num
  have hy : (0 : ℝ) * 0 + 1 * 1 + 0 * 0 = 1 := by norm_num
  have hz : (0 : ℝ) * 0 + 0 * 0 + 1 * 1 = 1 := by norm_num
  have hp := rotationAxis_of_unit new ⟨1, 0, 0⟩ pitch hx
  have hyw := rotationAxis_of_unit new ⟨0, 1, 0⟩ yaw hy
  have hr := rotationAxis_of_unit new ⟨0, 0, 1⟩ roll hz
  have np := norm_half_angle ⟨1, 0, 0⟩ pitch hx
  have ny := norm_half_angle ⟨0, 1, 0⟩ yaw hy
  have nr := norm_half_angle ⟨0, 0, 1⟩ roll hz
  simp only [rotation, Matrix4.rotationYawPitchRoll]
  rw [hp, hyw, hr]
  rw [toMatrix_mul_of_norm_one m m m _ _ (by rw [quat_norm_mul, nr, np, mul_one]) ny,
    toMatrix_mul_of_norm_one m m m _ _ nr np,
    toMatrix_half_angle_x m Matrix4.zero, toMatrix_half_angle_y m Matrix4.zero,
    toMatrix_half_angle_z m Matrix4.zero]

/-- C40: over the reals, for `length( q ) != 0` both `q * inverse( q )` and
`inverse( q ) * q` are `(0, 0, 0, length( q ))`, so the product is the identity
quaternion `(0, 0, 0, 1)` exactly when `length( q ) == 1`. -/
theorem mul_inverse_eq_length (out q : Quaternion ℝ) (h : length Real.sqrt q ≠ 0) :
    q * inverse Real.sqrt out q = ⟨0, 0, 0, length Real.sqrt q⟩
      ∧ inverse Real.sqrt out q * q = ⟨0, 0, 0, length Real.sqrt q⟩
      ∧ (q * inverse Real.sqrt out q = new ↔ length Real.sqrt q = 1)
      ∧ (inverse Real.sqrt out q * q = new ↔ length Real.sqrt q = 1) := by
  have hn : 0 ≤ q.x * q.x + q.y * q.y + q.z * q.z + q.w * q.w :=
    add_nonneg (add_nonneg (add_nonneg (mul_self_nonneg _) (mul_self_nonneg _))
      (mul_self_nonneg _)) (mul_self_nonneg _)
  have hs := Real.mul_self_sqrt hn
  have hne : ¬ length Real.sqrt q = 0 := h
  have hinv : inverse Real.sqrt out q
      = ⟨-q.x * (1 / length Real.sqrt q), -q.y * (1 / length Real.sqrt q),
          -q.z * (1 / length Real.sqrt q), q.w * (1 / length Real.sqrt q)⟩ := by
    simp only [inverse, if_neg hne, conjugate, divAssignScalar, mulAssignScalar]
  have hw : (q.x * q.x + q.y * q.y + q.z * q.z + q.w * q.w) * (1 / length Real.sqrt q)
      = length Real.sqrt q := by
    simp only [length] at h ⊢
    field_simp
  have h1 : q * inverse Real.sqrt out q = ⟨0, 0, 0, length Real.sqrt q⟩ := by
    rw [hinv]
    simp only [quat_mul_def, mul, new, Quaternion.mk.injEq]
    refine ⟨by ring, by ring, by ring, ?_⟩
    linear_combination hw
  have h2 : inverse Real.sqrt out q * q = ⟨0, 0, 0, length Real.sqrt q⟩ := by
    rw [hinv]
    simp only [quat_mul_def, mul, new, Quaternion.mk.injEq]
    refine ⟨by ring, by ring, by ring, ?_⟩
    linear_combination hw
  refine ⟨h1, h2, ?_, ?_⟩
  · rw [h1]
    simp only [new, Quaternion.mk.injEq, true_and]
  · rw [h2]
    simp only [new, Quaternion.mk.injEq, true_and]

/-- C40, at `q = (1, 2, 2, 4)`, of length `5`. -/
theorem mul_inverse_eq_length_witness :
    length Real.sqrt (⟨1, 2, 2, 4⟩ : Quaternion ℝ) ≠ 0
      ∧ (⟨1, 2, 2, 4⟩ : Quaternion ℝ) * inverse Real.sqrt ⟨5, 6, 7, 8⟩ ⟨1, 2, 2, 4⟩
          = ⟨0, 0, 0, length Real.sqrt (⟨1, 2, 2, 4⟩ : Quaternion ℝ)⟩ :=
  have h : length Real.sqrt (⟨1, 2, 2, 4⟩ : Quaternion ℝ) ≠ 0 := by
    have h5 : length Real.sqrt (⟨1, 2, 2, 4⟩ : Quaternion ℝ) = 5 := by
      simp only [length]
      rw [show (1 : ℝ) * 1 + 2 * 2 + 2 * 2 + 4 * 4 = 25 by norm_num, sqrt_twenty_five]
    rw [h5]
    norm_num
  ⟨h, (mul_inverse_eq_length ⟨5, 6, 7, 8⟩ ⟨1, 2, 2, 4⟩ h).1⟩

end Quaternion

/-! Section: destinations that are also sources -/

section Aliasing

variable {α : Type}

/-- A loop that rewrites the object at one address step by step is a single write of
the loop run on that object. -/
theorem foldl_update_same {β γ : Type} (F : β → γ → β) (o : ℕ) (l : List γ)
    (mem : ℕ → β) :
    List.foldl (fun mem x => Function.update mem o (F (mem o) x)) mem l
      = Function.update mem o (List.foldl F (mem o) l) := by
  induction l generalizing mem with
  | nil => simp only [List.foldl_nil, Function.update_eq_self]
  | cons x xs ih =>
    simp only [List.foldl_cons]
    rw [ih]
    simp only [Function.update_same, Function.update_idem]

/-- The store form of `Vector2::normalize` writes at `v` the value of `normalize`. -/
theorem vector2_normalizeRef_apply [Add α] [Mul α] [Div α] [Zero α] [DecidableEq α]
    (sqrt : α → α) (mem : ℕ → Vector2 α) (v v0 : ℕ) :
    Vector2.normalizeRef sqrt mem v v0 v = Vector2.normalize sqrt (mem v) (mem v0) := by
  simp only [Vector2.normalizeRef, Vector2.normalize]
  split_ifs <;> simp only [Function.update_same]

/-- The store form of `Vector3::normalize` writes at `v` the value of `normalize`. -/
theorem vector3_normalizeRef_apply [Add α] [Mul α] [Div α] [Zero α] [DecidableEq α]
    (sqrt : α → α) (mem : ℕ → Vector3 α) (v v0 : ℕ) :
    Vector3.normalizeRef sqrt mem v v0 v = Vector3.normalize sqrt (mem v) (mem v0) := by
  simp only [Vector3.normalizeRef, Vector3.normalize]
  split_ifs <;> simp only [Function.update_same]

/-- The store form of `Vector4::normalize` writes at `v` the value of `normalize`, on the
path that has one. -/
theorem vector4_normalizeRef_apply [Add α] [Mul α] [Zero α] [DecidableEq α]
    (sqrt : α → α) (mem : ℕ → Vector4 α) (v v0 : ℕ) :
    Option.map (fun s => s v) (Vector4.normalizeRef sqrt mem v v0)
      = Vector4.normalize sqrt (mem v) (mem v0) := by
  simp only [Vector4.normalizeRef, Vector4.normalize]
  split_ifs <;> simp only [Option.map_some', Option.map_none', Function.update_same]

/-- The store form of `Quaternion::normalize` writes at `q` the value of `normalize`. -/
theorem quat_normalizeRef_apply [Add α] [Mul α] [Div α] [Zero α] [One α] [DecidableEq α]
    (sqrt : α → α) (mem : ℕ → Quaternion α) (q q0 : ℕ) :
    Quaternion.normalizeRef sqrt mem q q0 q
      = Quaternion.normalize sqrt (mem q) (mem q0) := by
  simp only [Quaternion.normalizeRef, Quaternion.normalize]
  split_ifs <;> simp only [Function.update_same]

/-- The store form of `cross` writes at `v` the value of `cross`. -/
theorem crossRef_apply [Sub α] [Mul α] (mem : ℕ → Vector3 α) (v v1 v2 : ℕ) :
    Vector3.crossRef mem v v1 v2 v = Vector3.cross (mem v) (mem v1) (mem v2) := by
  simp only [Vector3.crossRef, Vector3.cross, Function.update_same]

/-- The store form of `Vector3::transform` leaves at `v` the value of `transform`. -/
theorem transformRef_apply [Add α] [Mul α] [Div α] [Zero α] [DecidableEq α]
    (mem : ℕ → Vector3 α) (v v0 : ℕ) (m : Matrix4 α) :
    Vector3.transformRef mem v v0 m v = Vector3.transform (mem v) (mem v0) m := by
  simp only [Vector3.transformRef, Vector3.transform]
  split_ifs <;> simp only [Function.update_same]

/-- The store form of `transpose` is one write of the value of `transpose`. -/
theorem transposeRef_eq (mem : ℕ → Matrix4 α) (m m0 : ℕ) :
    Matrix4.transposeRef mem m m0
      = Function.update mem m (Matrix4.transpose (mem m) (mem m0)) := by
  have inner : ∀ (i : Fin 4) (s : ℕ → Matrix4 α),
      List.foldl (fun s j => Function.update s m
          ((s m).set (Matrix4.flat i j) ((mem m0).get (Matrix4.flat j i)))) s (List.finRange 4)
        = Function.update s m
            (List.foldl (fun M j => M.set (Matrix4.flat i j) ((mem m0).get (Matrix4.flat j i)))
              (s m) (List.finRange 4)) :=
    fun i s => foldl_update_same
      (fun M j => M.set (Matrix4.flat i j) ((mem m0).get (Matrix4.flat j i))) m _ s
  simp only [Matrix4.transposeRef, inner]
  exact foldl_update_same
    (fun M i => List.foldl
      (fun M j => M.set (Matrix4.flat i j) ((mem m0).get (Matrix4.flat j i))) M
      (List.finRange 4)) m _ mem

/-- The store form of `Matrix4::inverse` leaves at `m` and in `det` the values of
`inverse`. -/
theorem matrix_inverseRef_apply [Add α] [Sub α] [Mul α] [Div α] [Zero α] [One α]
    [DecidableEq α] (mem : ℕ → Matrix4 α) (m m0 : ℕ) (det : Option α) :
    ((Matrix4.inverseRef mem m m0 det).1 m, (Matrix4.inverseRef mem m m0 det).2)
      = Matrix4.inverse (mem m) (mem m0) det := by
  by_cases h : Matrix4.determinant (mem m0) = 0
  · simp only [Matrix4.inverseRef, Matrix4.inverse, if_pos h]
  · simp only [Matrix4.inverseRef, Matrix4.inverse, if_neg h, Function.update_same]

/-- The store form of `Matrix4::inverse` writes nothing on a singular matrix. -/
theorem matrix_inverseRef_singular [Add α] [Sub α] [Mul α] [Div α] [Zero α] [One α]
    [DecidableEq α] (mem : ℕ → Matrix4 α) (m m0 : ℕ) (det : Option α)
    (h : Matrix4.determinant (mem m0) = 0) :
    (Matrix4.inverseRef mem m m0 det).1 = mem := by
  simp only [Matrix4.inverseRef, if_pos h]

/-- The store form of `conjugate` writes at `q` the value of `conjugate`. -/
theorem conjugateRef_apply [Neg α] (mem : ℕ → Quaternion α) (q q0 : ℕ) :
    Quaternion.conjugateRef mem q q0 q = Quaternion.conjugate (mem q) (mem q0) := by
  simp only [Quaternion.conjugateRef, Quaternion.conjugate, Function.update_same]

/-- The store form of `Quaternion::inverse` writes at `q` the value of `inverse`. -/
theorem quat_inverseRef_apply [Add α] [Mul α] [Div α] [Neg α] [Zero α] [One α]
    [DecidableEq α] (sqrt : α → α) (mem : ℕ → Quaternion α) (q q0 : ℕ) :
    Quaternion.inverseRef sqrt mem q q0 q
      = Quaternion.inverse sqrt (mem q) (mem q0) := by
  simp only [Quaternion.inverseRef, Quaternion.inverse, Quaternion.conjugateRef,
    Quaternion.conjugate]
  split_ifs <;> simp only [Function.update_same]

/-- When `w` is not `0`, `Vector3::transform` does not depend on the prior value of its
destination. -/
theorem transform_out_irrelevant [Add α] [Mul α] [Div α] [Zero α] [DecidableEq α]
    (o1 o2 v0 : Vector3 α) (m : Matrix4 α)
    (hw : v0.x * m._14 + v0.y * m._24 + v0.z * m._34 + m._44 ≠ 0) :
    Vector3.transform o1 v0 m = Vector3.transform o2 v0 m := by
  have hne : ¬ v0.x * m._14 + v0.y * m._24 + v0.z * m._34 + m._44 = 0 := hw
  simp only [Vector3.transform, if_neg hne]

/-- On a regular matrix, `Matrix4::inverse` does not depend on the prior value of its
destination. -/
theorem inverse_out_irrelevant [Add α] [Sub α] [Mul α] [Div α] [Zero α] [One α]
    [DecidableEq α] (o1 o2 m0 : Matrix4 α) (det : Option α)
    (h : Matrix4.determinant m0 ≠ 0) :
    Matrix4.inverse o1 m0 det = Matrix4.inverse o2 m0 det := by
  have hne : ¬ Matrix4.determinant m0 = 0 := h
  simp only [Matrix4.inverse, if_neg hne]

/-- C35: over a store of objects, a call whose destination is the address `a` of its
source leaves there what the same call with any destination `o` (a distinct one in
particular) leaves at `o`: `normalize( v, v )` of `Vector2`, `Vector3`, `Vector4` (on the
path that has a value) and `Quaternion`, `Vector3::cross( a, a, b )`,
`Vector3::transform( v, v, m )` when `w != 0` (when `w == 0` neither call writes),
`Matrix4::transpose( m, m )`, `Matrix4::inverse( m, m )` on a regular matrix (on a
singular one neither call writes; `det` is the same in all cases),
`Quaternion::conjugate( q, q )` and `Quaternion::inverse( q, q )`. -/
theorem aliased_destination_eq_distinct [Field α] [DecidableEq α] (sqrt : α → α)
    (s2 : ℕ → Vector2 α) (s3 : ℕ → Vector3 α) (s4 : ℕ → Vector4 α)
    (sm : ℕ → Matrix4 α) (sq : ℕ → Quaternion α) (m : Matrix4 α) (det : Option α)
    (a b o : ℕ) :
    Vector2.normalizeRef sqrt s2 a a a = Vector2.normalizeRef sqrt s2 o a o
      ∧ Vector3.normalizeRef sqrt s3 a a a = Vector3.normalizeRef sqrt s3 o a o
      ∧ Option.map (fun s => s a) (Vector4.normalizeRef sqrt s4 a a)
          = Option.map (fun s => s o) (Vector4.normalizeRef sqrt s4 o a)
      ∧ Quaternion.normalizeRef sqrt sq a a a = Quaternion.normalizeRef sqrt sq o a o
      ∧ Vector3.crossRef s3 a a b a = Vector3.crossRef s3 o a b o
      ∧ ((s3 a).x * m._14 + (s3 a).y * m._24 + (s3 a).z * m._34 + m._44 ≠ 0 →
          Vector3.transformRef s3 a a m a = Vector3.transformRef s3 o a m o)
      ∧ ((s3 a).x * m._14 + (s3 a).y * m._24 + (s3 a).z * m._34 + m._44 = 0 →
          Vector3.transformRef s3 a a m = s3 ∧ Vector3.transformRef s3 o a m = s3)
      ∧ Matrix4.transposeRef sm a a a = Matrix4.transposeRef sm o a o
      ∧ (Matrix4.determinant (sm a) ≠ 0 →
          (Matrix4.inverseRef sm a a det).1 a = (Matrix4.inverseRef sm o a det).1 o)
      ∧ (Matrix4.determinant (sm a) = 0 →
          (Matrix4.inverseRef sm a a det).1 = sm ∧ (Matrix4.inverseRef sm o a det).1 = sm)
      ∧ (Matrix4.inverseRef sm a a det).2 = (Matrix4.inverseRef sm o a det).2
      ∧ Quaternion.conjugateRef sq a a a = Quaternion.conjugateRef sq o a o
      ∧ Quaternion.inverseRef sqrt sq a a a = Quaternion.inverseRef sqrt sq o a o := by
  refine ⟨?_, ?_, ?_, ?_, ?_, ?_, ?_, ?_, ?_, ?_, ?_, ?_, ?_⟩
  · rw [vector2_normalizeRef_apply, vector2_normalizeRef_apply]
    rfl
  · rw [vector3_normalizeRef_apply, vector3_normalizeRef_apply]
    rfl
  · rw [vector4_normalizeRef_apply, vector4_normalizeRef_apply]
    rfl
  · rw [quat_normalizeRef_apply, quat_normalizeRef_apply]
    rfl
  · rw [crossRef_apply, crossRef_apply]
    rfl
  · intro hw
    rw [transformRef_apply, transformRef_apply]
    exact transform_out_irrelevant _ _ _ _ hw
  · intro hw
    simp only [Vector3.transformRef, if_pos hw, and_self]
  · rw [transposeRef_eq, transposeRef_eq, Function.update_same, Function.update_same,
      Matrix4.transpose_eq, Matrix4.transpose_eq]
  · intro hd
    have h1 := congrArg Prod.fst (matrix_inverseRef_apply sm a a det)
    have h2 := congrArg Prod.fst (matrix_inverseRef_apply sm o a det)
    simp only at h1 h2
    rw [h1, h2, inverse_out_irrelevant (sm a) (sm o) (sm a) det hd]
  · intro hd
    exact ⟨matrix_inverseRef_singular sm a a det hd, matrix_inverseRef_singular sm o a det hd⟩
  · have h1 := congrArg Prod.snd (matrix_inverseRef_apply sm a a det)
    have h2 := congrArg Prod.snd (matrix_inverseRef_apply sm o a det)
    simp only at h1 h2
    rw [h1, h2]
    by_cases hd : Matrix4.determinant (sm a) = 0
    · simp only [Matrix4.inverse, if_pos hd]
    · simp only [Matrix4.inverse, if_neg hd]
  · rw [conjugateRef_apply, conjugateRef_apply]
    rfl
  · rw [quat_inverseRef_apply, quat_inverseRef_apply]
    rfl

/-- C35, on the store of vectors holding `(1, 2, 3)` at address `0` and `(4, 5, 6)`
elsewhere, with a matrix whose `w` is `2`, and on the store of matrices holding the
diagonal matrix `(1, 2, 4, 8)` at address `0` and the zero matrix elsewhere; the source
is at `0`, the distinct destination at `1`. -/
theorem aliased_destination_eq_distinct_witness :
    (1 : ℚ) * 0 + 2 * 0 + 3 * 0 + 2 ≠ 0
      ∧ Vector3.transformRef (fun n => if n = 0 then (⟨1, 2, 3⟩ : Vector3 ℚ) else ⟨4, 5, 6⟩)
            0 0 ⟨1, 0, 0, 0, 0, 1, 0, 0, 0, 0, 1, 0, 0, 0, 0, 2⟩ 0
          = Vector3.transformRef (fun n => if n = 0 then (⟨1, 2, 3⟩ : Vector3 ℚ) else ⟨4, 5, 6⟩)
            1 0 ⟨1, 0, 0, 0, 0, 1, 0, 0, 0, 0, 1, 0, 0, 0, 0, 2⟩ 1
      ∧ Matrix4.transposeRef
            (fun n => if n = 0 then (⟨1, 0, 0, 0, 0, 2, 0, 0, 0, 0, 4, 0, 0, 0, 0, 8⟩ : Matrix4 ℚ)
              else Matrix4.zero) 0 0 0
          = Matrix4.transposeRef
            (fun n => if n = 0 then (⟨1, 0, 0, 0, 0, 2, 0, 0, 0, 0, 4, 0, 0, 0, 0, 8⟩ : Matrix4 ℚ)
              else Matrix4.zero) 1 0 1 :=
  have h := aliased_destination_eq_distinct (fun x : ℚ => x)
    (fun _ => Vector2.zero)
    (fun n => if n = 0 then (⟨1, 2, 3⟩ : Vector3 ℚ) else ⟨4, 5, 6⟩)
    (fun _ => Vector4.zero)
    (fun n => if n = 0 then (⟨1, 0, 0, 0, 0, 2, 0, 0, 0, 0, 4, 0, 0, 0, 0, 8⟩ : Matrix4 ℚ)
      else Matrix4.zero)
    (fun _ => Quaternion.new)
    ⟨1, 0, 0, 0, 0, 1, 0, 0, 0, 0, 1, 0, 0, 0, 0, 2⟩ none 0 0 1
  ⟨by norm_num, h.2.2.2.2.2.1 (by norm_num), h.2.2.2.2.2.2.2.1⟩

end Aliasing

end MiyabiMath
